import Mathlib

/-!
# notification-api: reliable publish subsystem

A shallow embedding of `notification-api/internal/{models,repository,publisher,service}`
and of the status handler in `internal/api/handlers`.

* Go `error` values are represented by their `Error()` text; a nil error is `none`.
* `time.Time` is a number of nanoseconds since the Unix epoch, rendered in UTC.
* The MongoDB collection is the list of its documents in natural (insertion) order.
* The outside world (clock, ObjectID generator, store faults, AMQP dial and send
  results) is an `Env` of answer streams; each side of the system keeps a cursor
  into the streams it consumes.
* Loops that the source does not bound (`reconnect`) take fuel; running out of
  fuel is the outcome `Outcome.outOfFuel`, a nil dereference or a double
  `close` of a Go channel is `Outcome.panicked`.
-/

namespace NotificationApi

/-! ## models/notification.go -/

/-- Nanoseconds since the Unix epoch. -/
abbrev Time := Nat

/-- The 12 bytes of a `primitive.ObjectID`, kept as 24 hexadecimal nibbles. -/
abbrev ObjectID := { l : List (Fin 16) // l.length = 24 }

/-- The zero value `primitive.NilObjectID`. -/
def NilObjectID : ObjectID := ⟨List.replicate 24 0, by decide⟩

/-- Lower-case hexadecimal digit of a nibble, as `encoding/hex` writes it. -/
def hexDigit (n : Fin 16) : Char :=
  if n.val < 10 then Char.ofNat (48 + n.val) else Char.ofNat (87 + n.val)

/-- Value of one hexadecimal character; `encoding/hex` accepts both cases. -/
def fromHexChar (c : Char) : Option (Fin 16) :=
  let n := c.toNat
  if 48 ≤ n ∧ n ≤ 57 then some (Fin.ofNat (n - 48))
  else if 97 ≤ n ∧ n ≤ 102 then some (Fin.ofNat (n - 87))
  else if 65 ≤ n ∧ n ≤ 70 then some (Fin.ofNat (n - 55))
  else none

/-- Decoding of a list of hexadecimal characters, failing on the first bad one. -/
def decodeHex : List Char → Option (List (Fin 16))
  | [] => some []
  | c :: cs =>
    match fromHexChar c, decodeHex cs with
    | some n, some ns => some (n :: ns)
    | _, _ => none

/-- The method `ObjectID.Hex`: 24 lower-case hexadecimal characters. -/
def Hex (o : ObjectID) : String := String.mk (o.val.map hexDigit)

/-- The function `primitive.ObjectIDFromHex`: the string must be 24 hexadecimal characters. -/
def ObjectIDFromHex (s : String) : Option ObjectID :=
  match decodeHex s.data with
  | some l => if h : l.length = 24 then some ⟨l, h⟩ else none
  | none => none

/-- NotificationStatus with its three constants. -/
inductive NotificationStatus where
  | StatusPending
  | StatusDelivered
  | StatusFailed
  deriving DecidableEq, Repr

export NotificationStatus (StatusPending StatusDelivered StatusFailed)

/-- NotificationMessage; `MsgType` is the field `Type`, `ExtraInfo` the map as a key/value list. -/
structure NotificationMessage where
  ID : String
  MsgType : String
  Message : String
  Phone : String
  ImageURL : String
  ExtraInfo : List (String × String)
  CreatedAt : Time
  deriving DecidableEq, Repr

/-- NotificationRecord, the document kept in MongoDB. -/
structure NotificationRecord where
  ID : ObjectID
  Message : NotificationMessage
  Status : NotificationStatus
  QueuedAt : Time
  DeliveredAt : Option Time
  RetryCount : Int
  Error : String
  deriving DecidableEq, Repr

/-- NotificationRequest; a nil `ExtraInfo` map is `none`. -/
structure NotificationRequest where
  MsgType : String
  Message : String
  Phone : String
  ImageURL : String
  ExtraInfo : Option (List (String × String))
  deriving DecidableEq, Repr

/-- Decimal digit character. -/
def digitChar (d : Nat) : Char := Char.ofNat (48 + d % 10)

/-- Two decimal digits, zero padded. -/
def pad2 (n : Nat) : List Char := [digitChar (n / 10), digitChar n]

/-- Four decimal digits, zero padded (the year, for years up to 9999). -/
def pad4 (n : Nat) : List Char :=
  [digitChar (n / 1000), digitChar (n / 100), digitChar (n / 10), digitChar n]

/-- Civil date (year, month, day) of a day number counted from 1970-01-01. -/
def civilFromDays (days : Nat) : Nat × Nat × Nat :=
  let z := days + 719468
  let era := z / 146097
  let doe := z % 146097
  let yoe := (doe - doe / 1460 + doe / 36524 - doe / 146096) / 365
  let doy := doe - (365 * yoe + yoe / 4 - yoe / 100)
  let mp := (5 * doy + 2) / 153
  let d := doy - (153 * mp + 2) / 5 + 1
  let m := if mp < 10 then mp + 3 else mp - 9
  let y := yoe + era * 400
  (if m ≤ 2 then y + 1 else y, m, d)

/-- The call `t.Format("20060102150405")`: year, month, day, hour, minute and
second of `t`; the layout has no sub-second field. -/
def formatTimestamp (t : Time) : String :=
  let secs := t / 1000000000
  let ymd := civilFromDays (secs / 86400)
  let sod := secs % 86400
  String.mk (pad4 ymd.1 ++ pad2 ymd.2.1 ++ pad2 ymd.2.2 ++
    pad2 (sod / 3600) ++ pad2 (sod % 3600 / 60) ++ pad2 (sod % 60))

/-- NewNotificationMessage; `tID` and `tCreated` are its two readings of `time.Now()`. -/
def NewNotificationMessage (tID tCreated : Time) (msgType message phone imageURL : String) :
    NotificationMessage :=
  { ID := formatTimestamp tID
    MsgType := msgType
    Message := message
    Phone := phone
    ImageURL := imageURL
    ExtraInfo := []
    CreatedAt := tCreated }

/-- NewNotificationRecord; `tQueued` is its reading of `time.Now()`. -/
def NewNotificationRecord (tQueued : Time) (message : NotificationMessage) : NotificationRecord :=
  { ID := NilObjectID
    Message := message
    Status := StatusPending
    QueuedAt := tQueued
    DeliveredAt := none
    RetryCount := 0
    Error := "" }

/-! ## The outside world -/

/-- What the AMQP library answers to the calls of one `connect` attempt:
`amqp.Dial` fails, `conn.Channel` fails, `ExchangeDeclarePassive` fails, or all
three succeed and hand back a connection and a channel handle. -/
inductive ConnectOutcome where
  | dialFailed (err : String)
  | channelFailed (err : String)
  | exchangeFailed (err : String)
  | established (conn ch : Nat)
  deriving DecidableEq, Repr

/-- Answers of the environment, each stream indexed by how many answers of
that kind were consumed before: clock readings, driver-generated ObjectIDs,
faults of a MongoDB round trip (`none`: the server answers), results of a
connect attempt, results of `PublishWithContext` (`none`: nil error). The last
field is the order in which the server lists documents whose sort keys are
equal, which MongoDB leaves unspecified: `tieRank q` ranks the documents (by
`_id`) for the query served as round trip `q`, lower rank first, documents of
equal rank in insertion order. The default is insertion order. -/
structure Env where
  now : Nat → Time
  newObjectID : Nat → ObjectID
  storeErr : Nat → Option String
  dial : Nat → ConnectOutcome
  send : Nat → Option String
  tieRank : Nat → ObjectID → Nat := fun _ _ => 0

/-- How a call that may loop or panic ends. -/
inductive Outcome (α : Type) where
  | ok (a : α)
  | outOfFuel
  | panicked (reason : String)
  deriving DecidableEq, Repr

/-- Sequencing of calls: a call that does not return stops the caller too. -/
def Outcome.bind {α β : Type} (x : Outcome α) (f : α → Outcome β) : Outcome β :=
  match x with
  | .ok a => f a
  | .outOfFuel => .outOfFuel
  | .panicked r => .panicked r

/-! ## repository/mongodb.go -/

/-- One invocation of `UpdateStatus`: its three arguments and the error it
returned (`none`: it returned nil). -/
structure UpdateCall where
  id : String
  status : NotificationStatus
  err : Option String
  result : Option String
  deriving DecidableEq, Repr

/-- The collection and what the repository has consumed and done so far:
`docs` are the documents in natural order, `storeCalls` counts round trips,
`clockReads` counts readings of `time.Now()` on the request path, and
`updateCalls` is the history of `UpdateStatus` invocations, oldest first. -/
structure StoreSide where
  docs : List NotificationRecord
  storeCalls : Nat
  clockReads : Nat
  updateCalls : List UpdateCall
  deriving DecidableEq, Repr

/-- The call `collection.InsertOne`: a zero `_id` is omitted (`omitempty`) and
the driver generates one; the server rejects a duplicate `_id` and, because of
the unique index on `message.id` made by `NewMongoRepository`, a duplicate
message identifier. -/
def insertOne (env : Env) (s : StoreSide) (doc : NotificationRecord) :
    Except String (List NotificationRecord × ObjectID) :=
  let stored := if doc.ID = NilObjectID then { doc with ID := env.newObjectID s.storeCalls } else doc
  match env.storeErr s.storeCalls with
  | some e => .error e
  | none =>
    if ∃ d ∈ s.docs, d.ID = stored.ID then
      .error "E11000 duplicate key error: _id"
    else if ∃ d ∈ s.docs, d.Message.ID = stored.Message.ID then
      .error "E11000 duplicate key error: message.id"
    else .ok (s.docs ++ [stored], stored.ID)

/-- SaveNotification stores a notification and returns the hexadecimal `_id`. -/
def SaveNotification (env : Env) (s : StoreSide) (notification : NotificationRecord) :
    StoreSide × Except String String :=
  match insertOne env s notification with
  | .error e =>
    ({ s with storeCalls := s.storeCalls + 1 }, .error ("failed to save notification: " ++ e))
  | .ok (docs, oid) =>
    ({ s with docs := docs, storeCalls := s.storeCalls + 1 }, .ok (Hex oid))

/-- The update document built by `UpdateStatus`, applied to one record:
`$set status`; with an error also `$set error` and `$inc retry_count 1`;
for status delivered also `$set delivered_at`. -/
def applyUpdate (status : NotificationStatus) (err : Option String) (now : Time)
    (d : NotificationRecord) : NotificationRecord :=
  let d1 := { d with Status := status }
  let d2 := match err with
    | some e => { d1 with Error := e, RetryCount := d1.RetryCount + 1 }
    | none => d1
  if status = StatusDelivered then { d2 with DeliveredAt := some now } else d2

/-- The call `collection.UpdateOne` with filter `_id = oid`: the first matching document is
rewritten, and no match is not an error. -/
def updateOne (oid : ObjectID) (f : NotificationRecord → NotificationRecord) :
    List NotificationRecord → List NotificationRecord
  | [] => []
  | d :: ds => if d.ID = oid then f d :: ds else d :: updateOne oid f ds

/-- The call `collection.FindOne` with filter `_id = oid`. -/
def findOne (oid : ObjectID) (docs : List NotificationRecord) : Option NotificationRecord :=
  docs.find? (fun d => decide (d.ID = oid))

/-- UpdateStatus updates the status of a notification; returns the error, if any. Every
exit appends the invocation and its result to `updateCalls`. -/
def UpdateStatus (env : Env) (s : StoreSide) (id : String) (status : NotificationStatus)
    (err : Option String) : StoreSide × Option String :=
  match ObjectIDFromHex id with
  | none =>
    let parseErr := "invalid object ID: the provided hex string is not a valid ObjectID"
    ({ s with updateCalls := s.updateCalls ++ [⟨id, status, err, some parseErr⟩] }, some parseErr)
  | some objectID =>
    let now := env.now s.clockReads
    let s1 := if status = StatusDelivered then { s with clockReads := s.clockReads + 1 } else s
    let s2 := { s1 with storeCalls := s1.storeCalls + 1 }
    match env.storeErr s1.storeCalls with
    | some e =>
      let updateErr := "failed to update notification status: " ++ e
      ({ s2 with updateCalls := s2.updateCalls ++ [⟨id, status, err, some updateErr⟩] },
        some updateErr)
    | none =>
      ({ s2 with docs := updateOne objectID (applyUpdate status err now) s2.docs,
                 updateCalls := s2.updateCalls ++ [⟨id, status, err, none⟩] }, none)

/-- GetNotificationByID retrieves a notification by ID; `none` is "not found". -/
def GetNotificationByID (env : Env) (s : StoreSide) (id : String) :
    StoreSide × Except String (Option NotificationRecord) :=
  match ObjectIDFromHex id with
  | none => (s, .error "invalid object ID: the provided hex string is not a valid ObjectID")
  | some objectID =>
    let s1 := { s with storeCalls := s.storeCalls + 1 }
    match env.storeErr s.storeCalls with
    | some e => (s1, .error ("failed to get notification: " ++ e))
    | none => (s1, .ok (findOne objectID s.docs))

/-- Value of the sort key `created_at` of a stored document. The document of a
NotificationRecord has the top-level fields `_id`, `message`, `status`,
`queued_at`, `delivered_at`, `retry_count` and `error`; the creation time is
the nested field `message.created_at`, so the key is missing (null) in every
document. -/
def sortKeyCreatedAt (_d : NotificationRecord) : Option Time := none

/-- Ascending BSON order on the sort key: null sorts before every date. -/
def sortKeyLE : Option Time → Option Time → Bool
  | none, _ => true
  | some _, none => false
  | some a, some b => decide (a ≤ b)

/-- Whether the document `x` stays ahead of a document `d` in an ascending sort on
`created_at`: by the key, and between equal keys by the rank the server gives. -/
def listedBefore (rank : ObjectID → Nat) (x d : NotificationRecord) : Bool :=
  if sortKeyCreatedAt x = sortKeyCreatedAt d then decide (rank x.ID ≤ rank d.ID)
  else sortKeyLE (sortKeyCreatedAt x) (sortKeyCreatedAt d)

/-- Insertion of a document into a sorted list, after the documents that are listed
before it. -/
def insertByKey (rank : ObjectID → Nat) (d : NotificationRecord) :
    List NotificationRecord → List NotificationRecord
  | [] => [d]
  | x :: xs =>
    if listedBefore rank x d then x :: insertByKey rank d xs
    else d :: x :: xs

/-- Sort by the key `created_at`, ascending; documents with equal keys come in the
order of their rank, and in insertion order where the rank is equal too. -/
def sortByCreatedAt (rank : ObjectID → Nat) (l : List NotificationRecord) :
    List NotificationRecord :=
  l.foldl (fun acc d => insertByKey rank d acc) []

/-- The option `SetLimit`: 0 is no limit, a negative limit is its absolute value. -/
def applyLimit (limit : Int) (l : List NotificationRecord) : List NotificationRecord :=
  if limit = 0 then l else l.take limit.natAbs

/-- GetPendingNotifications retrieves pending notifications. -/
def GetPendingNotifications (env : Env) (s : StoreSide) (limit : Int) :
    StoreSide × Except String (List NotificationRecord) :=
  let s1 := { s with storeCalls := s.storeCalls + 1 }
  match env.storeErr s.storeCalls with
  | some e => (s1, .error ("failed to get pending notifications: " ++ e))
  | none =>
    (s1, .ok (applyLimit limit
      (sortByCreatedAt (env.tieRank s.storeCalls)
        (s.docs.filter (fun d => decide (d.Status = StatusPending))))))

/-! ## publisher/rabbitmq.go -/

/-- The mutable fields of RabbitMQPublisher: the two AMQP handles (nil is
`none`), the buffered channel `asyncChannel` as the list of buffered messages
(oldest first), the flag `isConnected`, and whether the channel `done` has
been closed. -/
structure RabbitMQPublisher where
  connection : Option Nat
  channel : Option Nat
  asyncChannel : List NotificationMessage
  isConnected : Bool
  doneClosed : Bool
  deriving DecidableEq, Repr

/-- Buffer size of `asyncChannel`, the constant in `make(chan models.NotificationMessage, 100)`. -/
def asyncCapacity : Nat := 100

/-- The publisher, the worker's local map `retryQueue` (as a key/value list
with distinct keys), the cursors into the dial and send answers, and the
history of calls: `publishCalls` are the invocations of `Publish`,
`directAttempts` those of `publishDirect`, `brokerAcks` the messages for which
`PublishWithContext` returned nil. `monitorStarted` tells whether a
`connectionMonitor` goroutine has been spawned. -/
structure BrokerSide where
  pub : RabbitMQPublisher
  retryQueue : List (String × NotificationMessage)
  dialCalls : Nat
  sendCalls : Nat
  publishCalls : List NotificationMessage
  directAttempts : List NotificationMessage
  brokerAcks : List NotificationMessage
  monitorStarted : Bool := false
  deriving DecidableEq, Repr

/-- The method `connect`: nothing to do when already connected; otherwise dial,
open a channel, check the exchange, and only when all three succeed store the
handles and set `isConnected`. -/
def connect (env : Env) (b : BrokerSide) : BrokerSide × Option String :=
  if b.pub.isConnected then (b, none)
  else
    let b1 := { b with dialCalls := b.dialCalls + 1 }
    match env.dial b.dialCalls with
    | .dialFailed e => (b1, some ("error connecting to RabbitMQ: " ++ e))
    | .channelFailed e => (b1, some ("error creating RabbitMQ channel: " ++ e))
    | .exchangeFailed e => (b1, some ("error declaring exchange: " ++ e))
    | .established conn ch =>
      ({ b1 with pub := { b1.pub with
          connection := some conn, channel := some ch, isConnected := true } }, none)

/-- The method `reconnect`: loops until `isConnected` is seen or a connect attempt succeeds;
one unit of fuel per connect attempt. -/
def reconnect (env : Env) : Nat → BrokerSide → Outcome BrokerSide
  | 0, b => if b.pub.isConnected then .ok b else .outOfFuel
  | fuel + 1, b =>
    if b.pub.isConnected then .ok b
    else
      match connect env b with
      | (b1, some _) => reconnect env fuel b1
      | (b1, none) => .ok b1

/-- The method `handleDisconnect`: clears the flag, closes and forgets both handles, then
calls `reconnect`. -/
def handleDisconnect (env : Env) (fuel : Nat) (b : BrokerSide) : Outcome BrokerSide :=
  reconnect env fuel
    { b with pub := { b.pub with isConnected := false, channel := none, connection := none } }

/-- The method `connectionMonitor` up to its select loop: `reconnect` when the
flag is not set. -/
def connectionMonitorStart (env : Env) (fuel : Nat) (b : BrokerSide) : Outcome BrokerSide :=
  if b.pub.isConnected = false then reconnect env fuel b else .ok b

/-- Arrival of a liveness signal (connection closed or channel closed). The two signal
channels are read by the select loop of `connectionMonitor` only: with a monitor
goroutine spawned and `done` open, the loop calls `handleDisconnect`; without one
nobody receives the signal and no field of the publisher changes. -/
def livenessSignal (env : Env) (fuel : Nat) (b : BrokerSide) : Outcome BrokerSide :=
  if b.monitorStarted = true ∧ b.pub.doneClosed = false then handleDisconnect env fuel b
  else .ok b

/-- The method `Close`: `close(p.done)` first, which panics when `done` is closed already;
then both handles are closed if present (neither is set to nil, the flag is not
touched) and the result of `p.connection.Close()`, here `closeErr`, is returned. -/
def Close (closeErr : Option String) (b : BrokerSide) : Outcome (BrokerSide × Option String) :=
  if b.pub.doneClosed then .panicked "close of closed channel"
  else
    let b1 := { b with pub := { b.pub with doneClosed := true } }
    match b1.pub.connection with
    | some _ => .ok (b1, closeErr)
    | none => .ok (b1, none)

/-- The method `publishDirect`: an error at once when not connected; otherwise one
`PublishWithContext` on the channel, and on its failure `handleDisconnect`
before the error is returned. -/
def publishDirect (env : Env) (fuel : Nat) (b : BrokerSide) (msg : NotificationMessage) :
    Outcome (BrokerSide × Option String) :=
  let b0 := { b with directAttempts := b.directAttempts ++ [msg] }
  if b0.pub.isConnected = false then .ok (b0, some "not connected to RabbitMQ")
  else
    match b0.pub.channel with
    | none => .panicked "nil pointer dereference: p.channel"
    | some _ =>
      let b1 := { b0 with sendCalls := b0.sendCalls + 1 }
      match env.send b0.sendCalls with
      | some e =>
        (handleDisconnect env fuel b1).bind fun b2 =>
          .ok (b2, some ("error publishing message: " ++ e))
      | none => .ok ({ b1 with brokerAcks := b1.brokerAcks ++ [msg] }, none)

/-- The method `Publish`: a non-blocking send on `asyncChannel`, and `publishDirect` when
the buffer is full. -/
def Publish (env : Env) (fuel : Nat) (b : BrokerSide) (msg : NotificationMessage) :
    Outcome (BrokerSide × Option String) :=
  let b0 := { b with publishCalls := b.publishCalls ++ [msg] }
  if b0.pub.asyncChannel.length < asyncCapacity then
    .ok ({ b0 with pub := { b0.pub with asyncChannel := b0.pub.asyncChannel ++ [msg] } }, none)
  else publishDirect env fuel b0 msg

/-- The broker side once `msg` has been accepted into the buffer: the call is in
`publishCalls`, the message is the last of `asyncChannel`, nothing else has changed. -/
def enqueued (b : BrokerSide) (msg : NotificationMessage) : BrokerSide :=
  { b with publishCalls := b.publishCalls ++ [msg],
           pub := { b.pub with asyncChannel := b.pub.asyncChannel ++ [msg] } }

/-- A burst of `Publish` calls, one per message, with no worker step in between (the
worker is paused); the results are collected in order. -/
def publishAll (env : Env) (fuel : Nat) :
    List NotificationMessage → BrokerSide → Outcome (BrokerSide × List (Option String))
  | [], b => .ok (b, [])
  | msg :: rest, b =>
    match Publish env fuel b msg with
    | .outOfFuel => .outOfFuel
    | .panicked r => .panicked r
    | .ok (b1, res) =>
      match publishAll env fuel rest b1 with
      | .outOfFuel => .outOfFuel
      | .panicked r => .panicked r
      | .ok (b2, results) => .ok (b2, res :: results)

/-- The loop of `publishWithRetry` with `n` iterations left; `lastErr` is the variable of
that name. -/
def publishWithRetryLoop (env : Env) (fuel : Nat) (msg : NotificationMessage) (maxRetries : Nat) :
    Nat → BrokerSide → Option String → Outcome (BrokerSide × Option String)
  | 0, b, lastErr =>
    .ok (b, some ("failed after " ++ toString maxRetries ++ " attempts: " ++ lastErr.getD "<nil>"))
  | n + 1, b, lastErr =>
    match (if b.pub.isConnected = false then reconnect env fuel b else .ok b) with
    | .outOfFuel => .outOfFuel
    | .panicked r => .panicked r
    | .ok b1 =>
      if b1.pub.isConnected = false then publishWithRetryLoop env fuel msg maxRetries n b1 lastErr
      else
        match publishDirect env fuel b1 msg with
        | .outOfFuel => .outOfFuel
        | .panicked r => .panicked r
        | .ok (b2, some e) => publishWithRetryLoop env fuel msg maxRetries n b2 (some e)
        | .ok (b2, none) => .ok (b2, none)

/-- The method `publishWithRetry`. -/
def publishWithRetry (env : Env) (fuel : Nat) (b : BrokerSide) (msg : NotificationMessage)
    (maxRetries : Nat) : Outcome (BrokerSide × Option String) :=
  publishWithRetryLoop env fuel msg maxRetries maxRetries b none

/-- The assignment `retryQueue[id] = msg`. -/
def mapInsert (id : String) (msg : NotificationMessage) :
    List (String × NotificationMessage) → List (String × NotificationMessage)
  | [] => [(id, msg)]
  | (k, v) :: rest => if k = id then (k, msg) :: rest else (k, v) :: mapInsert id msg rest

/-- The call `delete(retryQueue, id)`. -/
def mapDelete (id : String) (m : List (String × NotificationMessage)) :
    List (String × NotificationMessage) :=
  m.filter (fun kv => decide (kv.1 ≠ id))

/-- The lookup `retryQueue[id]`. -/
def mapGet (id : String) (m : List (String × NotificationMessage)) : Option NotificationMessage :=
  (m.find? (fun kv => decide (kv.1 = id))).map (fun kv => kv.2)

/-- The worker's case `msg := <-p.asyncChannel`: three inline attempts, then the retry
queue. With an empty buffer the case is not ready and nothing happens. -/
def workerReceive (env : Env) (fuel : Nat) (b : BrokerSide) : Outcome BrokerSide :=
  match b.pub.asyncChannel with
  | [] => .ok b
  | msg :: rest =>
    match publishWithRetry env fuel { b with pub := { b.pub with asyncChannel := rest } } msg 3 with
    | .outOfFuel => .outOfFuel
    | .panicked r => .panicked r
    | .ok (b1, some _) => .ok { b1 with retryQueue := mapInsert msg.ID msg b1.retryQueue }
    | .ok (b1, none) => .ok b1

/-- The range loop of the worker's ticker case over the entries of the retry queue. -/
def sweepRetryQueue (env : Env) (fuel : Nat) :
    List (String × NotificationMessage) → BrokerSide → Outcome BrokerSide
  | [], b => .ok b
  | (id, msg) :: rest, b =>
    if b.pub.isConnected then
      match publishWithRetry env fuel b msg 1 with
      | .outOfFuel => .outOfFuel
      | .panicked r => .panicked r
      | .ok (b1, none) =>
        sweepRetryQueue env fuel rest { b1 with retryQueue := mapDelete id b1.retryQueue }
      | .ok (b1, some _) => sweepRetryQueue env fuel rest b1
    else sweepRetryQueue env fuel rest b

/-- The worker's case `<-ticker.C`; the entries are visited in the order of the list. -/
def workerTick (env : Env) (fuel : Nat) (b : BrokerSide) : Outcome BrokerSide :=
  if b.retryQueue.length > 0 then sweepRetryQueue env fuel b.retryQueue b else .ok b

/-! ## service/notification.go -/

/-- Both collaborators of NotificationService. -/
structure World where
  store : StoreSide
  broker : BrokerSide
  deriving DecidableEq, Repr

/-- The message `CreateNotification` builds (lines 31 to 36). -/
def requestMessage (env : Env) (s : StoreSide) (req : NotificationRequest) : NotificationMessage :=
  let notificationMsg := NewNotificationMessage (env.now s.clockReads) (env.now (s.clockReads + 1))
    req.MsgType req.Message req.Phone req.ImageURL
  match req.ExtraInfo with
  | some extra => { notificationMsg with ExtraInfo := extra }
  | none => notificationMsg

/-- The first half of `CreateNotification` (lines 31 to 42): build the message and the
pending record, and save the record. -/
def createSave (env : Env) (s : StoreSide) (req : NotificationRequest) :
    StoreSide × Except String String :=
  let notificationMsg := requestMessage env s req
  let notificationRecord := NewNotificationRecord (env.now (s.clockReads + 2)) notificationMsg
  SaveNotification env { s with clockReads := s.clockReads + 3 } notificationRecord

/-- The document a successful `createSave` adds to the collection: the pending record
under the `_id` the driver generated for it. -/
def savedRecord (env : Env) (s : StoreSide) (req : NotificationRequest) : NotificationRecord :=
  { NewNotificationRecord (env.now (s.clockReads + 2)) (requestMessage env s req) with
    ID := env.newObjectID s.storeCalls }

/-- CreateNotification creates a notification, stores it and publishes it. -/
def CreateNotification (env : Env) (fuel : Nat) (w : World) (req : NotificationRequest) :
    Outcome (World × Except String String) :=
  match createSave env w.store req with
  | (s1, .error err) =>
    .ok ({ w with store := s1 }, .error ("failed to save notification: " ++ err))
  | (s1, .ok id) =>
    match Publish env fuel w.broker (requestMessage env w.store req) with
    | .outOfFuel => .outOfFuel
    | .panicked r => .panicked r
    | .ok (b1, some err) =>
      let (s2, _updateErr) := UpdateStatus env s1 id StatusFailed (some err)
      .ok ({ store := s2, broker := b1 }, .error ("failed to publish notification: " ++ err))
    | .ok (b1, none) => .ok ({ store := s1, broker := b1 }, .ok id)

/-- GetNotification retrieves a notification by ID. -/
def GetNotification (env : Env) (w : World) (id : String) :
    World × Except String (Option NotificationRecord) :=
  match GetNotificationByID env w.store id with
  | (s1, .error err) => ({ w with store := s1 }, .error ("failed to get notification: " ++ err))
  | (s1, .ok notification) => ({ w with store := s1 }, .ok notification)

/-- The body of the loop of `RetryFailedNotifications` for one record of the batch; the
flag tells whether `retryCount` is incremented. -/
def retryOne (env : Env) (fuel : Nat) (maxRetries : Int) (w : World)
    (notification : NotificationRecord) : Outcome (World × Bool) :=
  if notification.RetryCount ≥ maxRetries then .ok (w, false)
  else
    match Publish env fuel w.broker notification.Message with
    | .outOfFuel => .outOfFuel
    | .panicked r => .panicked r
    | .ok (b1, some err) =>
      let (s1, _updateErr) := UpdateStatus env w.store (Hex notification.ID) StatusFailed (some err)
      .ok ({ store := s1, broker := b1 }, false)
    | .ok (b1, none) =>
      match UpdateStatus env w.store (Hex notification.ID) StatusPending none with
      | (s1, some _) => .ok ({ store := s1, broker := b1 }, false)
      | (s1, none) => .ok ({ store := s1, broker := b1 }, true)

/-- The loop of `RetryFailedNotifications` over the batch, `retryCount` being the counter. -/
def retryLoop (env : Env) (fuel : Nat) (maxRetries : Int) :
    List NotificationRecord → World → Nat → Outcome (World × Nat)
  | [], w, retryCount => .ok (w, retryCount)
  | notification :: rest, w, retryCount =>
    match retryOne env fuel maxRetries w notification with
    | .outOfFuel => .outOfFuel
    | .panicked r => .panicked r
    | .ok (w1, counted) =>
      retryLoop env fuel maxRetries rest w1 (if counted then retryCount + 1 else retryCount)

/-- RetryFailedNotifications retries the pending notifications, in batches of 100. -/
def RetryFailedNotifications (env : Env) (fuel : Nat) (w : World) (maxRetries : Int) :
    Outcome (World × Except String Nat) :=
  match GetPendingNotifications env w.store 100 with
  | (s1, .error err) =>
    .ok ({ w with store := s1 }, .error ("failed to get failed notifications: " ++ err))
  | (s1, .ok failedNotifications) =>
    match retryLoop env fuel maxRetries failedNotifications { w with store := s1 } 0 with
    | .outOfFuel => .outOfFuel
    | .panicked r => .panicked r
    | .ok (w1, retryCount) => .ok (w1, .ok retryCount)

/-- MarkAsDelivered marks a notification as delivered. -/
def MarkAsDelivered (env : Env) (w : World) (id : String) : World × Option String :=
  match UpdateStatus env w.store id StatusDelivered none with
  | (s1, some err) =>
    ({ w with store := s1 }, some ("failed to mark notification as delivered: " ++ err))
  | (s1, none) => ({ w with store := s1 }, none)

/-- MarkAsFailed marks a notification as failed. -/
def MarkAsFailed (env : Env) (w : World) (id : String) (err : Option String) :
    World × Option String :=
  match UpdateStatus env w.store id StatusFailed err with
  | (s1, some updateErr) =>
    ({ w with store := s1 }, some ("failed to mark notification as failed: " ++ updateErr))
  | (s1, none) => ({ w with store := s1 }, none)

/-! ## api/handlers/notification.go -/

/-- The handler `NotificationHandler.UpdateStatus` (PATCH `/notifications/:id/status`); the
result is the HTTP status code. The body binding admits only the status texts
"delivered" and "failed"; a "failed" update passes a nil error to `MarkAsFailed`. -/
def NotificationHandler.UpdateStatus (env : Env) (w : World) (id : String) (status : String) : World × Nat :=
  if id = "" then (w, 400)
  else if status ≠ "delivered" ∧ status ≠ "failed" then (w, 400)
  else
    match GetNotification env w id with
    | (w1, .error _) => (w1, 500)
    | (w1, .ok none) => (w1, 404)
    | (w1, .ok (some _)) =>
      let (w2, updateErr) :=
        if status = "delivered" then MarkAsDelivered env w1 id else MarkAsFailed env w1 id none
      match updateErr with
      | some _ => (w2, 500)
      | none => (w2, 200)

/-! ## Runs of the system -/

/-- One sequential step of the system: a call of a service method, a status
request to the handler, or one ready case of the dispatch worker. -/
inductive Op where
  | create (req : NotificationRequest)
  | get (id : String)
  | retry (maxRetries : Int)
  | markDelivered (id : String)
  | markFailed (id : String) (err : Option String)
  | patchStatus (id : String) (status : String)
  | workerReceive
  | workerTick
  deriving DecidableEq, Repr

/-- Effect of one step on the world. -/
def step (env : Env) (fuel : Nat) (w : World) : Op → Outcome World
  | .create req => (CreateNotification env fuel w req).bind fun r => .ok r.1
  | .get id => .ok (GetNotification env w id).1
  | .retry maxRetries => (RetryFailedNotifications env fuel w maxRetries).bind fun r => .ok r.1
  | .markDelivered id => .ok (MarkAsDelivered env w id).1
  | .markFailed id err => .ok (MarkAsFailed env w id err).1
  | .patchStatus id status => .ok (NotificationHandler.UpdateStatus env w id status).1
  | .workerReceive => (workerReceive env fuel w.broker).bind fun b => .ok { w with broker := b }
  | .workerTick => (workerTick env fuel w.broker).bind fun b => .ok { w with broker := b }

/-- Effect of a sequence of steps. -/
def run (env : Env) (fuel : Nat) : List Op → World → Outcome World
  | [], w => .ok w
  | op :: ops, w => (step env fuel w op).bind (run env fuel ops)

/-- Number of recorded failures of the record `oid` in a history of `UpdateStatus` calls:
the calls for that identifier that carried an error and returned nil. -/
def recordedFailures (oid : ObjectID) (calls : List UpdateCall) : Nat :=
  (calls.filter (fun c =>
    decide (ObjectIDFromHex c.id = some oid ∧ c.err ≠ none ∧ c.result = none))).length

/-- The step `op` asks for the status delivered under the identifier text `id`: a call of
`MarkAsDelivered`, or a status request "delivered" to the handler. -/
def marksDelivered (id : String) (op : Op) : Prop :=
  op = .markDelivered id ∨ op = .patchStatus id "delivered"

/-- The store state `s2` is reached from `s1` by repository calls only: readings of the
clock, inserts of records built by `NewNotificationRecord`, `UpdateStatus` calls whose
identifier and status satisfy `allowed`, and lookups. -/
inductive Evolves (env : Env) (allowed : String → NotificationStatus → Prop) :
    StoreSide → StoreSide → Prop where
  | refl (s : StoreSide) : Evolves env allowed s s
  | clock (s s2 : StoreSide) (n : Nat) :
      Evolves env allowed { s with clockReads := s.clockReads + n } s2 → Evolves env allowed s s2
  | save (s s2 : StoreSide) (t : Time) (msg : NotificationMessage) :
      Evolves env allowed (SaveNotification env s (NewNotificationRecord t msg)).1 s2 →
      Evolves env allowed s s2
  | update (s s2 : StoreSide) (id : String) (status : NotificationStatus) (err : Option String) :
      allowed id status →
      Evolves env allowed (UpdateStatus env s id status err).1 s2 → Evolves env allowed s s2
  | get (s s2 : StoreSide) (id : String) :
      Evolves env allowed (GetNotificationByID env s id).1 s2 → Evolves env allowed s s2
  | pending (s s2 : StoreSide) (limit : Int) :
      Evolves env allowed (GetPendingNotifications env s limit).1 s2 → Evolves env allowed s s2

/-- The two unique indexes of the collection hold: no two documents share an `_id`, no
two share a `message.id`. -/
def StoreIndexed (s : StoreSide) : Prop :=
  (s.docs.map (fun d => d.ID)).Nodup ∧ (s.docs.map (fun d => d.Message.ID)).Nodup

/-- The records of a batch that `RetryFailedNotifications` does not skip. -/
def eligible (maxRetries : Int) (batch : List NotificationRecord) : List NotificationRecord :=
  batch.filter (fun n => decide (n.RetryCount < maxRetries))

/-- Number of calls in a history of `UpdateStatus` calls that set pending and returned
nil: in `RetryFailedNotifications` these are the calls after which `retryCount++` runs. -/
def countedCalls (calls : List UpdateCall) : Nat :=
  (calls.filter (fun c => decide (c.status = StatusPending ∧ c.result = none))).length

/-- The arguments of an `UpdateStatus` call, without its result. -/
def callArgs (c : UpdateCall) : String × NotificationStatus × Option String :=
  (c.id, c.status, c.err)

/-- One sequential step on the publisher: a call of `connect`, `handleDisconnect`,
`publishDirect` or `Close` (with the result of closing the connection). -/
inductive PubOp where
  | connect
  | handleDisconnect
  | publishDirect (msg : NotificationMessage)
  | close (closeErr : Option String)
  deriving DecidableEq, Repr

/-- Effect of one publisher step. -/
def pubStep (env : Env) (fuel : Nat) (b : BrokerSide) : PubOp → Outcome BrokerSide
  | .connect => .ok (connect env b).1
  | .handleDisconnect => handleDisconnect env fuel b
  | .publishDirect msg => (publishDirect env fuel b msg).bind fun r => .ok r.1
  | .close closeErr => (Close closeErr b).bind fun r => .ok r.1

/-- Effect of a sequence of publisher steps. -/
def pubRun (env : Env) (fuel : Nat) : List PubOp → BrokerSide → Outcome BrokerSide
  | [], b => .ok b
  | op :: ops, b => (pubStep env fuel b op).bind (pubRun env fuel ops)

/-- The flag `isConnected` being set implies that both handles are non-nil. -/
def HandlesPresent (b : BrokerSide) : Prop :=
  b.pub.isConnected = true → b.pub.connection ≠ none ∧ b.pub.channel ≠ none

/-- An empty collection, nothing consumed yet. -/
def emptyStore : StoreSide :=
  { docs := [], storeCalls := 0, clockReads := 0, updateCalls := [] }

/-- The publisher as `NewRabbitMQPublisher` builds it before its first `connect`: no
handles, empty buffer, flag false, `done` open, no goroutine yet. -/
def initialPublisher : BrokerSide :=
  { pub := { connection := none, channel := none, asyncChannel := [],
             isConnected := false, doneClosed := false }
    retryQueue := [], dialCalls := 0, sendCalls := 0
    publishCalls := [], directAttempts := [], brokerAcks := []
    monitorStarted := false }

/-- The state `NewRabbitMQPublisher` returns: one `connect` attempt on the initial
publisher; when it fails the failure is logged and `go publisher.connectionMonitor()`
is executed, when it succeeds no monitor is spawned. (The worker goroutine is spawned
in both cases; its steps are `workerReceive` and `workerTick`.) -/
def NewRabbitMQPublisher (env : Env) : BrokerSide :=
  match connect env initialPublisher with
  | (b, some _) => { b with monitorStarted := true }
  | (b, none) => b

/-- The world right after start-up: empty store, freshly built publisher. -/
def initialWorld (env : Env) : World :=
  { store := emptyStore, broker := NewRabbitMQPublisher env }

/-! ## Concrete inputs used by the examples -/

/-- The ObjectID whose 24 nibbles are the hexadecimal digits of `n`. -/
def oidOfNat (n : Nat) : ObjectID :=
  ⟨(List.range 24).map (fun i => Fin.ofNat (n / 16 ^ (23 - i))), by simp⟩

/-- An environment with the broker down and a healthy store: every dial is
refused, the clock advances by one millisecond per reading from
2023-11-14 22:13:20 UTC, and the n-th generated ObjectID is `oidOfNat (n + 1)`. -/
def brokerDownEnv : Env :=
  { now := fun n => 1700000000000000000 + n * 1000000
    newObjectID := fun n => oidOfNat (n + 1)
    storeErr := fun _ => none
    dial := fun _ => .dialFailed "dial tcp: connection refused"
    send := fun _ => some "channel/connection is not open" }

/-- The environment `brokerDownEnv` with a store whose second and later round
trips time out. -/
def storeFlakyEnv : Env :=
  { brokerDownEnv with
    storeErr := fun n => if n = 0 then none else some "context deadline exceeded" }

/-- The environment `brokerDownEnv` with an unreachable store: every round trip fails. -/
def storeDownEnv : Env :=
  { brokerDownEnv with storeErr := fun _ => some "server selection timeout" }

/-- The request of the scenario: create("alert", "disk full", "+15555550100"). -/
def alertRequest : NotificationRequest :=
  { MsgType := "alert", Message := "disk full", Phone := "+15555550100",
    ImageURL := "", ExtraInfo := none }

/-- Some message to fill the dispatch queue with. -/
def fillerMessage : NotificationMessage :=
  { ID := "20231114221300", MsgType := "info", Message := "filler", Phone := "+15555550199",
    ImageURL := "", ExtraInfo := [], CreatedAt := 1699999980000000000 }

/-- The start-up world of `brokerDownEnv` with a full dispatch queue (100 buffered messages). -/
def fullQueueWorld : World :=
  let w := initialWorld brokerDownEnv
  { w with broker := { w.broker with pub := { w.broker.pub with
      asyncChannel := List.replicate 100 fillerMessage } } }

/-- A world with one pending record in the store (the record of the scenario request),
the dispatch queue full and the broker link down. -/
def pendingFullWorld : World :=
  { fullQueueWorld with
    store := { emptyStore with docs := [savedRecord brokerDownEnv emptyStore alertRequest] } }

/-- An environment whose broker accepts the first connection and is unreachable from
then on: dial 0 succeeds, every later dial is refused and every send fails. -/
def linkLostEnv : Env :=
  { brokerDownEnv with
    dial := fun k => if k = 0 then .established 1 1 else .dialFailed "dial tcp: connection refused"
    send := fun _ => some "write tcp: broken pipe" }

/-- The start-up world of `linkLostEnv` (connected) with a full dispatch queue. -/
def connectedFullWorld : World :=
  let w := initialWorld linkLostEnv
  { w with broker := { w.broker with pub := { w.broker.pub with
      asyncChannel := List.replicate 100 fillerMessage } } }

/-- An environment with a reachable broker whose first three sends fail: every dial
succeeds, sends 0, 1 and 2 fail, every later send succeeds. -/
def recoveringEnv : Env :=
  { brokerDownEnv with
    dial := fun k => .established (k + 1) (k + 1)
    send := fun k => if k < 3 then some "write tcp: broken pipe" else none }

/-- A store with two pending records in natural order, the first created one second
after the second (message creation times 2000000000 and 1000000000). -/
def outOfOrderStore : StoreSide :=
  { emptyStore with
    docs := [ { ID := oidOfNat 1, Message := { fillerMessage with ID := "a", CreatedAt := 2000000000 },
                Status := StatusPending, QueuedAt := 2000000000, DeliveredAt := none,
                RetryCount := 0, Error := "" },
              { ID := oidOfNat 2, Message := { fillerMessage with ID := "b", CreatedAt := 1000000000 },
                Status := StatusPending, QueuedAt := 1000000000, DeliveredAt := none,
                RetryCount := 0, Error := "" } ] }

/-- A pending record with retry count 0: `_id` is `oidOfNat n`, the message has the
identifier `msgID` and was created and queued at time `t`. -/
def pendingRecord (n : Nat) (msgID : String) (t : Time) : NotificationRecord :=
  { ID := oidOfNat n, Message := { fillerMessage with ID := msgID, CreatedAt := t },
    Status := StatusPending, QueuedAt := t, DeliveredAt := none, RetryCount := 0, Error := "" }

/-- The two pending records of `outOfOrderStore` with the creation times exchanged, so
that they are stored in the order of their creation: the first was created one second
before the second (what two requests served one after the other leave behind). -/
def inOrderStore : StoreSide :=
  { emptyStore with
    docs := [pendingRecord 1 "a" 1000000000, pendingRecord 2 "b" 2000000000] }

/-- The record `d` with the creation time of its message changed by `f`. -/
def retime (f : Time → Time) (d : NotificationRecord) : NotificationRecord :=
  { d with Message := { d.Message with CreatedAt := f d.Message.CreatedAt } }

/-- A batch is oldest first when the creation times of its messages never decrease
along it. -/
def OldestFirst (batch : List NotificationRecord) : Prop :=
  (batch.map (fun d => d.Message.CreatedAt)).Pairwise (fun a b => a ≤ b)

/-- A world whose publisher is connected with a full dispatch queue, as in
`connectedFullWorld`, and whose store holds the two pending records of
`outOfOrderStore`, both with retry count 0. -/
def pendingPairWorld : World :=
  { connectedFullWorld with store := outOfOrderStore }

/-! ## Hexadecimal identifiers and the sort key -/

theorem fromHexChar_hexDigit : ∀ n : Fin 16, fromHexChar (hexDigit n) = some n := by decide

theorem decodeHex_map (l : List (Fin 16)) : decodeHex (l.map hexDigit) = some l := by
  induction l with
  | nil => rfl
  | cons n ns ih => simp [decodeHex, fromHexChar_hexDigit, ih]

theorem ObjectIDFromHex_Hex (o : ObjectID) : ObjectIDFromHex (Hex o) = some o := by
  obtain ⟨l, hl⟩ := o
  simp [ObjectIDFromHex, Hex, decodeHex_map, hl]

theorem Hex_injective {a b : ObjectID} (h : Hex a = Hex b) : a = b := by
  have := congrArg ObjectIDFromHex h
  simpa [ObjectIDFromHex_Hex] using this

theorem insertByKey_eq (rank : ObjectID → Nat) (hr : ∀ a b, rank a ≤ rank b)
    (d : NotificationRecord) (l : List NotificationRecord) :
    insertByKey rank d l = l ++ [d] := by
  induction l with
  | nil => rfl
  | cons x xs ih => simp [insertByKey, listedBefore, sortKeyCreatedAt, hr, ih]

theorem foldl_insertByKey (rank : ObjectID → Nat) (hr : ∀ a b, rank a ≤ rank b)
    (l acc : List NotificationRecord) :
    l.foldl (fun acc d => insertByKey rank d acc) acc = acc ++ l := by
  induction l generalizing acc with
  | nil => simp
  | cons x xs ih => rw [List.foldl_cons, ih, insertByKey_eq rank hr]; simp

/-- With insertion order as tie order the sort returns the documents as stored. -/
theorem sortByCreatedAt_eq (rank : ObjectID → Nat) (hr : ∀ a b, rank a ≤ rank b)
    (l : List NotificationRecord) : sortByCreatedAt rank l = l := by
  simp [sortByCreatedAt, foldl_insertByKey rank hr]

theorem insertByKey_perm (rank : ObjectID → Nat) (d : NotificationRecord)
    (l : List NotificationRecord) : (insertByKey rank d l).Perm (d :: l) := by
  induction l with
  | nil => exact List.Perm.refl _
  | cons x xs ih =>
    unfold insertByKey
    split_ifs
    · exact (List.Perm.cons x ih).trans (List.Perm.swap d x xs)
    · exact List.Perm.refl _

theorem foldl_insertByKey_perm (rank : ObjectID → Nat) (l acc : List NotificationRecord) :
    (l.foldl (fun acc d => insertByKey rank d acc) acc).Perm (acc ++ l) := by
  induction l generalizing acc with
  | nil => simp
  | cons x xs ih =>
    rw [List.foldl_cons]
    refine (ih _).trans ?_
    refine (List.Perm.append_right xs (insertByKey_perm rank x acc)).trans ?_
    rw [List.cons_append]
    exact List.perm_middle.symm

/-- Whatever the tie order, the sort returns the documents it was given. -/
theorem sortByCreatedAt_perm (rank : ObjectID → Nat) (l : List NotificationRecord) :
    (sortByCreatedAt rank l).Perm l := by
  simpa [sortByCreatedAt] using foldl_insertByKey_perm rank l []

theorem mem_sortByCreatedAt (rank : ObjectID → Nat) (l : List NotificationRecord)
    (x : NotificationRecord) : x ∈ sortByCreatedAt rank l ↔ x ∈ l :=
  (sortByCreatedAt_perm rank l).mem_iff

theorem sortByCreatedAt_singleton (rank : ObjectID → Nat) (x : NotificationRecord) :
    sortByCreatedAt rank [x] = [x] := rfl

theorem sortByCreatedAt_pair (rank : ObjectID → Nat) (a b : NotificationRecord) :
    sortByCreatedAt rank [a, b] = if rank a.ID ≤ rank b.ID then [a, b] else [b, a] := by
  simp only [sortByCreatedAt, List.foldl_cons, List.foldl_nil, insertByKey, listedBefore,
    sortKeyCreatedAt, if_true]
  by_cases h : rank a.ID ≤ rank b.ID <;> simp [h]

/-! ## The collection -/

theorem findOne_append_new (docs : List NotificationRecord) (x : NotificationRecord)
    (h : ∀ d ∈ docs, d.ID ≠ x.ID) : findOne x.ID (docs ++ [x]) = some x := by
  unfold findOne
  rw [List.find?_append]
  have : docs.find? (fun d => decide (d.ID = x.ID)) = none := by
    simp only [List.find?_eq_none]
    intro d hd
    simpa using h d hd
  simp [this]

theorem createSave_ok {env : Env} {s s1 : StoreSide} {req : NotificationRequest} {id : String}
    (h : createSave env s req = (s1, .ok id)) :
    s1 = { docs := s.docs ++ [savedRecord env s req], storeCalls := s.storeCalls + 1,
           clockReads := s.clockReads + 3, updateCalls := s.updateCalls } ∧
    id = Hex (savedRecord env s req).ID ∧
    (∀ d ∈ s.docs, d.ID ≠ (savedRecord env s req).ID) ∧
    (∀ d ∈ s.docs, d.Message.ID ≠ (savedRecord env s req).Message.ID) ∧
    env.storeErr s.storeCalls = none := by
  unfold createSave SaveNotification insertOne at h
  simp only [NewNotificationRecord, if_true] at h
  cases hf : env.storeErr s.storeCalls with
  | some e => simp [hf] at h
  | none =>
    simp only [hf] at h
    split_ifs at h with h1 h2
    · simp at h
    · simp at h
    · simp only [Prod.mk.injEq, Except.ok.injEq] at h
      obtain ⟨hs, hid⟩ := h
      refine ⟨?_, ?_, ?_, ?_, rfl⟩
      · rw [← hs]; rfl
      · rw [← hid]; rfl
      · intro d hd hEq
        exact h1 ⟨d, hd, hEq⟩
      · intro d hd hEq
        exact h2 ⟨d, hd, hEq⟩

theorem SaveNotification_error {env : Env} {s s1 : StoreSide} {n : NotificationRecord}
    {e : String} (h : SaveNotification env s n = (s1, .error e)) :
    s1 = { s with storeCalls := s.storeCalls + 1 } := by
  unfold SaveNotification at h
  cases hi : insertOne env s n with
  | error e1 =>
    rw [hi] at h
    simp only [Prod.mk.injEq] at h
    rw [← h.1]
  | ok p =>
    rw [hi] at h
    simp at h

theorem createSave_error {env : Env} {s s1 : StoreSide} {req : NotificationRequest} {e : String}
    (h : createSave env s req = (s1, .error e)) :
    s1 = { s with storeCalls := s.storeCalls + 1, clockReads := s.clockReads + 3 } := by
  unfold createSave at h
  rw [SaveNotification_error h]

/-! ## C1 -/

/-- C1: when the store accepts the record (`createSave` returns an identifier) and the
publish path accepts the message (`Publish` returns nil), `CreateNotification` returns
that identifier, and a `GetNotification` of it right afterwards, answered by the store,
returns a present record with status pending, retry count 0 and the request's type,
message, phone and image URL. Holds for every request, valid or not. -/
theorem C1_create_then_get (env : Env) (fuel : Nat) (w : World) (req : NotificationRequest)
    (s1 : StoreSide) (id : String) (b1 : BrokerSide)
    (hsave : createSave env w.store req = (s1, .ok id))
    (hpub : Publish env fuel w.broker (requestMessage env w.store req) = .ok (b1, none))
    (hget : env.storeErr s1.storeCalls = none) :
    CreateNotification env fuel w req = .ok ({ store := s1, broker := b1 }, .ok id) ∧
    ∃ r, (GetNotification env { store := s1, broker := b1 } id).2 = .ok (some r) ∧
      r.Status = StatusPending ∧ r.RetryCount = 0 ∧
      r.Message.MsgType = req.MsgType ∧ r.Message.Message = req.Message ∧
      r.Message.Phone = req.Phone ∧ r.Message.ImageURL = req.ImageURL := by
  obtain ⟨hs1, hid, hfresh, -, -⟩ := createSave_ok hsave
  refine ⟨?_, savedRecord env w.store req, ?_, ?_⟩
  · simp [CreateNotification, hsave, hpub]
  · have hfind := findOne_append_new _ _ hfresh
    have hdocs : s1.docs = w.store.docs ++ [savedRecord env w.store req] := by rw [hs1]
    simp [GetNotification, GetNotificationByID, hid, ObjectIDFromHex_Hex, hget, hdocs, hfind]
  · refine ⟨rfl, rfl, ?_, ?_, ?_, ?_⟩ <;>
      (simp only [savedRecord, NewNotificationRecord, requestMessage, NewNotificationMessage]
       cases req.ExtraInfo <;> rfl)

/-- Witness of C1: the scenario request on the start-up world with the broker down; the
message is accepted into the empty dispatch queue. -/
theorem C1_create_then_get_witness :
    createSave brokerDownEnv (initialWorld brokerDownEnv).store alertRequest =
      ((createSave brokerDownEnv (initialWorld brokerDownEnv).store alertRequest).1,
        .ok "000000000000000000000001") ∧
    CreateNotification brokerDownEnv 0 (initialWorld brokerDownEnv) alertRequest =
      .ok ({ store := (createSave brokerDownEnv (initialWorld brokerDownEnv).store alertRequest).1,
             broker := enqueued (initialWorld brokerDownEnv).broker
               (requestMessage brokerDownEnv (initialWorld brokerDownEnv).store alertRequest) },
           .ok "000000000000000000000001") :=
  ⟨by rfl,
   (C1_create_then_get brokerDownEnv 0 (initialWorld brokerDownEnv) alertRequest
      (createSave brokerDownEnv (initialWorld brokerDownEnv).store alertRequest).1
      "000000000000000000000001"
      (enqueued (initialWorld brokerDownEnv).broker
        (requestMessage brokerDownEnv (initialWorld brokerDownEnv).store alertRequest))
      (by rfl) (by rfl) (by rfl)).1⟩

/-! ## C2 -/

/-- C2: if saving the record fails (`createSave`, which ends in `SaveNotification`,
returns an error), `CreateNotification` returns an error and no identifier, the broker
side is untouched (no `Publish` call, nothing enqueued, no publish attempt), no
`UpdateStatus` call is made, and the documents of the store are those from before. -/
theorem C2_save_failure_aborts (env : Env) (fuel : Nat) (w : World) (req : NotificationRequest)
    (s1 : StoreSide) (err : String)
    (hsave : createSave env w.store req = (s1, .error err)) :
    CreateNotification env fuel w req =
      .ok ({ store := s1, broker := w.broker }, .error ("failed to save notification: " ++ err)) ∧
    s1.docs = w.store.docs ∧ s1.updateCalls = w.store.updateCalls := by
  have hs1 := createSave_error hsave
  refine ⟨?_, ?_, ?_⟩
  · simp [CreateNotification, hsave]
  · rw [hs1]
  · rw [hs1]

/-- Witness of C2: the store is unreachable when the scenario request arrives. -/
theorem C2_save_failure_aborts_witness :
    CreateNotification storeDownEnv 0 (initialWorld storeDownEnv) alertRequest =
      .ok ({ store := (createSave storeDownEnv (initialWorld storeDownEnv).store alertRequest).1,
             broker := (initialWorld storeDownEnv).broker },
           .error ("failed to save notification: " ++
             "failed to save notification: server selection timeout")) :=
  (C2_save_failure_aborts storeDownEnv 0 (initialWorld storeDownEnv) alertRequest
    (createSave storeDownEnv (initialWorld storeDownEnv).store alertRequest).1
    "failed to save notification: server selection timeout" (by rfl)).1

/-! ## The update operation -/

theorem applyUpdate_ID (status : NotificationStatus) (err : Option String) (now : Time)
    (d : NotificationRecord) : (applyUpdate status err now d).ID = d.ID := by
  unfold applyUpdate
  cases err <;> split_ifs <;> rfl

theorem findOne_updateOne_same (oid : ObjectID) (f : NotificationRecord → NotificationRecord)
    (hf : ∀ d, (f d).ID = d.ID) (docs : List NotificationRecord) :
    findOne oid (updateOne oid f docs) = (findOne oid docs).map f := by
  induction docs with
  | nil => rfl
  | cons d ds ih =>
    unfold findOne at ih ⊢
    by_cases h : d.ID = oid
    · simp [updateOne, h, hf]
    · simp [updateOne, h, ih]

theorem findOne_updateOne_other (oid oid' : ObjectID) (f : NotificationRecord → NotificationRecord)
    (hf : ∀ d, (f d).ID = d.ID) (hne : oid' ≠ oid) (docs : List NotificationRecord) :
    findOne oid' (updateOne oid f docs) = findOne oid' docs := by
  induction docs with
  | nil => rfl
  | cons d ds ih =>
    unfold findOne at ih ⊢
    by_cases h : d.ID = oid
    · have h' : ¬ d.ID = oid' := fun h2 => hne (h2.symm.trans h)
      have h'' : ¬ (f d).ID = oid' := by rw [hf]; exact h'
      rw [updateOne, if_pos h, List.find?_cons, List.find?_cons]
      simp [h', h'']
    · rw [updateOne, if_neg h, List.find?_cons, List.find?_cons, ih]

theorem UpdateStatus_ok (env : Env) (s : StoreSide) {id : String} {oid : ObjectID}
    (status : NotificationStatus) (err : Option String)
    (hid : ObjectIDFromHex id = some oid) (hf : env.storeErr s.storeCalls = none) :
    UpdateStatus env s id status err =
      ({ docs := updateOne oid (applyUpdate status err (env.now s.clockReads)) s.docs,
         storeCalls := s.storeCalls + 1,
         clockReads := if status = StatusDelivered then s.clockReads + 1 else s.clockReads,
         updateCalls := s.updateCalls ++ [⟨id, status, err, none⟩] }, none) := by
  unfold UpdateStatus
  simp only [hid]
  by_cases hst : status = StatusDelivered <;> simp [hst, hf]

theorem UpdateStatus_fault (env : Env) (s : StoreSide) {id : String} {oid : ObjectID}
    {e : String}
    (status : NotificationStatus) (err : Option String)
    (hid : ObjectIDFromHex id = some oid) (hf : env.storeErr s.storeCalls = some e) :
    UpdateStatus env s id status err =
      ({ docs := s.docs,
         storeCalls := s.storeCalls + 1,
         clockReads := if status = StatusDelivered then s.clockReads + 1 else s.clockReads,
         updateCalls := s.updateCalls ++
           [⟨id, status, err, some ("failed to update notification status: " ++ e)⟩] },
       some ("failed to update notification status: " ++ e)) := by
  unfold UpdateStatus
  simp only [hid]
  by_cases hst : status = StatusDelivered <;> simp [hst, hf]

theorem UpdateStatus_invalid {env : Env} {s : StoreSide} {id : String}
    (status : NotificationStatus) (err : Option String) (hid : ObjectIDFromHex id = none) :
    UpdateStatus env s id status err =
      ({ s with updateCalls := s.updateCalls ++ [⟨id, status, err,
           some "invalid object ID: the provided hex string is not a valid ObjectID"⟩] },
       some "invalid object ID: the provided hex string is not a valid ObjectID") := by
  unfold UpdateStatus
  simp only [hid]

/-! ## C3 -/

/-- C3 as stated fails: with the dispatch queue full, the broker link down and a store
that accepts the insert but times out on the next write, the record is saved, `Publish`
returns the error "not connected to RabbitMQ" synchronously, `CreateNotification`
returns that error to the caller, and the stored record is still pending with retry
count 0 and no error text, because the `UpdateStatus` write failed and is only logged. -/
theorem C3_counterexample :
    (createSave storeFlakyEnv fullQueueWorld.store alertRequest).2 =
      .ok "000000000000000000000001" ∧
    (∃ b1, Publish storeFlakyEnv 0 fullQueueWorld.broker
        (requestMessage storeFlakyEnv fullQueueWorld.store alertRequest) =
      .ok (b1, some "not connected to RabbitMQ")) ∧
    ∃ w1, CreateNotification storeFlakyEnv 0 fullQueueWorld alertRequest =
        .ok (w1, .error "failed to publish notification: not connected to RabbitMQ") ∧
      ∃ r, findOne (oidOfNat 1) w1.store.docs = some r ∧
        r.Status = StatusPending ∧ r.RetryCount = 0 ∧ r.Error = "" :=
  ⟨by rfl, ⟨_, by rfl⟩, _, by rfl, _, by rfl, by rfl, by rfl, by rfl⟩

/-- C3, amended: when the record was saved and `Publish` returns an error
synchronously, `CreateNotification` returns the publish error to the caller, whatever
the status write does; and when the store performs the status write, the stored record
has status failed, the publish error's text as its error text, and retry count 1. -/
theorem C3_publish_error_marks_failed (env : Env) (fuel : Nat) (w : World)
    (req : NotificationRequest) (s1 : StoreSide) (id : String) (b1 : BrokerSide) (e : String)
    (hsave : createSave env w.store req = (s1, .ok id))
    (hpub : Publish env fuel w.broker (requestMessage env w.store req) = .ok (b1, some e)) :
    ∃ s2, CreateNotification env fuel w req =
        .ok ({ store := s2, broker := b1 }, .error ("failed to publish notification: " ++ e)) ∧
      (env.storeErr s1.storeCalls = none →
        ∃ oid r, ObjectIDFromHex id = some oid ∧ findOne oid s2.docs = some r ∧
          r.Status = StatusFailed ∧ r.Error = e ∧ r.RetryCount = 1) := by
  obtain ⟨hs1, hid, hfresh, -, -⟩ := createSave_ok hsave
  have hparse : ObjectIDFromHex id = some (savedRecord env w.store req).ID := by
    rw [hid, ObjectIDFromHex_Hex]
  refine ⟨(UpdateStatus env s1 id StatusFailed (some e)).1, ?_, fun hupd => ?_⟩
  · simp only [CreateNotification, hsave, hpub]
  · have hU := UpdateStatus_ok env (s1) StatusFailed (some e) hparse hupd
    refine ⟨(savedRecord env w.store req).ID,
      applyUpdate StatusFailed (some e) (env.now s1.clockReads) (savedRecord env w.store req),
      hparse, ?_, ?_⟩
    · rw [hU]
      simp only
      rw [findOne_updateOne_same _ _ (applyUpdate_ID _ _ _)]
      have hdocs : s1.docs = w.store.docs ++ [savedRecord env w.store req] := by rw [hs1]
      rw [hdocs, findOne_append_new _ _ hfresh]
      rfl
    · refine ⟨rfl, rfl, ?_⟩
      simp [applyUpdate, savedRecord, NewNotificationRecord]

/-- Witness of C3, amended: queue full, broker link down, healthy store. -/
theorem C3_publish_error_marks_failed_witness :
    ∃ s2, CreateNotification brokerDownEnv 0 fullQueueWorld alertRequest =
        .ok ({ store := s2, broker :=
                { fullQueueWorld.broker with
                  publishCalls := [requestMessage brokerDownEnv fullQueueWorld.store alertRequest],
                  directAttempts :=
                    [requestMessage brokerDownEnv fullQueueWorld.store alertRequest] } },
             .error ("failed to publish notification: " ++ "not connected to RabbitMQ")) ∧
      ∃ oid r, ObjectIDFromHex "000000000000000000000001" = some oid ∧
        findOne oid s2.docs = some r ∧
        r.Status = StatusFailed ∧ r.Error = "not connected to RabbitMQ" ∧ r.RetryCount = 1 := by
  obtain ⟨s2, hret, hrec⟩ :=
    C3_publish_error_marks_failed brokerDownEnv 0 fullQueueWorld alertRequest
      (createSave brokerDownEnv fullQueueWorld.store alertRequest).1
      "000000000000000000000001" _ "not connected to RabbitMQ" (by rfl) (by rfl)
  exact ⟨s2, hret, hrec (by rfl)⟩

/-! ## The connection functions leave the traffic alone -/

theorem connect_frame (env : Env) (b : BrokerSide) :
    (connect env b).1.pub.asyncChannel = b.pub.asyncChannel ∧
    (connect env b).1.pub.doneClosed = b.pub.doneClosed ∧
    (connect env b).1.retryQueue = b.retryQueue ∧
    (connect env b).1.sendCalls = b.sendCalls ∧
    (connect env b).1.publishCalls = b.publishCalls ∧
    (connect env b).1.directAttempts = b.directAttempts ∧
    (connect env b).1.brokerAcks = b.brokerAcks := by
  unfold connect
  split_ifs
  · simp
  · cases env.dial b.dialCalls <;> simp

theorem reconnect_frame (env : Env) (fuel : Nat) (b b1 : BrokerSide)
    (h : reconnect env fuel b = .ok b1) :
    b1.pub.asyncChannel = b.pub.asyncChannel ∧
    b1.pub.doneClosed = b.pub.doneClosed ∧
    b1.retryQueue = b.retryQueue ∧
    b1.sendCalls = b.sendCalls ∧
    b1.publishCalls = b.publishCalls ∧
    b1.directAttempts = b.directAttempts ∧
    b1.brokerAcks = b.brokerAcks := by
  induction fuel generalizing b with
  | zero =>
    unfold reconnect at h
    split_ifs at h
    cases h
    simp
  | succ n ih =>
    unfold reconnect at h
    split_ifs at h
    · cases h
      simp
    · have hc := connect_frame env b
      cases hcon : connect env b with
      | mk b2 r =>
        rw [hcon] at h hc
        cases r with
        | some e =>
          simp only at h
          have := ih b2 h
          simp only at hc
          refine ⟨this.1.trans hc.1, this.2.1.trans hc.2.1, this.2.2.1.trans hc.2.2.1,
            this.2.2.2.1.trans hc.2.2.2.1, this.2.2.2.2.1.trans hc.2.2.2.2.1,
            this.2.2.2.2.2.1.trans hc.2.2.2.2.2.1, this.2.2.2.2.2.2.trans hc.2.2.2.2.2.2⟩
        | none =>
          simp only at h
          cases h
          exact hc

theorem reconnect_connected (env : Env) (fuel : Nat) (b b1 : BrokerSide)
    (h : reconnect env fuel b = .ok b1) : b1.pub.isConnected = true := by
  induction fuel generalizing b with
  | zero =>
    unfold reconnect at h
    split_ifs at h with hc
    cases h
    exact hc
  | succ n ih =>
    unfold reconnect at h
    split_ifs at h with hc
    · cases h
      exact hc
    · cases hcon : connect env b with
      | mk b2 r =>
        rw [hcon] at h
        cases r with
        | some e => exact ih b2 h
        | none =>
          simp only at h
          cases h
          unfold connect at hcon
          rw [if_neg hc] at hcon
          cases hd : env.dial b.dialCalls <;> rw [hd] at hcon <;> simp at hcon
          rw [← hcon]

theorem publishDirect_frame (env : Env) (fuel : Nat) (b b1 : BrokerSide)
    (msg : NotificationMessage) (r : Option String)
    (h : publishDirect env fuel b msg = .ok (b1, r)) :
    b1.pub.asyncChannel = b.pub.asyncChannel ∧
    b1.pub.doneClosed = b.pub.doneClosed ∧
    b1.retryQueue = b.retryQueue ∧
    b1.publishCalls = b.publishCalls ∧
    b1.directAttempts = b.directAttempts ++ [msg] ∧
    b1.brokerAcks = b.brokerAcks ++ (if r = none then [msg] else []) := by
  unfold publishDirect at h
  simp only at h
  split_ifs at h with hc
  · cases h
    simp
  · cases hch : b.pub.channel with
    | none => simp [hch] at h
    | some ch =>
      simp only [hch] at h
      cases hs : env.send b.sendCalls with
      | none =>
        simp only [hs] at h
        cases h
        simp
      | some e =>
        simp only [hs, handleDisconnect, Outcome.bind] at h
        split at h
        · rename_i b2 hr
          cases h
          have := reconnect_frame env fuel _ _ hr
          simpa using ⟨this.1, this.2.1, this.2.2.1, this.2.2.2.2⟩
        · cases h
        · cases h


/-! ## C4 -/

theorem Publish_room (env : Env) (fuel : Nat) (b : BrokerSide) (m : NotificationMessage)
    (h : b.pub.asyncChannel.length < 100) : Publish env fuel b m = .ok (enqueued b m, none) := by
  unfold Publish enqueued asyncCapacity
  simp [h]

theorem Publish_full (env : Env) (fuel : Nat) (b : BrokerSide) (m : NotificationMessage)
    (h : ¬ b.pub.asyncChannel.length < 100) :
    Publish env fuel b m =
      publishDirect env fuel { b with publishCalls := b.publishCalls ++ [m] } m := by
  unfold Publish asyncCapacity
  simp [h]

theorem publishAll_overflow (env : Env) (fuel : Nat) (m : NotificationMessage)
    (msgs : List NotificationMessage) (b : BrokerSide)
    (h : b.pub.asyncChannel.length + msgs.length = 100) :
    publishAll env fuel (msgs ++ [m]) b =
      (publishDirect env fuel
        { b with publishCalls := b.publishCalls ++ msgs ++ [m],
                 pub := { b.pub with asyncChannel := b.pub.asyncChannel ++ msgs } } m).bind
        (fun p => .ok (p.1, List.replicate msgs.length none ++ [p.2])) := by
  induction msgs generalizing b with
  | nil =>
    have hfull : ¬ b.pub.asyncChannel.length < 100 := by simp at h; omega
    simp only [List.nil_append, publishAll, Publish_full env fuel b m hfull, List.append_nil,
      List.length_nil, List.replicate_zero]
    cases publishDirect env fuel { b with publishCalls := b.publishCalls ++ [m] } m with
    | ok p => rfl
    | outOfFuel => rfl
    | panicked r => rfl
  | cons x xs ih =>
    have hroom : b.pub.asyncChannel.length < 100 := by simp at h; omega
    have hlen : (enqueued b x).pub.asyncChannel.length + xs.length = 100 := by
      simp [enqueued] at h ⊢; omega
    have hb : ({ enqueued b x with
          publishCalls := (enqueued b x).publishCalls ++ xs ++ [m],
          pub := { (enqueued b x).pub with
            asyncChannel := (enqueued b x).pub.asyncChannel ++ xs } } : BrokerSide) =
        { b with publishCalls := b.publishCalls ++ x :: xs ++ [m],
                 pub := { b.pub with asyncChannel := b.pub.asyncChannel ++ x :: xs } } := by
      simp [enqueued]
    have hstep : publishAll env fuel (x :: xs ++ [m]) b =
        match publishAll env fuel (xs ++ [m]) (enqueued b x) with
        | .outOfFuel => .outOfFuel
        | .panicked r => .panicked r
        | .ok (b2, results) => .ok (b2, none :: results) := by
      rw [List.cons_append, publishAll, Publish_room env fuel b x hroom]
    rw [hstep, ih _ hlen, hb]
    cases publishDirect env fuel
        { b with publishCalls := b.publishCalls ++ x :: xs ++ [m],
                 pub := { b.pub with asyncChannel := b.pub.asyncChannel ++ x :: xs } } m with
    | ok p => simp [Outcome.bind, List.replicate_succ]
    | outOfFuel => rfl
    | panicked r => rfl

/-- C4: with room in the dispatch queue `Publish` appends the message at the back, makes
no publish attempt and returns nil; with the queue at its capacity of 100 `Publish` is
the one `publishDirect` attempt for the message (it returns what that attempt returns,
and does not return when the attempt does not), the queue is left as it was and
`directAttempts` grows by exactly that message. In a burst of 101 `Publish` calls on an
empty queue with the worker paused, the first 100 are enqueued and return nil, and the
only direct attempt is the one for the last message. -/
theorem C4_publish_enqueue_or_direct (env : Env) (fuel : Nat) (b : BrokerSide)
    (m : NotificationMessage) :
    (b.pub.asyncChannel.length < 100 →
      Publish env fuel b m = .ok (enqueued b m, none) ∧
      (enqueued b m).directAttempts = b.directAttempts ∧
      (enqueued b m).sendCalls = b.sendCalls) ∧
    (b.pub.asyncChannel.length = 100 →
      Publish env fuel b m =
        publishDirect env fuel { b with publishCalls := b.publishCalls ++ [m] } m ∧
      ∀ b1 r, Publish env fuel b m = .ok (b1, r) →
        b1.pub.asyncChannel = b.pub.asyncChannel ∧
        b1.directAttempts = b.directAttempts ++ [m]) ∧
    (∀ msgs : List NotificationMessage, msgs.length = 100 → b.pub.asyncChannel = [] →
      publishAll env fuel (msgs ++ [m]) b =
        (publishDirect env fuel
          { b with publishCalls := b.publishCalls ++ msgs ++ [m],
                   pub := { b.pub with asyncChannel := msgs } } m).bind
          (fun p => .ok (p.1, List.replicate 100 none ++ [p.2])) ∧
      ∀ b1 results, publishAll env fuel (msgs ++ [m]) b = .ok (b1, results) →
        b1.pub.asyncChannel = msgs ∧
        b1.directAttempts = b.directAttempts ++ [m]) := by
  refine ⟨fun h => ⟨Publish_room env fuel b m h, rfl, rfl⟩, fun h => ?_, fun msgs hlen hq => ?_⟩
  · have hfull : ¬ b.pub.asyncChannel.length < 100 := by omega
    refine ⟨Publish_full env fuel b m hfull, fun b1 r hp => ?_⟩
    rw [Publish_full env fuel b m hfull] at hp
    have := publishDirect_frame env fuel _ b1 m r hp
    exact ⟨this.1, this.2.2.2.2.1⟩
  · have hsum : b.pub.asyncChannel.length + msgs.length = 100 := by simp [hq, hlen]
    have hall := publishAll_overflow env fuel m msgs b hsum
    rw [hq, hlen, List.nil_append] at hall
    refine ⟨hall, fun b1 results hp => ?_⟩
    rw [hall] at hp
    cases hd : publishDirect env fuel
        { b with publishCalls := b.publishCalls ++ msgs ++ [m],
                 pub := { b.pub with asyncChannel := msgs } } m with
    | ok p =>
      rw [hd] at hp
      simp only [Outcome.bind, Outcome.ok.injEq, Prod.mk.injEq] at hp
      have := publishDirect_frame env fuel _ p.1 m p.2 hd
      rw [← hp.1]
      exact ⟨this.1, this.2.2.2.2.1⟩
    | outOfFuel => rw [hd] at hp; cases hp
    | panicked r => rw [hd] at hp; cases hp

/-- Witness of C4: the overflow message on the full queue of `fullQueueWorld`, broker link
down: one direct attempt, which reports "not connected to RabbitMQ". -/
theorem C4_publish_enqueue_or_direct_witness :
    fullQueueWorld.broker.pub.asyncChannel.length = 100 ∧
    Publish brokerDownEnv 0 fullQueueWorld.broker fillerMessage =
      .ok ({ fullQueueWorld.broker with
              publishCalls := [fillerMessage], directAttempts := [fillerMessage] },
           some "not connected to RabbitMQ") ∧
    publishAll brokerDownEnv 0 (List.replicate 100 fillerMessage ++ [fillerMessage])
        (initialWorld brokerDownEnv).broker =
      (publishDirect brokerDownEnv 0
        { (initialWorld brokerDownEnv).broker with
            publishCalls := (initialWorld brokerDownEnv).broker.publishCalls ++
              List.replicate 100 fillerMessage ++ [fillerMessage],
            pub := { (initialWorld brokerDownEnv).broker.pub with
              asyncChannel := List.replicate 100 fillerMessage } } fillerMessage).bind
        (fun p => .ok (p.1, List.replicate 100 none ++ [p.2])) :=
  ⟨by rfl,
   ((C4_publish_enqueue_or_direct brokerDownEnv 0 fullQueueWorld.broker fillerMessage).2.1
      (by rfl)).1.trans (by rfl),
   ((C4_publish_enqueue_or_direct brokerDownEnv 0 (initialWorld brokerDownEnv).broker
      fillerMessage).2.2 (List.replicate 100 fillerMessage) (by simp) (by rfl)).1⟩

/-! ## Store evolution -/

theorem Evolves.trans {env : Env} {A : String → NotificationStatus → Prop}
    {s1 s2 s3 : StoreSide} (h12 : Evolves env A s1 s2) (h23 : Evolves env A s2 s3) :
    Evolves env A s1 s3 := by
  induction h12 with
  | refl s => exact h23
  | clock s s2 n _ ih => exact Evolves.clock s _ n (ih h23)
  | save s s2 t msg _ ih => exact Evolves.save s _ t msg (ih h23)
  | update s s2 id status err ha _ ih => exact Evolves.update s _ id status err ha (ih h23)
  | get s s2 id _ ih => exact Evolves.get s _ id (ih h23)
  | pending s s2 limit _ ih => exact Evolves.pending s _ limit (ih h23)

theorem Evolves.mono {env : Env} {A B : String → NotificationStatus → Prop}
    (hAB : ∀ id st, A id st → B id st) {s1 s2 : StoreSide} (h : Evolves env A s1 s2) :
    Evolves env B s1 s2 := by
  induction h with
  | refl s => exact Evolves.refl s
  | clock s s2 n _ ih => exact Evolves.clock s _ n ih
  | save s s2 t msg _ ih => exact Evolves.save s _ t msg ih
  | update s s2 id status err ha _ ih => exact Evolves.update s _ id status err (hAB _ _ ha) ih
  | get s s2 id _ ih => exact Evolves.get s _ id ih
  | pending s s2 limit _ ih => exact Evolves.pending s _ limit ih

theorem Evolves.update_one (env : Env) (A : String → NotificationStatus → Prop) (s : StoreSide)
    (id : String) (status : NotificationStatus) (err : Option String) (ha : A id status) :
    Evolves env A s (UpdateStatus env s id status err).1 :=
  Evolves.update s _ id status err ha (Evolves.refl _)

theorem createSave_evolves (env : Env) (A : String → NotificationStatus → Prop) (s : StoreSide)
    (req : NotificationRequest) : Evolves env A s (createSave env s req).1 :=
  Evolves.clock s _ 3 (Evolves.save _ _ _ _ (Evolves.refl _))

theorem CreateNotification_evolves {env : Env} {A : String → NotificationStatus → Prop}
    (hF : ∀ id, A id StatusFailed) {fuel : Nat} {w w1 : World} {req : NotificationRequest}
    {r : Except String String} (h : CreateNotification env fuel w req = .ok (w1, r)) :
    Evolves env A w.store w1.store := by
  have hs := createSave_evolves env A w.store req
  unfold CreateNotification at h
  cases hc : createSave env w.store req with
  | mk s1 res =>
    rw [hc] at h hs
    cases res with
    | error e =>
      simp only [Outcome.ok.injEq, Prod.mk.injEq] at h
      rw [← h.1]
      exact hs
    | ok id =>
      simp only at h
      cases hp : Publish env fuel w.broker (requestMessage env w.store req) with
      | outOfFuel => rw [hp] at h; cases h
      | panicked x => rw [hp] at h; cases h
      | ok p =>
        obtain ⟨b1, pr⟩ := p
        rw [hp] at h
        cases pr with
        | none =>
          simp only [Outcome.ok.injEq, Prod.mk.injEq] at h
          rw [← h.1]
          exact hs
        | some e =>
          simp only [Outcome.ok.injEq, Prod.mk.injEq] at h
          rw [← h.1]
          exact hs.trans (Evolves.update_one _ _ _ _ _ _ (hF _))

theorem retryOne_evolves {env : Env} {A : String → NotificationStatus → Prop}
    (hF : ∀ id, A id StatusFailed) (hP : ∀ id, A id StatusPending) {fuel : Nat}
    {maxRetries : Int} {w w1 : World} {n : NotificationRecord} {c : Bool}
    (h : retryOne env fuel maxRetries w n = .ok (w1, c)) :
    Evolves env A w.store w1.store := by
  unfold retryOne at h
  split_ifs at h with hskip
  · cases h
    exact Evolves.refl _
  · cases hp : Publish env fuel w.broker n.Message with
    | outOfFuel => rw [hp] at h; cases h
    | panicked x => rw [hp] at h; cases h
    | ok p =>
      obtain ⟨b1, pr⟩ := p
      rw [hp] at h
      cases pr with
      | some e =>
        simp only [Outcome.ok.injEq, Prod.mk.injEq] at h
        rw [← h.1]
        exact Evolves.update_one _ _ _ _ _ _ (hF _)
      | none =>
        simp only at h
        have hu := Evolves.update_one env A w.store (Hex n.ID) StatusPending none
          (hP _)
        cases hU : UpdateStatus env w.store (Hex n.ID) StatusPending none with
        | mk s1 ur =>
          rw [hU] at h hu
          cases ur <;>
            (simp only [Outcome.ok.injEq, Prod.mk.injEq] at h
             rw [← h.1]
             exact hu)

theorem retryLoop_evolves {env : Env} {A : String → NotificationStatus → Prop}
    (hF : ∀ id, A id StatusFailed) (hP : ∀ id, A id StatusPending) {fuel : Nat}
    {maxRetries : Int} (batch : List NotificationRecord) {w w1 : World} {k k1 : Nat}
    (h : retryLoop env fuel maxRetries batch w k = .ok (w1, k1)) :
    Evolves env A w.store w1.store := by
  induction batch generalizing w k with
  | nil =>
    simp only [retryLoop, Outcome.ok.injEq, Prod.mk.injEq] at h
    rw [← h.1]
    exact Evolves.refl _
  | cons n rest ih =>
    rw [retryLoop] at h
    cases ho : retryOne env fuel maxRetries w n with
    | outOfFuel => rw [ho] at h; cases h
    | panicked x => rw [ho] at h; cases h
    | ok p =>
      obtain ⟨w2, c⟩ := p
      rw [ho] at h
      exact (retryOne_evolves hF hP ho).trans (ih h)

theorem RetryFailedNotifications_evolves {env : Env} {A : String → NotificationStatus → Prop}
    (hF : ∀ id, A id StatusFailed) (hP : ∀ id, A id StatusPending) {fuel : Nat}
    {maxRetries : Int} {w w1 : World} {r : Except String Nat}
    (h : RetryFailedNotifications env fuel w maxRetries = .ok (w1, r)) :
    Evolves env A w.store w1.store := by
  have hg : Evolves env A w.store (GetPendingNotifications env w.store 100).1 :=
    Evolves.pending _ _ 100 (Evolves.refl _)
  unfold RetryFailedNotifications at h
  cases hq : GetPendingNotifications env w.store 100 with
  | mk s1 res =>
    rw [hq] at h hg
    cases res with
    | error e =>
      simp only [Outcome.ok.injEq, Prod.mk.injEq] at h
      rw [← h.1]
      exact hg
    | ok batch =>
      simp only at h
      cases hl : retryLoop env fuel maxRetries batch { w with store := s1 } 0 with
      | outOfFuel => rw [hl] at h; cases h
      | panicked x => rw [hl] at h; cases h
      | ok p =>
        obtain ⟨w2, k⟩ := p
        rw [hl] at h
        simp only [Outcome.ok.injEq, Prod.mk.injEq] at h
        rw [← h.1]
        exact hg.trans (retryLoop_evolves hF hP batch hl)

theorem GetNotification_evolves (env : Env) (A : String → NotificationStatus → Prop) (w : World)
    (id : String) : Evolves env A w.store (GetNotification env w id).1.store := by
  have hg : Evolves env A w.store (GetNotificationByID env w.store id).1 :=
    Evolves.get _ _ id (Evolves.refl _)
  unfold GetNotification
  cases hq : GetNotificationByID env w.store id with
  | mk s1 res =>
    rw [hq] at hg
    cases res <;> exact hg

theorem MarkAsDelivered_evolves (env : Env) (A : String → NotificationStatus → Prop) (w : World)
    (id : String) (hD : A id StatusDelivered) :
    Evolves env A w.store (MarkAsDelivered env w id).1.store := by
  have hu := Evolves.update_one env A w.store id StatusDelivered none hD
  unfold MarkAsDelivered
  cases hU : UpdateStatus env w.store id StatusDelivered none with
  | mk s1 ur =>
    rw [hU] at hu
    cases ur <;> exact hu

theorem MarkAsFailed_evolves (env : Env) (A : String → NotificationStatus → Prop) (w : World)
    (id : String) (err : Option String) (hF : ∀ id, A id StatusFailed) :
    Evolves env A w.store (MarkAsFailed env w id err).1.store := by
  have hu := Evolves.update_one env A w.store id StatusFailed err (hF _)
  unfold MarkAsFailed
  cases hU : UpdateStatus env w.store id StatusFailed err with
  | mk s1 ur =>
    rw [hU] at hu
    cases ur <;> exact hu

theorem handlerUpdateStatus_evolves {env : Env} {A : String → NotificationStatus → Prop}
    (w : World) (id status : String) (hF : ∀ id, A id StatusFailed)
    (hD : status = "delivered" → A id StatusDelivered) :
    Evolves env A w.store (NotificationHandler.UpdateStatus env w id status).1.store := by
  have hg := GetNotification_evolves env A w id
  unfold NotificationHandler.UpdateStatus
  split_ifs with h1 h2 hs
  · exact Evolves.refl _
  · exact Evolves.refl _
  · cases hq : GetNotification env w id with
    | mk w1 res =>
      rw [hq] at hg
      cases res with
      | error e => exact hg
      | ok found =>
        cases found with
        | none => exact hg
        | some n =>
          simp only
          have hm := MarkAsDelivered_evolves env A w1 id (hD hs)
          cases hM : MarkAsDelivered env w1 id with
          | mk w2 ur =>
            rw [hM] at hm
            cases ur <;> exact hg.trans hm
  · cases hq : GetNotification env w id with
    | mk w1 res =>
      rw [hq] at hg
      cases res with
      | error e => exact hg
      | ok found =>
        cases found with
        | none => exact hg
        | some n =>
          simp only
          have hm := MarkAsFailed_evolves env A w1 id none hF
          cases hM : MarkAsFailed env w1 id none with
          | mk w2 ur =>
            rw [hM] at hm
            cases ur <;> exact hg.trans hm

theorem step_evolves {env : Env} {fuel : Nat} {w w1 : World} {op : Op}
    (h : step env fuel w op = .ok w1) :
    Evolves env (fun id st => st = StatusDelivered → marksDelivered id op) w.store w1.store := by
  have hF : ∀ id, (fun id st => st = StatusDelivered → marksDelivered id op) id StatusFailed :=
    fun id hd => by cases hd
  have hP : ∀ id, (fun id st => st = StatusDelivered → marksDelivered id op) id StatusPending :=
    fun id hd => by cases hd
  cases op with
  | create req =>
    simp only [step, Outcome.bind] at h
    split at h
    · rename_i p hc
      cases h
      exact CreateNotification_evolves hF hc
    · cases h
    · cases h
  | get id =>
    simp only [step, Outcome.ok.injEq] at h
    rw [← h]
    exact GetNotification_evolves _ _ _ _
  | retry maxRetries =>
    simp only [step, Outcome.bind] at h
    split at h
    · rename_i p hc
      cases h
      exact RetryFailedNotifications_evolves hF hP hc
    · cases h
    · cases h
  | markDelivered id =>
    simp only [step, Outcome.ok.injEq] at h
    rw [← h]
    exact MarkAsDelivered_evolves _ _ _ _ (fun _ => Or.inl rfl)
  | markFailed id err =>
    simp only [step, Outcome.ok.injEq] at h
    rw [← h]
    exact MarkAsFailed_evolves _ _ _ _ _ hF
  | patchStatus id status =>
    simp only [step, Outcome.ok.injEq] at h
    rw [← h]
    exact handlerUpdateStatus_evolves _ _ _ hF (fun hs _ => Or.inr (by rw [hs]))
  | workerReceive =>
    simp only [step, Outcome.bind] at h
    split at h
    · cases h
      exact Evolves.refl _
    · cases h
    · cases h
  | workerTick =>
    simp only [step, Outcome.bind] at h
    split at h
    · cases h
      exact Evolves.refl _
    · cases h
    · cases h

theorem run_evolves {env : Env} {fuel : Nat} (ops : List Op) {w w1 : World}
    (h : run env fuel ops w = .ok w1) : Evolves env (fun _ _ => True) w.store w1.store := by
  induction ops generalizing w with
  | nil =>
    simp only [run, Outcome.ok.injEq] at h
    rw [← h]
    exact Evolves.refl _
  | cons op rest ih =>
    simp only [run, Outcome.bind] at h
    split at h
    · rename_i w2 hs
      exact ((step_evolves hs).mono (fun _ _ _ => trivial)).trans (ih h)
    · cases h
    · cases h

/-! ## Retry counts along store evolution -/

theorem recordedFailures_append (oid : ObjectID) (a b : List UpdateCall) :
    recordedFailures oid (a ++ b) = recordedFailures oid a + recordedFailures oid b := by
  simp [recordedFailures]

theorem SaveNotification_updateCalls (env : Env) (s : StoreSide) (n : NotificationRecord) :
    (SaveNotification env s n).1.updateCalls = s.updateCalls := by
  unfold SaveNotification
  cases insertOne env s n with
  | error e => rfl
  | ok p => rfl

theorem SaveNotification_docs (env : Env) (s : StoreSide) (n : NotificationRecord) :
    (SaveNotification env s n).1.docs = s.docs ∨
    ∃ x, (SaveNotification env s n).1.docs = s.docs ++ [x] ∧ x.Status = n.Status := by
  unfold SaveNotification
  cases hi : insertOne env s n with
  | error e => exact Or.inl rfl
  | ok p =>
    right
    unfold insertOne at hi
    cases hf : env.storeErr s.storeCalls with
    | some e => simp [hf] at hi
    | none =>
      simp only [hf] at hi
      split_ifs at hi with h0 h1 h2 h3 h4
      all_goals
        simp only [Except.ok.injEq] at hi
        rw [← hi]
        exact ⟨_, rfl, rfl⟩

theorem findOne_append_of_some {oid : ObjectID} {docs : List NotificationRecord}
    {d : NotificationRecord} (h : findOne oid docs = some d) (x : NotificationRecord) :
    findOne oid (docs ++ [x]) = some d := by
  unfold findOne at h ⊢
  rw [List.find?_append, h]
  rfl

theorem SaveNotification_findOne (env : Env) (s : StoreSide) (n : NotificationRecord)
    {oid : ObjectID} {d : NotificationRecord} (h : findOne oid s.docs = some d) :
    findOne oid (SaveNotification env s n).1.docs = some d := by
  rcases SaveNotification_docs env s n with h1 | ⟨x, h1, -⟩
  · rw [h1]; exact h
  · rw [h1]; exact findOne_append_of_some h x

theorem GetNotificationByID_store (env : Env) (s : StoreSide) (id : String) :
    (GetNotificationByID env s id).1.docs = s.docs ∧
    (GetNotificationByID env s id).1.updateCalls = s.updateCalls := by
  unfold GetNotificationByID
  cases ObjectIDFromHex id with
  | none => exact ⟨rfl, rfl⟩
  | some oid =>
    simp only
    cases env.storeErr s.storeCalls <;> exact ⟨rfl, rfl⟩

theorem GetPendingNotifications_store (env : Env) (s : StoreSide) (limit : Int) :
    (GetPendingNotifications env s limit).1.docs = s.docs ∧
    (GetPendingNotifications env s limit).1.updateCalls = s.updateCalls := by
  unfold GetPendingNotifications
  simp only
  cases env.storeErr s.storeCalls <;> exact ⟨rfl, rfl⟩

theorem applyUpdate_RetryCount (status : NotificationStatus) (err : Option String) (now : Time)
    (d : NotificationRecord) :
    (applyUpdate status err now d).RetryCount =
      match err with
      | some _ => d.RetryCount + 1
      | none => d.RetryCount := by
  unfold applyUpdate
  cases err <;> split_ifs <;> rfl

theorem applyUpdate_Error (status : NotificationStatus) (err : Option String) (now : Time)
    (d : NotificationRecord) :
    (applyUpdate status err now d).Error =
      match err with
      | some e => e
      | none => d.Error := by
  unfold applyUpdate
  cases err <;> split_ifs <;> rfl

theorem applyUpdate_Status (status : NotificationStatus) (err : Option String) (now : Time)
    (d : NotificationRecord) : (applyUpdate status err now d).Status = status := by
  unfold applyUpdate
  cases err <;> split_ifs <;> rfl

theorem applyUpdate_DeliveredAt (status : NotificationStatus) (err : Option String) (now : Time)
    (d : NotificationRecord) :
    (applyUpdate status err now d).DeliveredAt =
      if status = StatusDelivered then some now else d.DeliveredAt := by
  unfold applyUpdate
  cases err <;> split_ifs <;> rfl

theorem UpdateStatus_tally (env : Env) (s : StoreSide) (id : String)
    (status : NotificationStatus) (err : Option String) :
    ∃ c, (UpdateStatus env s id status err).1.updateCalls = s.updateCalls ++ [c] ∧
      ∀ oid d, findOne oid s.docs = some d →
        ∃ d1, findOne oid (UpdateStatus env s id status err).1.docs = some d1 ∧
          d1.RetryCount = d.RetryCount + recordedFailures oid [c] := by
  cases hid : ObjectIDFromHex id with
  | none =>
    rw [UpdateStatus_invalid status err hid]
    refine ⟨_, rfl, fun oid d hd => ⟨d, hd, ?_⟩⟩
    simp [recordedFailures]
  | some oid0 =>
    cases hf : env.storeErr s.storeCalls with
    | some e =>
      rw [UpdateStatus_fault env s status err hid hf]
      refine ⟨_, rfl, fun oid d hd => ⟨d, hd, ?_⟩⟩
      simp [recordedFailures]
    | none =>
      rw [UpdateStatus_ok env s status err hid hf]
      refine ⟨_, rfl, fun oid d hd => ?_⟩
      simp only
      by_cases ho : oid = oid0
      · subst ho
        rw [findOne_updateOne_same _ _ (applyUpdate_ID _ _ _), hd]
        refine ⟨_, rfl, ?_⟩
        rw [applyUpdate_RetryCount]
        cases err <;> simp [recordedFailures, hid]
      · rw [findOne_updateOne_other _ _ _ (applyUpdate_ID _ _ _) ho, hd]
        refine ⟨_, rfl, ?_⟩
        have : ¬ oid0 = oid := fun h => ho h.symm
        simp [recordedFailures, hid, this]

theorem Evolves_tally {env : Env} {A : String → NotificationStatus → Prop} {s s2 : StoreSide}
    (h : Evolves env A s s2) :
    ∃ new, s2.updateCalls = s.updateCalls ++ new ∧
      ∀ oid d, findOne oid s.docs = some d →
        ∃ d2, findOne oid s2.docs = some d2 ∧
          d2.RetryCount = d.RetryCount + recordedFailures oid new := by
  induction h with
  | refl s => exact ⟨[], by simp, fun oid d hd => ⟨d, hd, by simp [recordedFailures]⟩⟩
  | clock s s2 n _ ih => exact ih
  | save s s2 t msg _ ih =>
    obtain ⟨new, hcalls, hdocs⟩ := ih
    refine ⟨new, ?_, fun oid d hd => ?_⟩
    · rw [hcalls, SaveNotification_updateCalls]
    · exact hdocs oid d (SaveNotification_findOne env s _ hd)
  | update s s2 id status err _ _ ih =>
    obtain ⟨new, hcalls, hdocs⟩ := ih
    obtain ⟨c, hc, hstep⟩ := UpdateStatus_tally env s id status err
    refine ⟨c :: new, ?_, fun oid d hd => ?_⟩
    · rw [hcalls, hc]; simp
    · obtain ⟨d1, hd1, hr1⟩ := hstep oid d hd
      obtain ⟨d2, hd2, hr2⟩ := hdocs oid d1 hd1
      refine ⟨d2, hd2, ?_⟩
      have := recordedFailures_append oid [c] new
      simp only [List.singleton_append] at this
      rw [hr2, hr1, this]
      push_cast
      ring
  | get s s2 id _ ih =>
    obtain ⟨new, hcalls, hdocs⟩ := ih
    refine ⟨new, ?_, fun oid d hd => ?_⟩
    · rw [hcalls, (GetNotificationByID_store env s id).2]
    · exact hdocs oid d (by rw [(GetNotificationByID_store env s id).1]; exact hd)
  | pending s s2 limit _ ih =>
    obtain ⟨new, hcalls, hdocs⟩ := ih
    refine ⟨new, ?_, fun oid d hd => ?_⟩
    · rw [hcalls, (GetPendingNotifications_store env s limit).2]
    · exact hdocs oid d (by rw [(GetPendingNotifications_store env s limit).1]; exact hd)

/-! ## C5 -/

/-- C5: a successful `UpdateStatus(id, status, err)` writes, for the stored record of that
identifier, the new status, a retry count one higher when `err` is supplied and
unchanged when it is nil, the text of `err` as error text exactly when `err` is
supplied, and the delivered timestamp exactly when the status is delivered; every
other record is left alone. Over any run of service operations, status requests and
worker steps, the retry count of a record present at the start equals its count at the
start plus the number of recorded failures (successful `UpdateStatus` calls carrying
an error) for it, so it never decreases. -/
theorem C5_retry_count_tracks_failures (env : Env) :
    (∀ (s s1 : StoreSide) (id : String) (status : NotificationStatus) (err : Option String),
      UpdateStatus env s id status err = (s1, none) →
      ∃ oid, ObjectIDFromHex id = some oid ∧
        (∀ d, findOne oid s.docs = some d →
          ∃ d1, findOne oid s1.docs = some d1 ∧
            d1.Status = status ∧
            d1.RetryCount = (match err with
              | some _ => d.RetryCount + 1
              | none => d.RetryCount) ∧
            d1.Error = (match err with
              | some e => e
              | none => d.Error) ∧
            d1.DeliveredAt =
              (if status = StatusDelivered then some (env.now s.clockReads) else d.DeliveredAt)) ∧
        (∀ other, other ≠ oid → findOne other s1.docs = findOne other s.docs)) ∧
    (∀ (fuel : Nat) (ops : List Op) (w w1 : World), run env fuel ops w = .ok w1 →
      ∃ new, w1.store.updateCalls = w.store.updateCalls ++ new ∧
        ∀ oid d, findOne oid w.store.docs = some d →
          ∃ d1, findOne oid w1.store.docs = some d1 ∧
            d1.RetryCount = d.RetryCount + recordedFailures oid new ∧
            d.RetryCount ≤ d1.RetryCount) := by
  refine ⟨fun s s1 id status err h => ?_, fun fuel ops w w1 h => ?_⟩
  · cases hid : ObjectIDFromHex id with
    | none =>
      rw [UpdateStatus_invalid status err hid] at h
      simp at h
    | some oid =>
      cases hf : env.storeErr s.storeCalls with
      | some e =>
        rw [UpdateStatus_fault env s status err hid hf] at h
        simp at h
      | none =>
        rw [UpdateStatus_ok env s status err hid hf] at h
        simp only [Prod.mk.injEq, and_true] at h
        refine ⟨oid, rfl, fun d hd => ?_, fun other hne => ?_⟩
        · refine ⟨applyUpdate status err (env.now s.clockReads) d, ?_, applyUpdate_Status _ _ _ _,
            applyUpdate_RetryCount _ _ _ _, applyUpdate_Error _ _ _ _,
            applyUpdate_DeliveredAt _ _ _ _⟩
          rw [← h]
          simp only
          rw [findOne_updateOne_same _ _ (applyUpdate_ID _ _ _), hd]
          rfl
        · rw [← h]
          exact findOne_updateOne_other _ _ _ (applyUpdate_ID _ _ _) hne _
  · obtain ⟨new, hcalls, hdocs⟩ := Evolves_tally (run_evolves ops h)
    refine ⟨new, hcalls, fun oid d hd => ?_⟩
    obtain ⟨d1, hd1, hr⟩ := hdocs oid d hd
    exact ⟨d1, hd1, hr, by rw [hr]; exact le_add_of_nonneg_right (Int.ofNat_nonneg _)⟩

/-- Witness of C5: one reconciliation pass over the pending record of `pendingFullWorld`
(queue full, broker link down) records one failure; the retry count goes from 0 to 1. -/
theorem C5_retry_count_tracks_failures_witness :
    ∃ w1, run brokerDownEnv 0 [Op.retry 5] pendingFullWorld = .ok w1 ∧
      ∃ new, w1.store.updateCalls = pendingFullWorld.store.updateCalls ++ new ∧
        ∀ oid d, findOne oid pendingFullWorld.store.docs = some d →
          ∃ d1, findOne oid w1.store.docs = some d1 ∧
            d1.RetryCount = d.RetryCount + recordedFailures oid new ∧
            d.RetryCount ≤ d1.RetryCount :=
  ⟨_, by rfl, (C5_retry_count_tracks_failures brokerDownEnv).2 0 [Op.retry 5] pendingFullWorld _
    (by rfl)⟩

/-! ## One iteration of the reconciliation loop -/

theorem Publish_publishCalls {env : Env} {fuel : Nat} {b b1 : BrokerSide}
    {m : NotificationMessage} {r : Option String} (h : Publish env fuel b m = .ok (b1, r)) :
    b1.publishCalls = b.publishCalls ++ [m] := by
  by_cases hroom : b.pub.asyncChannel.length < 100
  · rw [Publish_room env fuel b m hroom] at h
    simp only [Outcome.ok.injEq, Prod.mk.injEq] at h
    rw [← h.1]
    rfl
  · rw [Publish_full env fuel b m hroom] at h
    exact (publishDirect_frame env fuel _ b1 m r h).2.2.2.1

theorem UpdateStatus_calls (env : Env) (s : StoreSide) (id : String)
    (status : NotificationStatus) (err : Option String) :
    ((UpdateStatus env s id status err).1.updateCalls).map (fun c => c.id) =
      s.updateCalls.map (fun c => c.id) ++ [id] := by
  cases hid : ObjectIDFromHex id with
  | none => rw [UpdateStatus_invalid status err hid]; simp
  | some oid =>
    cases hf : env.storeErr s.storeCalls with
    | some e => rw [UpdateStatus_fault env s status err hid hf]; simp
    | none => rw [UpdateStatus_ok env s status err hid hf]; simp

theorem UpdateStatus_other (env : Env) (s : StoreSide) (id : String)
    (status : NotificationStatus) (err : Option String) (oid : ObjectID)
    (hne : ObjectIDFromHex id ≠ some oid) :
    findOne oid (UpdateStatus env s id status err).1.docs = findOne oid s.docs := by
  cases hid : ObjectIDFromHex id with
  | none => rw [UpdateStatus_invalid status err hid]
  | some oid0 =>
    cases hf : env.storeErr s.storeCalls with
    | some e => rw [UpdateStatus_fault env s status err hid hf]
    | none =>
      rw [UpdateStatus_ok env s status err hid hf]
      have : oid ≠ oid0 := fun h => hne (by rw [hid, h])
      exact findOne_updateOne_other _ _ _ (applyUpdate_ID _ _ _) this _

theorem retryOne_skip (env : Env) (fuel : Nat) (maxRetries : Int) (w : World)
    (n : NotificationRecord) (h : n.RetryCount ≥ maxRetries) :
    retryOne env fuel maxRetries w n = .ok (w, false) := by
  unfold retryOne
  rw [if_pos h]

theorem retryOne_eligible {env : Env} {fuel : Nat} {maxRetries : Int} {w w1 : World}
    {n : NotificationRecord} {c : Bool} (hlt : n.RetryCount < maxRetries)
    (h : retryOne env fuel maxRetries w n = .ok (w1, c)) :
    w1.broker.publishCalls = w.broker.publishCalls ++ [n.Message] ∧
    w1.store.updateCalls.map (fun c => c.id) =
      w.store.updateCalls.map (fun c => c.id) ++ [Hex n.ID] ∧
    ∀ oid, oid ≠ n.ID → findOne oid w1.store.docs = findOne oid w.store.docs := by
  have hne : ∀ oid, oid ≠ n.ID → ObjectIDFromHex (Hex n.ID) ≠ some oid := by
    intro oid ho hEq
    rw [ObjectIDFromHex_Hex] at hEq
    exact ho (Option.some.inj hEq).symm
  unfold retryOne at h
  rw [if_neg (not_le.mpr hlt)] at h
  cases hp : Publish env fuel w.broker n.Message with
  | outOfFuel => rw [hp] at h; cases h
  | panicked x => rw [hp] at h; cases h
  | ok p =>
    obtain ⟨b1, pr⟩ := p
    rw [hp] at h
    have hcalls := Publish_publishCalls hp
    cases pr with
    | some e =>
      simp only [Outcome.ok.injEq, Prod.mk.injEq] at h
      rw [← h.1]
      exact ⟨hcalls, UpdateStatus_calls _ _ _ _ _,
        fun oid ho => UpdateStatus_other _ _ _ _ _ _ (hne oid ho)⟩
    | none =>
      simp only at h
      have hu := UpdateStatus_calls env w.store (Hex n.ID) StatusPending none
      have ho := fun oid (h1 : oid ≠ n.ID) =>
        UpdateStatus_other env w.store (Hex n.ID) StatusPending none oid (hne oid h1)
      cases hU : UpdateStatus env w.store (Hex n.ID) StatusPending none with
      | mk s1 ur =>
        rw [hU] at h hu ho
        cases ur <;>
          (simp only [Outcome.ok.injEq, Prod.mk.injEq] at h
           rw [← h.1]
           exact ⟨hcalls, hu, ho⟩)

theorem retryLoop_trace {env : Env} {fuel : Nat} {maxRetries : Int}
    (batch : List NotificationRecord) {w w1 : World} {k k1 : Nat}
    (h : retryLoop env fuel maxRetries batch w k = .ok (w1, k1)) :
    w1.broker.publishCalls =
      w.broker.publishCalls ++ (eligible maxRetries batch).map (fun n => n.Message) ∧
    w1.store.updateCalls.map (fun c => c.id) =
      w.store.updateCalls.map (fun c => c.id) ++
        (eligible maxRetries batch).map (fun n => Hex n.ID) ∧
    ∀ oid, (∀ x ∈ eligible maxRetries batch, x.ID ≠ oid) →
      findOne oid w1.store.docs = findOne oid w.store.docs := by
  induction batch generalizing w k with
  | nil =>
    simp only [retryLoop, Outcome.ok.injEq, Prod.mk.injEq] at h
    rw [← h.1]
    simp [eligible]
  | cons n rest ih =>
    rw [retryLoop] at h
    cases ho : retryOne env fuel maxRetries w n with
    | outOfFuel => rw [ho] at h; cases h
    | panicked x => rw [ho] at h; cases h
    | ok p =>
      obtain ⟨w2, c⟩ := p
      rw [ho] at h
      obtain ⟨hp, hu, hf⟩ := ih h
      by_cases hlt : n.RetryCount < maxRetries
      · obtain ⟨hp1, hu1, hf1⟩ := retryOne_eligible hlt ho
        have hel : eligible maxRetries (n :: rest) = n :: eligible maxRetries rest := by
          simp [eligible, hlt]
        rw [hel]
        refine ⟨?_, ?_, fun oid hx => ?_⟩
        · rw [hp, hp1]; simp
        · rw [hu, hu1]; simp
        · rw [hf oid (fun x hxm => hx x (List.mem_cons_of_mem _ hxm)),
            hf1 oid (fun hEq => hx n (List.mem_cons_self _ _) hEq.symm)]
      · have hskip := retryOne_skip env fuel maxRetries w n (not_lt.mp hlt)
        rw [hskip] at ho
        simp only [Outcome.ok.injEq, Prod.mk.injEq] at ho
        have hel : eligible maxRetries (n :: rest) = eligible maxRetries rest := by
          simp [eligible, hlt]
        rw [hel, ho.1]
        exact ⟨hp, hu, hf⟩

theorem applyUpdate_pending_none {d : NotificationRecord} (now : Time)
    (h : d.Status = StatusPending) : applyUpdate StatusPending none now d = d := by
  cases d
  simp only at h
  subst h
  rfl

/-! ## C6 -/

/-- C6 as stated fails: one reconciliation pass (maxRetries 5) over the single pending
record of `pendingFullWorld`, retry count 0, with the queue full, the broker link down
and a store that answers the query but times out on the write. The publish call for
the record's message fails with "not connected to RabbitMQ", and afterwards the record
is still pending with retry count 0 and no error text. -/
theorem C6_counterexample :
    pendingFullWorld.store.docs = [savedRecord brokerDownEnv emptyStore alertRequest] ∧
    (savedRecord brokerDownEnv emptyStore alertRequest).Status = StatusPending ∧
    (savedRecord brokerDownEnv emptyStore alertRequest).RetryCount < 5 ∧
    (∃ b1, Publish storeFlakyEnv 0 pendingFullWorld.broker
        (savedRecord brokerDownEnv emptyStore alertRequest).Message =
      .ok (b1, some "not connected to RabbitMQ")) ∧
    ∃ w1, RetryFailedNotifications storeFlakyEnv 0 pendingFullWorld 5 = .ok (w1, .ok 0) ∧
      w1.broker.publishCalls = [(savedRecord brokerDownEnv emptyStore alertRequest).Message] ∧
      ∃ r, findOne (oidOfNat 1) w1.store.docs = some r ∧
        r.Status = StatusPending ∧ r.RetryCount = 0 ∧ r.Error = "" :=
  ⟨by rfl, by rfl, by decide, ⟨_, by rfl⟩, _, by rfl, by rfl, _, by rfl, by rfl, by rfl, by rfl⟩

/-- C6, amended: for a record of the batch with retry count below maxRetries whose stored
document is pending, one iteration of the loop of `RetryFailedNotifications` does this.
If the publish call for its message succeeds, the stored document is afterwards what it
was: pending, same retry count, same error (whether or not the status write succeeds).
If the publish call fails and the store performs the status write, the stored document
is afterwards failed, with retry count one higher and the publish error's text as error
text. The later iterations of the pass, for records with other identifiers, do not
touch it. (When the write fails the document stays as it was; that failure is only
logged.) -/
theorem C6_retry_outcome (env : Env) (fuel : Nat) (maxRetries : Int) (w : World)
    (n d : NotificationRecord)
    (hlt : n.RetryCount < maxRetries)
    (hd : findOne n.ID w.store.docs = some d)
    (hpend : d.Status = StatusPending) :
    (∀ b1, Publish env fuel w.broker n.Message = .ok (b1, none) →
      ∃ s1 c, retryOne env fuel maxRetries w n = .ok ({ store := s1, broker := b1 }, c) ∧
        findOne n.ID s1.docs = some d) ∧
    (∀ b1 e, Publish env fuel w.broker n.Message = .ok (b1, some e) →
      env.storeErr w.store.storeCalls = none →
      ∃ s1, retryOne env fuel maxRetries w n = .ok ({ store := s1, broker := b1 }, false) ∧
        findOne n.ID s1.docs =
          some { d with Status := StatusFailed, RetryCount := d.RetryCount + 1, Error := e }) ∧
    (∀ (rest : List NotificationRecord) (w1 w2 : World) (k k2 : Nat),
      retryLoop env fuel maxRetries rest w1 k = .ok (w2, k2) →
      (∀ x ∈ rest, x.ID ≠ n.ID) →
      findOne n.ID w2.store.docs = findOne n.ID w1.store.docs) := by
  have hparse := ObjectIDFromHex_Hex n.ID
  refine ⟨fun b1 hp => ?_, fun b1 e hp hf => ?_, fun rest w1 w2 k k2 hl hne => ?_⟩
  · cases hf : env.storeErr w.store.storeCalls with
    | some e =>
      have hU := UpdateStatus_fault env (w.store) StatusPending none hparse hf
      refine ⟨(UpdateStatus env w.store (Hex n.ID) StatusPending none).1, false, ?_, ?_⟩
      · simp only [retryOne, if_neg (not_le.mpr hlt), hp, hU]
      · rw [hU]
        exact hd
    | none =>
      have hU := UpdateStatus_ok env (w.store) StatusPending none hparse hf
      refine ⟨(UpdateStatus env w.store (Hex n.ID) StatusPending none).1, true, ?_, ?_⟩
      · simp only [retryOne, if_neg (not_le.mpr hlt), hp, hU]
      · rw [hU]
        simp only
        rw [findOne_updateOne_same _ _ (applyUpdate_ID _ _ _), hd]
        simp [applyUpdate_pending_none _ hpend]
  · have hU := UpdateStatus_ok env (w.store) StatusFailed (some e) hparse hf
    refine ⟨(UpdateStatus env w.store (Hex n.ID) StatusFailed (some e)).1, ?_, ?_⟩
    · simp only [retryOne, if_neg (not_le.mpr hlt), hp]
    · rw [hU]
      simp only
      rw [findOne_updateOne_same _ _ (applyUpdate_ID _ _ _), hd]
      rfl
  · exact (retryLoop_trace rest hl).2.2 n.ID
      (fun x hx => hne x (List.mem_of_mem_filter hx))

/-- Witness of C6, amended: the pending record of `pendingFullWorld` (queue full, broker
link down, healthy store) becomes failed with retry count 1. -/
theorem C6_retry_outcome_witness :
    ∃ s1, retryOne brokerDownEnv 0 5 pendingFullWorld
        (savedRecord brokerDownEnv emptyStore alertRequest) =
        .ok ({ store := s1, broker :=
                { pendingFullWorld.broker with
                  publishCalls := [(savedRecord brokerDownEnv emptyStore alertRequest).Message],
                  directAttempts :=
                    [(savedRecord brokerDownEnv emptyStore alertRequest).Message] } }, false) ∧
      findOne (savedRecord brokerDownEnv emptyStore alertRequest).ID s1.docs =
        some { savedRecord brokerDownEnv emptyStore alertRequest with
               Status := StatusFailed,
               RetryCount := (savedRecord brokerDownEnv emptyStore alertRequest).RetryCount + 1,
               Error := "not connected to RabbitMQ" } :=
  (C6_retry_outcome brokerDownEnv 0 5 pendingFullWorld
    (savedRecord brokerDownEnv emptyStore alertRequest)
    (savedRecord brokerDownEnv emptyStore alertRequest) (by decide) (by rfl) (by rfl)).2.1
    _ "not connected to RabbitMQ" (by rfl) (by rfl)

/-! ## The unique indexes are kept -/

theorem SaveNotification_indexed (env : Env) (s : StoreSide) (n : NotificationRecord)
    (h : StoreIndexed s) : StoreIndexed (SaveNotification env s n).1 := by
  unfold SaveNotification
  cases hi : insertOne env s n with
  | error e => exact h
  | ok p =>
    unfold insertOne at hi
    cases hf : env.storeErr s.storeCalls with
    | some e => simp [hf] at hi
    | none =>
      simp only [hf] at hi
      generalize (if n.ID = NilObjectID then
        { n with ID := env.newObjectID s.storeCalls } else n) = stored at hi
      split_ifs at hi with h1 h2
      simp only [Except.ok.injEq] at hi
      rw [← hi]
      unfold StoreIndexed at h ⊢
      simp only [List.map_append, List.map_cons, List.map_nil]
      refine ⟨List.Nodup.append h.1 (List.nodup_singleton _) ?_,
        List.Nodup.append h.2 (List.nodup_singleton _) ?_⟩
      · rw [List.disjoint_singleton]
        intro hmem
        obtain ⟨d, hd, hEq⟩ := List.mem_map.mp hmem
        exact h1 ⟨d, hd, hEq⟩
      · rw [List.disjoint_singleton]
        intro hmem
        obtain ⟨d, hd, hEq⟩ := List.mem_map.mp hmem
        exact h2 ⟨d, hd, hEq⟩

theorem applyUpdate_Message (status : NotificationStatus) (err : Option String) (now : Time)
    (d : NotificationRecord) : (applyUpdate status err now d).Message = d.Message := by
  unfold applyUpdate
  cases err <;> split_ifs <;> rfl

theorem map_updateOne {β : Type} (g : NotificationRecord → β) (oid : ObjectID)
    (f : NotificationRecord → NotificationRecord) (hf : ∀ d, g (f d) = g d)
    (docs : List NotificationRecord) : (updateOne oid f docs).map g = docs.map g := by
  induction docs with
  | nil => rfl
  | cons d ds ih =>
    unfold updateOne
    split_ifs
    · simp [hf]
    · simp [ih]

theorem UpdateStatus_indexed (env : Env) (s : StoreSide) (id : String)
    (status : NotificationStatus) (err : Option String) (h : StoreIndexed s) :
    StoreIndexed (UpdateStatus env s id status err).1 := by
  cases hid : ObjectIDFromHex id with
  | none => rw [UpdateStatus_invalid status err hid]; exact h
  | some oid =>
    cases hf : env.storeErr s.storeCalls with
    | some e => rw [UpdateStatus_fault env s status err hid hf]; exact h
    | none =>
      rw [UpdateStatus_ok env s status err hid hf]
      unfold StoreIndexed at h ⊢
      simp only
      rw [map_updateOne (fun d => d.ID) _ _ (applyUpdate_ID _ _ _),
        map_updateOne (fun d => d.Message.ID) _ _
          (fun d => by simp only [applyUpdate_Message])]
      exact h

theorem Evolves_indexed {env : Env} {A : String → NotificationStatus → Prop} {s s2 : StoreSide}
    (h : Evolves env A s s2) (hidx : StoreIndexed s) : StoreIndexed s2 := by
  induction h with
  | refl s => exact hidx
  | clock s s2 n _ ih => exact ih hidx
  | save s s2 t msg _ ih => exact ih (SaveNotification_indexed env s _ hidx)
  | update s s2 id status err _ _ ih => exact ih (UpdateStatus_indexed env s id status err hidx)
  | get s s2 id _ ih =>
    apply ih
    unfold StoreIndexed at hidx ⊢
    rw [(GetNotificationByID_store env s id).1]
    exact hidx
  | pending s s2 limit _ ih =>
    apply ih
    unfold StoreIndexed at hidx ⊢
    rw [(GetPendingNotifications_store env s limit).1]
    exact hidx

theorem run_indexed {env : Env} {fuel : Nat} (ops : List Op) {w w1 : World}
    (h : run env fuel ops w = .ok w1) (hidx : StoreIndexed w.store) : StoreIndexed w1.store :=
  Evolves_indexed (run_evolves ops h) hidx

/-! ## The calls of a reconciliation pass -/

theorem findOne_of_mem_nodup {docs : List NotificationRecord} {n : NotificationRecord}
    (hnd : (docs.map (fun d => d.ID)).Nodup) (hn : n ∈ docs) : findOne n.ID docs = some n := by
  induction docs with
  | nil => cases hn
  | cons d ds ih =>
    unfold findOne at ih ⊢
    rw [List.map_cons, List.nodup_cons] at hnd
    rcases List.mem_cons.mp hn with h | h
    · subst h
      simp
    · have hne : ¬ d.ID = n.ID := by
        intro hEq
        exact hnd.1 (by rw [hEq]; exact List.mem_map_of_mem (fun d => d.ID) h)
      rw [List.find?_cons]
      simp only [hne, decide_False]
      exact ih hnd.2 h

theorem GetPendingNotifications_ok {env : Env} {s s1 : StoreSide}
    {batch : List NotificationRecord}
    (h : GetPendingNotifications env s 100 = (s1, .ok batch)) :
    s1 = { s with storeCalls := s.storeCalls + 1 } ∧
    batch = (sortByCreatedAt (env.tieRank s.storeCalls)
      (s.docs.filter (fun d => decide (d.Status = StatusPending)))).take 100 := by
  unfold GetPendingNotifications at h
  simp only at h
  cases hf : env.storeErr s.storeCalls with
  | some e => rw [hf] at h; simp at h
  | none =>
    rw [hf] at h
    simp only [Prod.mk.injEq, Except.ok.injEq] at h
    refine ⟨h.1.symm, ?_⟩
    rw [← h.2]
    simp [applyLimit]

theorem GetPendingNotifications_answer (env : Env) (s : StoreSide) (limit : Int)
    (h : env.storeErr s.storeCalls = none) :
    (GetPendingNotifications env s limit).2 =
      .ok (applyLimit limit (sortByCreatedAt (env.tieRank s.storeCalls)
        (s.docs.filter (fun d => decide (d.Status = StatusPending))))) := by
  unfold GetPendingNotifications
  simp only [h]

theorem GetPendingNotifications_answers (env : Env) (s : StoreSide) (limit : Int)
    (h : env.storeErr s.storeCalls = none) :
    GetPendingNotifications env s limit =
      ({ s with storeCalls := s.storeCalls + 1 },
        .ok (applyLimit limit (sortByCreatedAt (env.tieRank s.storeCalls)
          (s.docs.filter (fun d => decide (d.Status = StatusPending)))))) := by
  unfold GetPendingNotifications
  simp only [h]

/-- The calls of a pass that returns: a record whose retry count is at or above
maxRetries is skipped by the loop of `RetryFailedNotifications` with the whole world
unchanged; the `Publish` calls of the pass are exactly one per batch record with retry
count below maxRetries, in batch order, each with that record's message, and its
`UpdateStatus` calls are exactly one per such record, under that record's identifier.
With the unique indexes of the collection in force, a batch record at or above
maxRetries gets no publish call for its message and no `UpdateStatus` call, and its
stored document after the pass is the record as returned by the store. -/
theorem RetryFailedNotifications_calls (env : Env) (fuel : Nat) (maxRetries : Int) (w : World) :
    (∀ n : NotificationRecord, n.RetryCount ≥ maxRetries →
      retryOne env fuel maxRetries w n = .ok (w, false)) ∧
    (∀ (s1 : StoreSide) (batch : List NotificationRecord) (w1 : World) (r : Except String Nat),
      GetPendingNotifications env w.store 100 = (s1, .ok batch) →
      RetryFailedNotifications env fuel w maxRetries = .ok (w1, r) →
      w1.broker.publishCalls =
        w.broker.publishCalls ++ (eligible maxRetries batch).map (fun n => n.Message) ∧
      w1.store.updateCalls.map (fun c => c.id) =
        w.store.updateCalls.map (fun c => c.id) ++
          (eligible maxRetries batch).map (fun n => Hex n.ID) ∧
      (StoreIndexed w.store → ∀ n ∈ batch, n.RetryCount ≥ maxRetries →
        n.Message ∉ (eligible maxRetries batch).map (fun n => n.Message) ∧
        Hex n.ID ∉ (eligible maxRetries batch).map (fun n => Hex n.ID) ∧
        findOne n.ID w1.store.docs = some n)) := by
  refine ⟨fun n hn => retryOne_skip env fuel maxRetries w n hn, ?_⟩
  intro s1 batch w1 r hq hr
  obtain ⟨hs1, hbatch⟩ := GetPendingNotifications_ok hq
  unfold RetryFailedNotifications at hr
  rw [hq] at hr
  simp only at hr
  cases hl : retryLoop env fuel maxRetries batch { w with store := s1 } 0 with
  | outOfFuel => rw [hl] at hr; cases hr
  | panicked x => rw [hl] at hr; cases hr
  | ok p =>
    obtain ⟨w2, k⟩ := p
    rw [hl] at hr
    simp only [Outcome.ok.injEq, Prod.mk.injEq] at hr
    obtain ⟨hp, hu, hf⟩ := retryLoop_trace batch hl
    rw [← hr.1]
    have hdocs : s1.docs = w.store.docs := by rw [hs1]
    have hcalls : s1.updateCalls = w.store.updateCalls := by rw [hs1]
    simp only [hdocs, hcalls] at hp hu hf
    refine ⟨hp, hu, fun hidx n hn hge => ?_⟩
    have hmem : ∀ x ∈ batch, x ∈ w.store.docs := by
      intro x hx
      rw [hbatch] at hx
      exact List.mem_of_mem_filter
        ((mem_sortByCreatedAt _ _ x).mp (List.mem_of_mem_take hx))
    have hdiff : ∀ x ∈ eligible maxRetries batch, x ≠ n := by
      intro x hx hEq
      have hlt : x.RetryCount < maxRetries := by
        simpa using (List.mem_filter.mp hx).2
      rw [hEq] at hlt
      exact absurd hge (not_le.mpr hlt)
    have hxb : ∀ x ∈ eligible maxRetries batch, x ∈ w.store.docs :=
      fun x hx => hmem x (List.mem_of_mem_filter hx)
    have hidne : ∀ x ∈ eligible maxRetries batch, x.ID ≠ n.ID := by
      intro x hx hEq
      exact hdiff x hx (List.inj_on_of_nodup_map hidx.1 (hxb x hx) (hmem n hn) hEq)
    refine ⟨?_, ?_, ?_⟩
    · intro hin
      obtain ⟨x, hx, hEq⟩ := List.mem_map.mp hin
      have hmid : x.Message.ID = n.Message.ID := by
        have := congrArg NotificationMessage.ID hEq
        simpa using this
      exact hdiff x hx (List.inj_on_of_nodup_map hidx.2 (hxb x hx) (hmem n hn) hmid)
    · intro hin
      obtain ⟨x, hx, hEq⟩ := List.mem_map.mp hin
      exact hidne x hx (Hex_injective hEq)
    · rw [hf n.ID hidne]
      exact findOne_of_mem_nodup hidx.1 (hmem n hn)

/-! ## A lost link blocks the caller -/

theorem reconnect_never (env : Env) (fuel : Nat) (b : BrokerSide)
    (hfail : ∀ k, b.dialCalls ≤ k → ∀ conn ch, env.dial k ≠ .established conn ch)
    (hdown : b.pub.isConnected = false) : reconnect env fuel b = .outOfFuel := by
  induction fuel generalizing b with
  | zero => simp [reconnect, hdown]
  | succ n ih =>
    unfold reconnect
    simp only [hdown, Bool.false_eq_true, if_false]
    unfold connect
    simp only [hdown, Bool.false_eq_true, if_false]
    cases hd : env.dial b.dialCalls with
    | dialFailed e =>
      exact ih _ (fun k hk => hfail k (by simp at hk; omega)) hdown
    | channelFailed e =>
      exact ih _ (fun k hk => hfail k (by simp at hk; omega)) hdown
    | exchangeFailed e =>
      exact ih _ (fun k hk => hfail k (by simp at hk; omega)) hdown
    | established conn ch => exact absurd hd (hfail _ (le_refl _) conn ch)

theorem publishDirect_blocks (env : Env) (fuel : Nat) (b : BrokerSide)
    (msg : NotificationMessage) (ch : Nat) (e : String)
    (hc : b.pub.isConnected = true) (hch : b.pub.channel = some ch)
    (hs : env.send b.sendCalls = some e)
    (hfail : ∀ k, b.dialCalls ≤ k → ∀ conn ch, env.dial k ≠ .established conn ch) :
    publishDirect env fuel b msg = .outOfFuel := by
  unfold publishDirect handleDisconnect
  simp only [hc, hch, hs, Bool.true_eq_false, if_false]
  rw [reconnect_never env fuel
    { pub := { connection := none, channel := none, asyncChannel := b.pub.asyncChannel,
               isConnected := false, doneClosed := b.pub.doneClosed },
      retryQueue := b.retryQueue, dialCalls := b.dialCalls, sendCalls := b.sendCalls + 1,
      publishCalls := b.publishCalls, directAttempts := b.directAttempts ++ [msg],
      brokerAcks := b.brokerAcks, monitorStarted := b.monitorStarted } hfail rfl]
  rfl

theorem retryOne_blocks (env : Env) (fuel : Nat) (maxRetries : Int) (w : World)
    (n : NotificationRecord) (ch : Nat) (e : String)
    (hlt : n.RetryCount < maxRetries)
    (hfull : ¬ w.broker.pub.asyncChannel.length < 100)
    (hc : w.broker.pub.isConnected = true) (hch : w.broker.pub.channel = some ch)
    (hs : env.send w.broker.sendCalls = some e)
    (hfail : ∀ k, w.broker.dialCalls ≤ k → ∀ conn ch, env.dial k ≠ .established conn ch) :
    retryOne env fuel maxRetries w n = .outOfFuel := by
  have hb := publishDirect_blocks env fuel
    { w.broker with publishCalls := w.broker.publishCalls ++ [n.Message] } n.Message ch e
    hc hch hs hfail
  unfold retryOne
  rw [if_neg (not_le.mpr hlt), Publish_full env fuel w.broker n.Message hfull, hb]

/-- A pass whose first eligible record is the first of the batch does not return when
the publisher is connected with a full dispatch queue, the send fails and every later
connect attempt is refused: the publish call for that record never returns, so the
records after it are never visited. -/
theorem RetryFailedNotifications_blocks (env : Env) (fuel : Nat) (maxRetries : Int) (w : World)
    (s1 : StoreSide) (n : NotificationRecord) (rest : List NotificationRecord)
    (ch : Nat) (e : String)
    (hq : GetPendingNotifications env w.store 100 = (s1, .ok (n :: rest)))
    (hlt : n.RetryCount < maxRetries)
    (hfull : ¬ w.broker.pub.asyncChannel.length < 100)
    (hc : w.broker.pub.isConnected = true) (hch : w.broker.pub.channel = some ch)
    (hs : env.send w.broker.sendCalls = some e)
    (hfail : ∀ k, w.broker.dialCalls ≤ k → ∀ conn ch, env.dial k ≠ .established conn ch) :
    RetryFailedNotifications env fuel w maxRetries = .outOfFuel := by
  unfold RetryFailedNotifications
  rw [hq]
  simp only
  rw [retryLoop, retryOne_blocks env fuel maxRetries { w with store := s1 } n ch e hlt hfull hc
    hch hs hfail]

/-! ## C7 -/

/-- C7 fails on the code. The first half holds: for every maxRetries a record whose
retry count is at or above maxRetries is skipped with the whole world unchanged (no
publish call, no `UpdateStatus` call). The second half does not: in `pendingPairWorld`
the store returns two pending records with retry count 0, the publisher is connected with
a full dispatch queue, the send fails and every later connect attempt is refused. Then,
in whichever order the store lists the two records and for every amount of fuel (every
number of connect attempts the loop is allowed), the publish call for the first record of
the batch does not return (`publishDirect` waits in `reconnect`), so the pass with
maxRetries 5 does not return and the second record, also below maxRetries, gets no
publish call. -/
theorem C7_blocked_pass_skips_eligible (fuel : Nat) (rank : Nat → ObjectID → Nat) :
    (∀ (env : Env) (maxRetries : Int) (w : World) (n : NotificationRecord),
      n.RetryCount ≥ maxRetries → retryOne env fuel maxRetries w n = .ok (w, false)) ∧
    pendingPairWorld.broker.pub.isConnected = true ∧
    pendingPairWorld.broker.pub.asyncChannel.length = 100 ∧
    (∃ first second : NotificationRecord,
      GetPendingNotifications { linkLostEnv with tieRank := rank } pendingPairWorld.store 100 =
        ({ pendingPairWorld.store with storeCalls := 1 }, .ok [first, second]) ∧
      first.RetryCount < 5 ∧ second.RetryCount < 5 ∧
      retryOne { linkLostEnv with tieRank := rank } fuel 5
        { pendingPairWorld with store := { pendingPairWorld.store with storeCalls := 1 } }
        first = .outOfFuel) ∧
    RetryFailedNotifications { linkLostEnv with tieRank := rank } fuel pendingPairWorld 5 =
      .outOfFuel := by
  have hfail : ∀ k, pendingPairWorld.broker.dialCalls ≤ k →
      ∀ conn ch, ({ linkLostEnv with tieRank := rank } : Env).dial k ≠
        .established conn ch := by
    intro k hk conn ch
    have h1 : pendingPairWorld.broker.dialCalls = 1 := by rfl
    have hk0 : k ≠ 0 := by omega
    simp [linkLostEnv, hk0]
  have hfull : ¬ pendingPairWorld.broker.pub.asyncChannel.length < 100 := by decide
  have hq : ∃ first second : NotificationRecord,
      GetPendingNotifications { linkLostEnv with tieRank := rank } pendingPairWorld.store 100 =
        ({ pendingPairWorld.store with storeCalls := 1 }, .ok [first, second]) ∧
      first.RetryCount < 5 ∧ second.RetryCount < 5 := by
    by_cases hr : rank 0 (pendingRecord 1 "a" 2000000000).ID ≤
        rank 0 (pendingRecord 2 "b" 1000000000).ID
    · refine ⟨pendingRecord 1 "a" 2000000000, pendingRecord 2 "b" 1000000000, ?_,
        by decide, by decide⟩
      rw [GetPendingNotifications_answers _ _ _ (by rfl)]
      show (_, Except.ok (applyLimit 100 (sortByCreatedAt (rank 0)
        [pendingRecord 1 "a" 2000000000, pendingRecord 2 "b" 1000000000]))) = _
      rw [sortByCreatedAt_pair, if_pos hr]
      rfl
    · refine ⟨pendingRecord 2 "b" 1000000000, pendingRecord 1 "a" 2000000000, ?_,
        by decide, by decide⟩
      rw [GetPendingNotifications_answers _ _ _ (by rfl)]
      show (_, Except.ok (applyLimit 100 (sortByCreatedAt (rank 0)
        [pendingRecord 1 "a" 2000000000, pendingRecord 2 "b" 1000000000]))) = _
      rw [sortByCreatedAt_pair, if_neg hr]
      rfl
  obtain ⟨first, second, hq1, hlt1, hlt2⟩ := hq
  refine ⟨fun env maxRetries w n hn => retryOne_skip env fuel maxRetries w n hn, by rfl, by rfl,
    ⟨first, second, hq1, hlt1, hlt2, ?_⟩, ?_⟩
  · exact retryOne_blocks _ fuel 5 _ first 1 "write tcp: broken pipe" hlt1 hfull (by rfl) (by rfl)
      (by rfl) hfail
  · exact RetryFailedNotifications_blocks _ fuel 5 pendingPairWorld _ first [second] 1
      "write tcp: broken pipe" hq1 hlt1 hfull (by rfl) (by rfl) (by rfl) hfail

/-! ## C8 -/

/-- C8 as stated fails: from the empty store and the empty dispatch queue with the broker
down, create("alert", "disk full", "+15555550100") leaves the record pending with retry
count 0, and one run of the reconciliation pass with maxRetries 5, broker still down,
leaves it pending with retry count 0 again (not failed with retry count 1): the message
is put into the dispatch queue a second time, `Publish` returns nil, and the pass counts
the record as retried. No publish attempt reaches the broker. -/
theorem C8_counterexample :
    (initialWorld brokerDownEnv).store.docs = [] ∧
    (initialWorld brokerDownEnv).broker.pub.asyncChannel = [] ∧
    (initialWorld brokerDownEnv).broker.pub.isConnected = false ∧
    ∃ w1 w2, CreateNotification brokerDownEnv 0 (initialWorld brokerDownEnv) alertRequest =
        .ok (w1, .ok "000000000000000000000001") ∧
      RetryFailedNotifications brokerDownEnv 0 w1 5 = .ok (w2, .ok 1) ∧
      w2.broker.pub.isConnected = false ∧
      w2.broker.directAttempts = [] ∧
      ∃ r, findOne (oidOfNat 1) w2.store.docs = some r ∧
        r.Status = StatusPending ∧ r.RetryCount = 0 ∧
        ¬ (r.Status = StatusFailed ∧ r.RetryCount = 1) :=
  ⟨by rfl, by rfl, by rfl, _, _, by rfl, by rfl, by rfl, by rfl, _, by rfl, by rfl, by rfl,
    by decide⟩

theorem initialWorld_down {env : Env} (hdown : ∀ k, ∃ e, env.dial k = .dialFailed e) :
    initialWorld env =
      { store := emptyStore
        broker :=
          { pub := { connection := none, channel := none, asyncChannel := [],
                     isConnected := false, doneClosed := false }
            retryQueue := [], dialCalls := 1, sendCalls := 0
            publishCalls := [], directAttempts := [], brokerAcks := []
            monitorStarted := true } } := by
  obtain ⟨e, he⟩ := hdown 0
  simp [initialWorld, NewRabbitMQPublisher, initialPublisher, connect, he]

/-- C8, amended: from the empty store and the empty dispatch queue with the broker down
(every dial refused) and a store that answers, create("alert", "disk full",
"+15555550100") returns an identifier and leaves the record pending with retry count 0,
its message waiting in the dispatch queue and the link down. One run of the
reconciliation pass with maxRetries 5 then returns the count 1 and leaves that record
pending with retry count 0, whatever the broker side looks like as long as the dispatch
queue has room (whether or not the worker has taken the first copy): the message is
accepted into the queue again and nothing else on the broker side changes, so the link
is still down and no direct publish is attempted. -/
theorem C8_scenario_stays_pending (env : Env) (fuel : Nat)
    (hdown : ∀ k, ∃ e, env.dial k = .dialFailed e)
    (hstore : ∀ k, k < 3 → env.storeErr k = none) :
    ∃ w1 r, CreateNotification env fuel (initialWorld env) alertRequest =
        .ok (w1, .ok (Hex r.ID)) ∧
      findOne r.ID w1.store.docs = some r ∧
      r.Status = StatusPending ∧ r.RetryCount = 0 ∧
      r.Message.MsgType = "alert" ∧ r.Message.Message = "disk full" ∧
      r.Message.Phone = "+15555550100" ∧
      w1.broker.pub.asyncChannel = [r.Message] ∧
      w1.broker.pub.isConnected = false ∧
      ∀ b : BrokerSide, b.pub.asyncChannel.length < 100 →
        ∃ s2, RetryFailedNotifications env fuel { store := w1.store, broker := b } 5 =
            .ok ({ store := s2, broker := enqueued b r.Message }, .ok 1) ∧
          findOne r.ID s2.docs = some r := by
  have h0 := hstore 0 (by decide)
  have h1 := hstore 1 (by decide)
  have h2 := hstore 2 (by decide)
  have hinit := initialWorld_down hdown
  have hsave : createSave env emptyStore alertRequest =
      ({ docs := [savedRecord env emptyStore alertRequest], storeCalls := 1, clockReads := 3,
         updateCalls := [] }, .ok (Hex (savedRecord env emptyStore alertRequest).ID)) := by
    simp [createSave, SaveNotification, insertOne, emptyStore, h0, NewNotificationRecord,
      savedRecord]
  have hcreate : CreateNotification env fuel (initialWorld env) alertRequest =
      .ok ({ store := { docs := [savedRecord env emptyStore alertRequest], storeCalls := 1,
                        clockReads := 3, updateCalls := [] },
             broker := enqueued (initialWorld env).broker
               (requestMessage env emptyStore alertRequest) },
           .ok (Hex (savedRecord env emptyStore alertRequest).ID)) := by
    have hp := Publish_room env fuel (initialWorld env).broker
      (requestMessage env emptyStore alertRequest) (by rw [hinit]; simp)
    have hst : (initialWorld env).store = emptyStore := rfl
    simp only [CreateNotification, hst, hsave, hp]
  have hq : GetPendingNotifications env
      { docs := [savedRecord env emptyStore alertRequest], storeCalls := 1, clockReads := 3,
        updateCalls := [] } 100 =
      ({ docs := [savedRecord env emptyStore alertRequest], storeCalls := 2, clockReads := 3,
         updateCalls := [] }, .ok [savedRecord env emptyStore alertRequest]) := by
    simp [GetPendingNotifications, h1, sortByCreatedAt_singleton, applyLimit, savedRecord,
      NewNotificationRecord]
  have hU := UpdateStatus_ok env (StoreSide.mk [savedRecord env emptyStore alertRequest] 2 3 [])
    StatusPending none (ObjectIDFromHex_Hex (savedRecord env emptyStore alertRequest).ID) h2
  have hlt : ¬ (savedRecord env emptyStore alertRequest).RetryCount ≥ (5 : Int) := by
    simp [savedRecord, NewNotificationRecord]
  refine ⟨_, savedRecord env emptyStore alertRequest, hcreate, ?_, rfl, rfl, rfl, rfl, rfl,
    ?_, ?_, fun b hroom => ?_⟩
  · simp [findOne]
  · rw [hinit]
    rfl
  · rw [hinit]
    rfl
  · have hp := Publish_room env fuel b (savedRecord env emptyStore alertRequest).Message hroom
    refine ⟨(UpdateStatus env (StoreSide.mk [savedRecord env emptyStore alertRequest] 2 3 [])
      (Hex (savedRecord env emptyStore alertRequest).ID) StatusPending none).1, ?_, ?_⟩
    · simp only [RetryFailedNotifications, hq, retryLoop, retryOne, if_neg hlt, hp, hU]
      rfl
    · rw [hU]
      simp only [updateOne, if_true, findOne, List.find?_cons, applyUpdate_ID, decide_True]
      rw [applyUpdate_pending_none _ rfl]

/-- Witness of C8, amended: the environment `brokerDownEnv`. -/
theorem C8_scenario_stays_pending_witness :
    ∃ w1 r, CreateNotification brokerDownEnv 0 (initialWorld brokerDownEnv) alertRequest =
        .ok (w1, .ok (Hex r.ID)) ∧
      findOne r.ID w1.store.docs = some r ∧
      r.Status = StatusPending ∧ r.RetryCount = 0 ∧
      r.Message.MsgType = "alert" ∧ r.Message.Message = "disk full" ∧
      r.Message.Phone = "+15555550100" ∧
      w1.broker.pub.asyncChannel = [r.Message] ∧
      w1.broker.pub.isConnected = false ∧
      ∀ b : BrokerSide, b.pub.asyncChannel.length < 100 →
        ∃ s2, RetryFailedNotifications brokerDownEnv 0 { store := w1.store, broker := b } 5 =
            .ok ({ store := s2, broker := enqueued b r.Message }, .ok 1) ∧
          findOne r.ID s2.docs = some r :=
  C8_scenario_stays_pending brokerDownEnv 0 (fun _ => ⟨_, rfl⟩) (fun _ _ => rfl)

/-! ## C9 -/

theorem mem_updateOne {oid : ObjectID} {f : NotificationRecord → NotificationRecord}
    {docs : List NotificationRecord} {x : NotificationRecord} (h : x ∈ updateOne oid f docs) :
    x ∈ docs ∨ ∃ d ∈ docs, d.ID = oid ∧ x = f d := by
  induction docs with
  | nil => cases h
  | cons d ds ih =>
    unfold updateOne at h
    split_ifs at h with hd
    · rcases List.mem_cons.mp h with h1 | h1
      · exact Or.inr ⟨d, List.mem_cons_self _ _, hd, h1⟩
      · exact Or.inl (List.mem_cons_of_mem _ h1)
    · rcases List.mem_cons.mp h with h1 | h1
      · exact Or.inl (h1 ▸ List.mem_cons_self _ _)
      · rcases ih h1 with h2 | ⟨d0, hd0, hid, hx⟩
        · exact Or.inl (List.mem_cons_of_mem _ h2)
        · exact Or.inr ⟨d0, List.mem_cons_of_mem _ hd0, hid, hx⟩

theorem UpdateStatus_mem {env : Env} {s : StoreSide} {id : String}
    {status : NotificationStatus} {err : Option String} {x : NotificationRecord}
    (h : x ∈ (UpdateStatus env s id status err).1.docs) :
    x ∈ s.docs ∨
    ∃ d ∈ s.docs, ObjectIDFromHex id = some d.ID ∧ x.ID = d.ID ∧ x.Status = status := by
  cases hid : ObjectIDFromHex id with
  | none =>
    rw [UpdateStatus_invalid status err hid] at h
    exact Or.inl h
  | some oid =>
    cases hf : env.storeErr s.storeCalls with
    | some e =>
      rw [UpdateStatus_fault env s status err hid hf] at h
      exact Or.inl h
    | none =>
      rw [UpdateStatus_ok env s status err hid hf] at h
      rcases mem_updateOne h with h1 | ⟨d, hd, hdo, hx⟩
      · exact Or.inl h1
      · refine Or.inr ⟨d, hd, by rw [hdo], ?_, ?_⟩
        · rw [hx, applyUpdate_ID]
        · rw [hx, applyUpdate_Status]

theorem Evolves_delivered {env : Env} {A : String → NotificationStatus → Prop}
    {s s2 : StoreSide} (h : Evolves env A s s2) :
    ∀ d2 ∈ s2.docs, d2.Status = StatusDelivered →
      (∃ d ∈ s.docs, d.ID = d2.ID ∧ d.Status = StatusDelivered) ∨
      (∃ id, A id StatusDelivered ∧ ObjectIDFromHex id = some d2.ID) := by
  induction h with
  | refl s => exact fun d2 hd2 hst => Or.inl ⟨d2, hd2, rfl, hst⟩
  | clock s s2 n _ ih => exact ih
  | save s s2 t msg _ ih =>
    intro d2 hd2 hst
    rcases ih d2 hd2 hst with ⟨d1, hd1, hid, hs1⟩ | hr
    · rcases SaveNotification_docs env s (NewNotificationRecord t msg) with hdocs | ⟨x, hdocs, hx⟩
      · rw [hdocs] at hd1
        exact Or.inl ⟨d1, hd1, hid, hs1⟩
      · rw [hdocs] at hd1
        rcases List.mem_append.mp hd1 with h1 | h1
        · exact Or.inl ⟨d1, h1, hid, hs1⟩
        · rw [List.mem_singleton] at h1
          rw [h1, hx] at hs1
          cases hs1
    · exact Or.inr hr
  | update s s2 id status err ha _ ih =>
    intro d2 hd2 hst
    rcases ih d2 hd2 hst with ⟨d1, hd1, hid, hs1⟩ | hr
    · rcases UpdateStatus_mem hd1 with h1 | ⟨d, hd, hparse, hxid, hxs⟩
      · exact Or.inl ⟨d1, h1, hid, hs1⟩
      · right
        refine ⟨id, ?_, ?_⟩
        · rw [hxs] at hs1
          rw [← hs1]
          exact ha
        · rw [hparse, ← hxid, hid]
    · exact Or.inr hr
  | get s s2 id _ ih =>
    intro d2 hd2 hst
    rcases ih d2 hd2 hst with ⟨d1, hd1, hid, hs1⟩ | hr
    · rw [(GetNotificationByID_store env s id).1] at hd1
      exact Or.inl ⟨d1, hd1, hid, hs1⟩
    · exact Or.inr hr
  | pending s s2 limit _ ih =>
    intro d2 hd2 hst
    rcases ih d2 hd2 hst with ⟨d1, hd1, hid, hs1⟩ | hr
    · rw [(GetPendingNotifications_store env s limit).1] at hd1
      exact Or.inl ⟨d1, hd1, hid, hs1⟩
    · exact Or.inr hr

theorem run_delivered {env : Env} {fuel : Nat} (Q : ObjectID → Prop) (ops : List Op)
    {w w1 : World} (h : run env fuel ops w = .ok w1)
    (hstart : ∀ d ∈ w.store.docs, d.Status = StatusDelivered → Q d.ID)
    (hops : ∀ op ∈ ops, ∀ id oid, marksDelivered id op → ObjectIDFromHex id = some oid → Q oid) :
    ∀ d ∈ w1.store.docs, d.Status = StatusDelivered → Q d.ID := by
  induction ops generalizing w with
  | nil =>
    simp only [run, Outcome.ok.injEq] at h
    rw [← h]
    exact hstart
  | cons op rest ih =>
    simp only [run, Outcome.bind] at h
    split at h
    · rename_i w2 hs
      refine ih h (fun d hd hst => ?_)
        (fun op1 hop1 => hops op1 (List.mem_cons_of_mem _ hop1))
      rcases Evolves_delivered (step_evolves hs) d hd hst with ⟨d0, hd0, hid, hs0⟩ | ⟨id, hm, hp⟩
      · rw [← hid]
        exact hstart d0 hd0 hs0
      · exact hops op (List.mem_cons_self _ _) id d.ID (hm rfl) hp
    · cases h
    · cases h

/-- C9 as stated fails: from the start-up world with the broker down, creating the
scenario notification and then calling `MarkAsDelivered` with its identifier leaves the
stored record with status delivered, although no `PublishWithContext` call was made at
all (`sendCalls` is 0, `brokerAcks` is empty): the message only sits in the dispatch
queue. -/
theorem C9_counterexample :
    ∃ w1, run brokerDownEnv 0
        [Op.create alertRequest, Op.markDelivered "000000000000000000000001"]
        (initialWorld brokerDownEnv) = .ok w1 ∧
      (∃ r, findOne (oidOfNat 1) w1.store.docs = some r ∧ r.Status = StatusDelivered) ∧
      w1.broker.sendCalls = 0 ∧ w1.broker.brokerAcks = [] ∧ w1.broker.directAttempts = [] :=
  ⟨_, by rfl, ⟨_, by rfl, by rfl⟩, by rfl, by rfl, by rfl⟩

/-- C9, amended: in every state reached from a store without delivered records through
service calls (`CreateNotification`, `GetNotification`, `RetryFailedNotifications`,
`MarkAsDelivered`, `MarkAsFailed`), status requests to the handler and steps of the
dispatch worker, a stored record has status delivered only if an earlier step asked for
it under that record's identifier: a `MarkAsDelivered` call or a "delivered" status
request. No other step writes delivered, and no publish success is required. -/
theorem C9_delivered_only_when_marked (env : Env) (fuel : Nat) (ops : List Op) (w w1 : World)
    (hrun : run env fuel ops w = .ok w1)
    (hstart : ∀ d ∈ w.store.docs, d.Status ≠ StatusDelivered) :
    ∀ d ∈ w1.store.docs, d.Status = StatusDelivered →
      ∃ op ∈ ops, ∃ id, marksDelivered id op ∧ ObjectIDFromHex id = some d.ID :=
  run_delivered (fun oid => ∃ op ∈ ops, ∃ id, marksDelivered id op ∧ ObjectIDFromHex id = some oid)
    ops hrun (fun d hd hst => absurd hst (hstart d hd))
    (fun op hop id _ hm hp => ⟨op, hop, id, hm, hp⟩)

/-- Witness of C9, amended: the run of the counterexample; its delivered record was
marked by the second step. -/
theorem C9_delivered_only_when_marked_witness :
    ∃ w1, run brokerDownEnv 0
        [Op.create alertRequest, Op.markDelivered "000000000000000000000001"]
        (initialWorld brokerDownEnv) = .ok w1 ∧
      ∀ d ∈ w1.store.docs, d.Status = StatusDelivered →
        ∃ op ∈ [Op.create alertRequest, Op.markDelivered "000000000000000000000001"],
          ∃ id, marksDelivered id op ∧ ObjectIDFromHex id = some d.ID :=
  ⟨_, by rfl, C9_delivered_only_when_marked brokerDownEnv 0
    [Op.create alertRequest, Op.markDelivered "000000000000000000000001"]
    (initialWorld brokerDownEnv) _ (by rfl) (fun _ hd => by cases hd)⟩

/-! ## C10 -/

theorem formatTimestamp_same_second (t1 t2 : Time)
    (h : t1 / 1000000000 = t2 / 1000000000) : formatTimestamp t1 = formatTimestamp t2 := by
  unfold formatTimestamp
  rw [h]

/-- C10 fails on the code: two calls of `NewNotificationMessage` half a second apart, at
2023-11-14 22:13:20.0 and 22:13:20.5 UTC, get the same ID "20231114221320", because the
layout "20060102150405" stops at the second. Two consecutive `CreateNotification` calls
within that second therefore collide on the unique `message.id` index: the first
returns an identifier, the second fails in `SaveNotification` with a duplicate key
error and stores nothing. In the worker's retry queue the second message replaces the
first under their common key. -/
theorem C10_same_second_same_id :
    (1700000000000000000 : Time) ≠ 1700000000500000000 ∧
    (NewNotificationMessage 1700000000000000000 1700000000000000000
      "alert" "disk full" "+15555550100" "").ID = "20231114221320" ∧
    (NewNotificationMessage 1700000000500000000 1700000000500000000
      "alert" "disk almost full" "+15555550100" "").ID = "20231114221320" ∧
    (∃ w1 w2, CreateNotification brokerDownEnv 0 (initialWorld brokerDownEnv) alertRequest =
        .ok (w1, .ok "000000000000000000000001") ∧
      CreateNotification brokerDownEnv 0 w1 alertRequest =
        .ok (w2, .error ("failed to save notification: failed to save notification: " ++
          "E11000 duplicate key error: message.id")) ∧
      w2.store.docs = w1.store.docs) ∧
    mapInsert "20231114221320"
        (NewNotificationMessage 1700000000500000000 1700000000500000000
          "alert" "disk almost full" "+15555550100" "")
        (mapInsert "20231114221320"
          (NewNotificationMessage 1700000000000000000 1700000000000000000
            "alert" "disk full" "+15555550100" "") []) =
      [("20231114221320", NewNotificationMessage 1700000000500000000 1700000000500000000
          "alert" "disk almost full" "+15555550100" "")] :=
  ⟨by decide, by rfl, by rfl, ⟨_, _, by rfl, by rfl, by rfl⟩, by rfl⟩

/-! ## C11 -/

/-- C11 fails on the code: whatever the publisher state and whatever closing the
connection returns, two `Close` calls in a row end in the panic "close of closed
channel", because `Close` starts with an unguarded `close(p.done)`. On the freshly
built publisher the first `Close` returns nil and marks `done` closed, and the second
one panics instead of returning. -/
theorem C11_second_close_panics (closeErr1 closeErr2 : Option String) (b : BrokerSide) :
    (Close closeErr1 b).bind (fun p => Close closeErr2 p.1) =
      .panicked "close of closed channel" ∧
    Close none (NewRabbitMQPublisher brokerDownEnv) =
      .ok ({ NewRabbitMQPublisher brokerDownEnv with
              pub := { (NewRabbitMQPublisher brokerDownEnv).pub with doneClosed := true } },
           none) ∧
    Close none { NewRabbitMQPublisher brokerDownEnv with
        pub := { (NewRabbitMQPublisher brokerDownEnv).pub with doneClosed := true } } =
      .panicked "close of closed channel" := by
  refine ⟨?_, by rfl, by rfl⟩
  unfold Close
  by_cases hd : b.pub.doneClosed = true
  · simp [hd, Outcome.bind]
  · cases hc : b.pub.connection <;> simp [hd, hc, Outcome.bind]

/-! ## C12 -/

theorem insertByKey_retime (rank : ObjectID → Nat) (f : Time → Time) (d : NotificationRecord)
    (l : List NotificationRecord) :
    insertByKey rank (retime f d) (l.map (retime f)) = (insertByKey rank d l).map (retime f) := by
  induction l with
  | nil => rfl
  | cons x xs ih =>
    have hb : listedBefore rank (retime f x) (retime f d) = listedBefore rank x d := rfl
    simp only [List.map_cons, insertByKey, hb]
    by_cases h : listedBefore rank x d = true
    · simp only [h, if_true, List.map_cons, ih]
    · rw [if_neg h, if_neg h]
      rfl

theorem foldl_insertByKey_retime (rank : ObjectID → Nat) (f : Time → Time)
    (l acc : List NotificationRecord) :
    (l.map (retime f)).foldl (fun acc d => insertByKey rank d acc) (acc.map (retime f)) =
      (l.foldl (fun acc d => insertByKey rank d acc) acc).map (retime f) := by
  induction l generalizing acc with
  | nil => rfl
  | cons x xs ih =>
    simp only [List.map_cons, List.foldl_cons]
    rw [insertByKey_retime, ih]

theorem sortByCreatedAt_retime (rank : ObjectID → Nat) (f : Time → Time)
    (l : List NotificationRecord) :
    sortByCreatedAt rank (l.map (retime f)) = (sortByCreatedAt rank l).map (retime f) :=
  foldl_insertByKey_retime rank f l []

theorem applyLimit_map (limit : Int) (g : NotificationRecord → NotificationRecord)
    (l : List NotificationRecord) : applyLimit limit (l.map g) = (applyLimit limit l).map g := by
  unfold applyLimit
  split_ifs
  · rfl
  · rw [List.map_take]

/-- The query does not look at the creation times: on a collection whose creation
times were changed it returns the same documents in the same positions. -/
theorem GetPendingNotifications_retime (env : Env) (s : StoreSide) (limit : Int)
    (f : Time → Time) :
    (GetPendingNotifications env { s with docs := s.docs.map (retime f) } limit).2 =
      Except.map (List.map (retime f)) (GetPendingNotifications env s limit).2 := by
  unfold GetPendingNotifications
  simp only
  cases env.storeErr s.storeCalls with
  | some e => rfl
  | none =>
    simp only [Except.map]
    have hfil : (s.docs.map (retime f)).filter (fun d => decide (d.Status = StatusPending)) =
        (s.docs.filter (fun d => decide (d.Status = StatusPending))).map (retime f) := by
      rw [List.filter_map]
      rfl
    rw [hfil, sortByCreatedAt_retime, applyLimit_map]

/-- Whenever the store answers, `GetPendingNotifications` returns only stored records
whose status is pending; for a positive limit it returns at most limit of them, for a
negative limit at most its absolute value, and for limit 0 every pending record. -/
theorem GetPendingNotifications_batch (env : Env) (s s1 : StoreSide) (limit : Int)
    (batch : List NotificationRecord)
    (h : GetPendingNotifications env s limit = (s1, .ok batch)) :
    (∀ d ∈ batch, d.Status = StatusPending ∧ d ∈ s.docs) ∧
    (0 < limit → (batch.length : Int) ≤ limit) ∧
    (limit ≠ 0 → batch.length ≤ limit.natAbs) ∧
    (limit = 0 → ∀ d ∈ s.docs, d.Status = StatusPending → d ∈ batch) ∧
    batch = applyLimit limit (sortByCreatedAt (env.tieRank s.storeCalls)
      (s.docs.filter (fun d => decide (d.Status = StatusPending)))) := by
  unfold GetPendingNotifications at h
  simp only at h
  cases hf : env.storeErr s.storeCalls with
  | some e => rw [hf] at h; simp at h
  | none =>
    rw [hf] at h
    simp only [Prod.mk.injEq, Except.ok.injEq] at h
    have hb := h.2
    have hb0 := hb
    unfold applyLimit at hb
    have hlen : limit ≠ 0 → batch.length ≤ limit.natAbs := by
      intro hne
      rw [if_neg hne] at hb
      rw [← hb]
      exact List.length_take_le _ _
    refine ⟨fun d hd => ?_, fun hpos => ?_, hlen, fun h0 d hd hst => ?_, hb0.symm⟩
    · have hmem : d ∈ s.docs.filter (fun d => decide (d.Status = StatusPending)) := by
        rw [← hb] at hd
        split_ifs at hd
        · exact (mem_sortByCreatedAt _ _ d).mp hd
        · exact (mem_sortByCreatedAt _ _ d).mp (List.mem_of_mem_take hd)
      have := List.mem_filter.mp hmem
      exact ⟨by simpa using this.2, this.1⟩
    · have := hlen (ne_of_gt hpos)
      omega
    · rw [if_pos h0] at hb
      rw [← hb]
      exact (mem_sortByCreatedAt _ _ d).mpr (List.mem_filter.mpr ⟨hd, by simpa using hst⟩)

/-- C12 fails on the code: the query sorts on the top-level field `created_at`, which
no stored document has (the creation time is `message.created_at`), so every document
has the same sort key and the order of the batch is the order the server gives to equal
keys; the creation times play no part in it. On a collection whose creation times were
changed the query returns the same documents in the same positions. Hence, whatever
order the server gives to equal keys, one of the two collections `inOrderStore` and
`outOfOrderStore` (the same two pending records, created one second apart, with the
creation times exchanged) comes back newest first with limit 100, and limit 1 returns
the newer record instead of the oldest one. With insertion order between equal keys it
is `outOfOrderStore`. The rest of the claim holds: the batch holds only stored pending
records, and at most limit of them for a positive limit. -/
theorem C12_order_ignores_creation_time (env : Env) (s : StoreSide) (limit : Int)
    (f : Time → Time) (rank : Nat → ObjectID → Nat) :
    (GetPendingNotifications env { s with docs := s.docs.map (retime f) } limit).2 =
      Except.map (List.map (retime f)) (GetPendingNotifications env s limit).2 ∧
    (∃ s2 ∈ [inOrderStore, outOfOrderStore], ∃ newer older : NotificationRecord,
      (GetPendingNotifications { brokerDownEnv with tieRank := rank } s2 100).2 =
        .ok [newer, older] ∧
      older.Message.CreatedAt < newer.Message.CreatedAt ∧
      ¬ OldestFirst [newer, older] ∧
      (GetPendingNotifications { brokerDownEnv with tieRank := rank } s2 1).2 = .ok [newer]) ∧
    ((GetPendingNotifications brokerDownEnv outOfOrderStore 100).2 = .ok outOfOrderStore.docs ∧
      outOfOrderStore.docs.map (fun d => d.Message.CreatedAt) = [2000000000, 1000000000] ∧
      ¬ OldestFirst outOfOrderStore.docs ∧
      (GetPendingNotifications brokerDownEnv outOfOrderStore 1).2 =
        .ok (outOfOrderStore.docs.take 1)) ∧
    (∀ (s1 : StoreSide) (batch : List NotificationRecord),
      GetPendingNotifications env s limit = (s1, .ok batch) →
      (∀ d ∈ batch, d.Status = StatusPending ∧ d ∈ s.docs) ∧
      (0 < limit → (batch.length : Int) ≤ limit)) := by
  refine ⟨GetPendingNotifications_retime env s limit f, ?_,
    ⟨by rfl, by rfl, by simp [OldestFirst, outOfOrderStore], by rfl⟩,
    fun s1 batch h => ?_⟩
  · by_cases hr : rank 0 (oidOfNat 1) ≤ rank 0 (oidOfNat 2)
    · have hr2 : rank 0 (pendingRecord 1 "a" 2000000000).ID ≤
          rank 0 (pendingRecord 2 "b" 1000000000).ID := hr
      have hsort : sortByCreatedAt (rank 0)
          [pendingRecord 1 "a" 2000000000, pendingRecord 2 "b" 1000000000] =
          [pendingRecord 1 "a" 2000000000, pendingRecord 2 "b" 1000000000] := by
        rw [sortByCreatedAt_pair, if_pos hr2]
      refine ⟨outOfOrderStore, by simp, pendingRecord 1 "a" 2000000000,
        pendingRecord 2 "b" 1000000000, ?_, by decide, by simp [OldestFirst, pendingRecord], ?_⟩
      · rw [GetPendingNotifications_answer _ _ _ (by rfl)]
        show Except.ok (applyLimit 100 (sortByCreatedAt (rank 0)
          [pendingRecord 1 "a" 2000000000, pendingRecord 2 "b" 1000000000])) = _
        rw [hsort]
        rfl
      · rw [GetPendingNotifications_answer _ _ _ (by rfl)]
        show Except.ok (applyLimit 1 (sortByCreatedAt (rank 0)
          [pendingRecord 1 "a" 2000000000, pendingRecord 2 "b" 1000000000])) = _
        rw [hsort]
        rfl
    · have hr2 : ¬ rank 0 (pendingRecord 1 "a" 1000000000).ID ≤
          rank 0 (pendingRecord 2 "b" 2000000000).ID := hr
      have hsort : sortByCreatedAt (rank 0)
          [pendingRecord 1 "a" 1000000000, pendingRecord 2 "b" 2000000000] =
          [pendingRecord 2 "b" 2000000000, pendingRecord 1 "a" 1000000000] := by
        rw [sortByCreatedAt_pair, if_neg hr2]
      refine ⟨inOrderStore, by simp, pendingRecord 2 "b" 2000000000,
        pendingRecord 1 "a" 1000000000, ?_, by decide, by simp [OldestFirst, pendingRecord], ?_⟩
      · rw [GetPendingNotifications_answer _ _ _ (by rfl)]
        show Except.ok (applyLimit 100 (sortByCreatedAt (rank 0)
          [pendingRecord 1 "a" 1000000000, pendingRecord 2 "b" 2000000000])) = _
        rw [hsort]
        rfl
      · rw [GetPendingNotifications_answer _ _ _ (by rfl)]
        show Except.ok (applyLimit 1 (sortByCreatedAt (rank 0)
          [pendingRecord 1 "a" 1000000000, pendingRecord 2 "b" 2000000000])) = _
        rw [hsort]
        rfl
  · obtain ⟨h1, h2, -⟩ := GetPendingNotifications_batch env s s1 limit batch h
    exact ⟨h1, h2⟩

/-! ## The broker side does not depend on the store -/

theorem connect_congr {env env2 : Env} (hd : env2.dial = env.dial) (b : BrokerSide) :
    connect env2 b = connect env b := by
  unfold connect
  rw [hd]

theorem reconnect_congr {env env2 : Env} (hd : env2.dial = env.dial) (fuel : Nat)
    (b : BrokerSide) : reconnect env2 fuel b = reconnect env fuel b := by
  induction fuel generalizing b with
  | zero => rfl
  | succ n ih =>
    unfold reconnect
    rw [connect_congr hd]
    split_ifs
    · rfl
    · cases hc : connect env b with
      | mk b1 r =>
        cases r with
        | some e => exact ih b1
        | none => rfl

theorem publishDirect_congr {env env2 : Env} (hd : env2.dial = env.dial)
    (hs : env2.send = env.send) (fuel : Nat) (b : BrokerSide) (msg : NotificationMessage) :
    publishDirect env2 fuel b msg = publishDirect env fuel b msg := by
  unfold publishDirect handleDisconnect
  simp only [hs, reconnect_congr hd]

theorem Publish_congr {env env2 : Env} (hd : env2.dial = env.dial)
    (hs : env2.send = env.send) (fuel : Nat) (b : BrokerSide) (msg : NotificationMessage) :
    Publish env2 fuel b msg = Publish env fuel b msg := by
  unfold Publish
  simp only [publishDirect_congr hd hs]

theorem Publish_down (env : Env) (fuel : Nat) (b : BrokerSide) (msg : NotificationMessage)
    (hdown : b.pub.isConnected = false) :
    ∃ b1 r, Publish env fuel b msg = .ok (b1, r) ∧ b1.pub.isConnected = false := by
  by_cases hroom : b.pub.asyncChannel.length < 100
  · exact ⟨_, _, Publish_room env fuel b msg hroom, hdown⟩
  · refine ⟨{ b with publishCalls := b.publishCalls ++ [msg],
                     directAttempts := b.directAttempts ++ [msg] },
      some "not connected to RabbitMQ", ?_, hdown⟩
    rw [Publish_full env fuel b msg hroom]
    unfold publishDirect
    simp only [hdown, if_true]

theorem UpdateStatus_call (env : Env) (s : StoreSide) (id : String)
    (status : NotificationStatus) (err : Option String) :
    (UpdateStatus env s id status err).1.updateCalls =
      s.updateCalls ++ [⟨id, status, err, (UpdateStatus env s id status err).2⟩] := by
  cases hid : ObjectIDFromHex id with
  | none => rw [UpdateStatus_invalid status err hid]
  | some oid =>
    cases hf : env.storeErr s.storeCalls with
    | some e => rw [UpdateStatus_fault env s status err hid hf]
    | none => rw [UpdateStatus_ok env s status err hid hf]

/-- What one iteration does for a record below maxRetries, in terms of its publish call
and its status write. -/
theorem retryOne_shape {env : Env} {fuel : Nat} {maxRetries : Int} {w w1 : World}
    {n : NotificationRecord} {c : Bool} (hlt : n.RetryCount < maxRetries)
    (h : retryOne env fuel maxRetries w n = .ok (w1, c)) :
    ∃ b1 pr, Publish env fuel w.broker n.Message = .ok (b1, pr) ∧
      w1 = { store := (UpdateStatus env w.store (Hex n.ID)
                (if pr = none then StatusPending else StatusFailed) pr).1,
             broker := b1 } ∧
      c = decide (pr = none ∧ (UpdateStatus env w.store (Hex n.ID)
                (if pr = none then StatusPending else StatusFailed) pr).2 = none) := by
  unfold retryOne at h
  rw [if_neg (not_le.mpr hlt)] at h
  cases hp : Publish env fuel w.broker n.Message with
  | outOfFuel => rw [hp] at h; cases h
  | panicked x => rw [hp] at h; cases h
  | ok p =>
    obtain ⟨b1, pr⟩ := p
    rw [hp] at h
    refine ⟨b1, pr, rfl, ?_⟩
    cases pr with
    | some e =>
      simp only [Outcome.ok.injEq, Prod.mk.injEq] at h
      simp [← h.1, ← h.2]
    | none =>
      simp only at h
      cases hU : UpdateStatus env w.store (Hex n.ID) StatusPending none with
      | mk s1 ur =>
        rw [hU] at h
        cases ur <;>
          (simp only [Outcome.ok.injEq, Prod.mk.injEq] at h
           simp [← h.1, ← h.2, hU])

theorem retryLoop_count {env : Env} {fuel : Nat} {maxRetries : Int}
    (batch : List NotificationRecord) {w w1 : World} {k k1 : Nat}
    (h : retryLoop env fuel maxRetries batch w k = .ok (w1, k1)) :
    ∃ new, w1.store.updateCalls = w.store.updateCalls ++ new ∧ k1 = k + countedCalls new := by
  induction batch generalizing w k with
  | nil =>
    simp only [retryLoop, Outcome.ok.injEq, Prod.mk.injEq] at h
    exact ⟨[], by rw [← h.1]; simp, by rw [← h.2]; simp [countedCalls]⟩
  | cons n rest ih =>
    rw [retryLoop] at h
    cases ho : retryOne env fuel maxRetries w n with
    | outOfFuel => rw [ho] at h; cases h
    | panicked x => rw [ho] at h; cases h
    | ok p =>
      obtain ⟨w2, c⟩ := p
      rw [ho] at h
      obtain ⟨new, hcalls, hk⟩ := ih h
      by_cases hlt : n.RetryCount < maxRetries
      · obtain ⟨b1, pr, -, hw2, hc⟩ := retryOne_shape hlt ho
        have hcall := UpdateStatus_call env w.store (Hex n.ID)
          (if pr = none then StatusPending else StatusFailed) pr
        refine ⟨⟨Hex n.ID, if pr = none then StatusPending else StatusFailed, pr,
          (UpdateStatus env w.store (Hex n.ID)
            (if pr = none then StatusPending else StatusFailed) pr).2⟩ :: new, ?_, ?_⟩
        · rw [hcalls, hw2]
          simp only
          rw [hcall]
          simp
        · rw [hk, hc]
          cases pr with
          | none =>
            cases hres : (UpdateStatus env w.store (Hex n.ID) StatusPending none).2
            · simp [countedCalls, hres]
              omega
            · simp [countedCalls, hres]
          | some e => simp [countedCalls]
      · have hskip := retryOne_skip env fuel maxRetries w n (not_lt.mp hlt)
        rw [hskip] at ho
        simp only [Outcome.ok.injEq, Prod.mk.injEq] at ho
        refine ⟨new, ?_, ?_⟩
        · rw [hcalls, ← ho.1]
        · rw [hk, ← ho.2]
          simp

theorem retryLoop_independent {env env2 : Env} (hd : env2.dial = env.dial)
    (hs : env2.send = env.send) {fuel : Nat} {maxRetries : Int}
    (batch : List NotificationRecord) {w w2 w1 : World} {k j k1 : Nat}
    (hb : w2.broker = w.broker)
    (h : retryLoop env fuel maxRetries batch w k = .ok (w1, k1)) :
    ∃ v1 j1 new new2, retryLoop env2 fuel maxRetries batch w2 j = .ok (v1, j1) ∧
      v1.broker = w1.broker ∧
      w1.store.updateCalls = w.store.updateCalls ++ new ∧
      v1.store.updateCalls = w2.store.updateCalls ++ new2 ∧
      new.map callArgs = new2.map callArgs := by
  induction batch generalizing w w2 k j with
  | nil =>
    simp only [retryLoop, Outcome.ok.injEq, Prod.mk.injEq] at h
    exact ⟨w2, j, [], [], rfl, by rw [hb, h.1], by rw [← h.1]; simp, by simp, rfl⟩
  | cons n rest ih =>
    rw [retryLoop] at h
    cases ho : retryOne env fuel maxRetries w n with
    | outOfFuel => rw [ho] at h; cases h
    | panicked x => rw [ho] at h; cases h
    | ok p =>
      obtain ⟨wa, c⟩ := p
      rw [ho] at h
      by_cases hlt : n.RetryCount < maxRetries
      · obtain ⟨b1, pr, hp, hwa, -⟩ := retryOne_shape hlt ho
        have hp2 : Publish env2 fuel w2.broker n.Message = .ok (b1, pr) := by
          rw [Publish_congr hd hs, hb, hp]
        have ho2 : ∃ c2, retryOne env2 fuel maxRetries w2 n =
            .ok ({ store := (UpdateStatus env2 w2.store (Hex n.ID)
                     (if pr = none then StatusPending else StatusFailed) pr).1,
                   broker := b1 }, c2) := by
          unfold retryOne
          rw [if_neg (not_le.mpr hlt), hp2]
          cases pr with
          | some e => exact ⟨false, rfl⟩
          | none =>
            simp only [if_true]
            cases hU : UpdateStatus env2 w2.store (Hex n.ID) StatusPending none with
            | mk s1 ur => cases ur <;> exact ⟨_, rfl⟩
        obtain ⟨c2, ho2⟩ := ho2
        have hbr : (World.mk (UpdateStatus env2 w2.store (Hex n.ID)
            (if pr = none then StatusPending else StatusFailed) pr).1 b1).broker = wa.broker := by
          rw [hwa]
        obtain ⟨v1, j1, new, new2, hrun, hbro, hc1, hc2, hargs⟩ :=
          ih (j := if c2 then j + 1 else j) hbr h
        refine ⟨v1, j1,
          ⟨Hex n.ID, if pr = none then StatusPending else StatusFailed, pr,
            (UpdateStatus env w.store (Hex n.ID)
              (if pr = none then StatusPending else StatusFailed) pr).2⟩ :: new,
          ⟨Hex n.ID, if pr = none then StatusPending else StatusFailed, pr,
            (UpdateStatus env2 w2.store (Hex n.ID)
              (if pr = none then StatusPending else StatusFailed) pr).2⟩ :: new2,
          ?_, hbro, ?_, ?_, ?_⟩
        · rw [retryLoop, ho2]
          exact hrun
        · rw [hc1, hwa]
          simp only
          rw [UpdateStatus_call]
          simp
        · rw [hc2]
          simp only
          rw [UpdateStatus_call]
          simp
        · simp [callArgs, hargs]
      · have hskip := retryOne_skip env fuel maxRetries w n (not_lt.mp hlt)
        have hskip2 := retryOne_skip env2 fuel maxRetries w2 n (not_lt.mp hlt)
        rw [hskip] at ho
        simp only [Outcome.ok.injEq, Prod.mk.injEq] at ho
        rw [← ho.1] at h
        obtain ⟨v1, j1, new, new2, hrun, hbro, hc1, hc2, hargs⟩ := ih (j := j) hb h
        refine ⟨v1, j1, new, new2, ?_, hbro, hc1, hc2, hargs⟩
        rw [retryLoop, hskip2]
        exact hrun

theorem retryLoop_total_when_down (env : Env) (fuel : Nat) (maxRetries : Int)
    (batch : List NotificationRecord) (w : World) (k : Nat)
    (hdown : w.broker.pub.isConnected = false) :
    ∃ w1 k1, retryLoop env fuel maxRetries batch w k = .ok (w1, k1) := by
  induction batch generalizing w k with
  | nil => exact ⟨w, k, rfl⟩
  | cons n rest ih =>
    have hone : ∃ wa c, retryOne env fuel maxRetries w n = .ok (wa, c) ∧
        wa.broker.pub.isConnected = false := by
      by_cases hlt : n.RetryCount < maxRetries
      · obtain ⟨b1, pr, hp, hb1⟩ := Publish_down env fuel w.broker n.Message hdown
        unfold retryOne
        rw [if_neg (not_le.mpr hlt), hp]
        cases pr with
        | some e => exact ⟨_, _, rfl, hb1⟩
        | none =>
          simp only
          cases hU : UpdateStatus env w.store (Hex n.ID) StatusPending none with
          | mk s1 ur => cases ur <;> exact ⟨_, _, rfl, hb1⟩
      · exact ⟨w, false, retryOne_skip env fuel maxRetries w n (not_lt.mp hlt), hdown⟩
    obtain ⟨wa, c, ho, hda⟩ := hone
    obtain ⟨w1, k1, hrun⟩ := ih wa (if c then k + 1 else k) hda
    exact ⟨w1, k1, by rw [retryLoop, ho]; exact hrun⟩

/-! ## C13 -/

/-- C13: a failing `UpdateStatus` never stops a reconciliation pass and never reaches
the caller. (1) Whenever the store answers the query and the pass returns, it returns
no error; it has made one `Publish` call and one `UpdateStatus` call per batch record
below maxRetries, whether or not earlier writes failed, and the returned count is the
number of those `UpdateStatus` calls that set pending (the publish call had succeeded)
and returned nil (the write succeeded). (2) The records are processed as they would be
under any other behaviour of the store, in particular one where every write succeeds:
for an environment with the same broker answers and a world with the same broker
side, the loop returns as well, ends with the same broker side, and makes the
`UpdateStatus` calls with the same arguments. (3) With the broker link down the loop
returns for every batch, whatever the store does. -/
theorem C13_update_failure_is_skipped (env : Env) (fuel : Nat) (maxRetries : Int) (w : World) :
    (∀ (s1 : StoreSide) (batch : List NotificationRecord) (w1 : World) (r : Except String Nat),
      GetPendingNotifications env w.store 100 = (s1, .ok batch) →
      RetryFailedNotifications env fuel w maxRetries = .ok (w1, r) →
      ∃ new, w1.store.updateCalls = w.store.updateCalls ++ new ∧
        r = .ok (countedCalls new) ∧
        new.map (fun c => c.id) = (eligible maxRetries batch).map (fun n => Hex n.ID) ∧
        w1.broker.publishCalls =
          w.broker.publishCalls ++ (eligible maxRetries batch).map (fun n => n.Message)) ∧
    (∀ (env2 : Env) (w2 : World) (batch : List NotificationRecord) (k k2 : Nat)
        (w1 : World) (k1 : Nat),
      env2.dial = env.dial → env2.send = env.send → w2.broker = w.broker →
      retryLoop env fuel maxRetries batch w k = .ok (w1, k1) →
      ∃ v1 j1 new new2, retryLoop env2 fuel maxRetries batch w2 k2 = .ok (v1, j1) ∧
        v1.broker = w1.broker ∧
        w1.store.updateCalls = w.store.updateCalls ++ new ∧
        v1.store.updateCalls = w2.store.updateCalls ++ new2 ∧
        new.map callArgs = new2.map callArgs) ∧
    (w.broker.pub.isConnected = false →
      ∀ (batch : List NotificationRecord) (k : Nat),
        ∃ w1 k1, retryLoop env fuel maxRetries batch w k = .ok (w1, k1)) := by
  refine ⟨?_, ?_, fun hdown batch k => retryLoop_total_when_down env fuel maxRetries batch w k hdown⟩
  · intro s1 batch w1 r hq hr
    obtain ⟨hs1, -⟩ := GetPendingNotifications_ok hq
    unfold RetryFailedNotifications at hr
    rw [hq] at hr
    simp only at hr
    cases hl : retryLoop env fuel maxRetries batch { w with store := s1 } 0 with
    | outOfFuel => rw [hl] at hr; cases hr
    | panicked x => rw [hl] at hr; cases hr
    | ok p =>
      obtain ⟨wa, k⟩ := p
      rw [hl] at hr
      simp only [Outcome.ok.injEq, Prod.mk.injEq] at hr
      obtain ⟨new, hcalls, hk⟩ := retryLoop_count batch hl
      obtain ⟨hp, hu, -⟩ := retryLoop_trace batch hl
      have hc0 : s1.updateCalls = w.store.updateCalls := by rw [hs1]
      simp only [hc0] at hcalls hu
      refine ⟨new, by rw [← hr.1]; exact hcalls, ?_, ?_, by rw [← hr.1]; exact hp⟩
      · rw [← hr.2, hk]
        simp
      · rw [hcalls, List.map_append] at hu
        exact List.append_cancel_left hu
  · intro env2 w2 batch k k2 w1 k1 hd hs hb h
    exact retryLoop_independent hd hs batch hb h

/-- Witness of C13: the pass over the pending record of `pendingFullWorld` with the queue
full, the link down and a store that times out on the write returns the count 0 and no
error, after one publish call and one `UpdateStatus` call for the record. -/
theorem C13_update_failure_is_skipped_witness :
    ∃ w1 new, RetryFailedNotifications storeFlakyEnv 0 pendingFullWorld 5 = .ok (w1, .ok 0) ∧
      w1.store.updateCalls = pendingFullWorld.store.updateCalls ++ new ∧
      (Except.ok 0 : Except String Nat) = .ok (countedCalls new) ∧
      new.map (fun c => c.id) =
        (eligible 5 [savedRecord brokerDownEnv emptyStore alertRequest]).map (fun n => Hex n.ID) ∧
      w1.broker.publishCalls =
        pendingFullWorld.broker.publishCalls ++
          (eligible 5 [savedRecord brokerDownEnv emptyStore alertRequest]).map
            (fun n => n.Message) := by
  obtain ⟨new, h1, h2, h3, h4⟩ :=
    (C13_update_failure_is_skipped storeFlakyEnv 0 5 pendingFullWorld).1
      { pendingFullWorld.store with storeCalls := 1 }
      [savedRecord brokerDownEnv emptyStore alertRequest]
      (World.mk
        (UpdateStatus storeFlakyEnv { pendingFullWorld.store with storeCalls := 1 }
          (Hex (savedRecord brokerDownEnv emptyStore alertRequest).ID) StatusFailed
          (some "not connected to RabbitMQ")).1
        { pendingFullWorld.broker with
          publishCalls := [(savedRecord brokerDownEnv emptyStore alertRequest).Message],
          directAttempts := [(savedRecord brokerDownEnv emptyStore alertRequest).Message] })
      (.ok 0) (by rfl) (by rfl)
  exact ⟨_, new, by rfl, h1, h2, h3, h4⟩

/-! ## C14 -/

/-- C14 fails on the code: the publisher of `connectedFullWorld` is connected, its
dispatch queue holds 100 messages, the send of the direct publish fails and every
later connect attempt is refused. Then for every amount of fuel (every number of
connect attempts the loop is allowed) `publishDirect` does not return: after the failed
send it calls `handleDisconnect`, whose `reconnect` loop runs until a connect attempt
succeeds. `Publish` and `CreateNotification` do not return either; the record has been
saved by then. -/
theorem C14_failed_send_blocks_caller (fuel : Nat) :
    connectedFullWorld.broker.pub.isConnected = true ∧
    connectedFullWorld.broker.pub.asyncChannel.length = 100 ∧
    linkLostEnv.send connectedFullWorld.broker.sendCalls = some "write tcp: broken pipe" ∧
    publishDirect linkLostEnv fuel connectedFullWorld.broker fillerMessage = .outOfFuel ∧
    Publish linkLostEnv fuel connectedFullWorld.broker fillerMessage = .outOfFuel ∧
    (createSave linkLostEnv connectedFullWorld.store alertRequest).2 =
      .ok "000000000000000000000001" ∧
    CreateNotification linkLostEnv fuel connectedFullWorld alertRequest = .outOfFuel := by
  have hfail : ∀ (b : BrokerSide), b.dialCalls = 1 →
      ∀ k, b.dialCalls ≤ k → ∀ conn ch, linkLostEnv.dial k ≠ .established conn ch := by
    intro b hb k hk conn ch
    have hk0 : k ≠ 0 := by omega
    simp [linkLostEnv, hk0]
  have hpub : ∀ msg, Publish linkLostEnv fuel connectedFullWorld.broker msg = .outOfFuel := by
    intro msg
    rw [Publish_full linkLostEnv fuel connectedFullWorld.broker msg (by decide)]
    exact publishDirect_blocks linkLostEnv fuel _ msg 1 "write tcp: broken pipe" (by rfl) (by rfl)
      (by rfl) (hfail _ (by rfl))
  refine ⟨by rfl, by rfl, by rfl, ?_, hpub _, by rfl, ?_⟩
  · exact publishDirect_blocks linkLostEnv fuel _ fillerMessage 1 "write tcp: broken pipe"
      (by rfl) (by rfl) (by rfl) (hfail _ (by rfl))
  · have hsave : createSave linkLostEnv connectedFullWorld.store alertRequest =
        ((createSave linkLostEnv connectedFullWorld.store alertRequest).1,
          .ok "000000000000000000000001") := by rfl
    unfold CreateNotification
    rw [hsave]
    simp only [hpub]

/-! ## Inline retries -/

theorem publishDirect_connected {env : Env} {fuel : Nat} {b b2 : BrokerSide}
    {msg : NotificationMessage} {r : Option String} (hc : b.pub.isConnected = true)
    (h : publishDirect env fuel b msg = .ok (b2, r)) :
    b2.sendCalls = b.sendCalls + 1 ∧ (r = none ↔ env.send b.sendCalls = none) := by
  unfold publishDirect at h
  simp only [hc, Bool.true_eq_false, if_false] at h
  cases hch : b.pub.channel with
  | none => simp [hch] at h
  | some ch =>
    simp only [hch] at h
    cases hs : env.send b.sendCalls with
    | none =>
      simp only [hs, Outcome.ok.injEq, Prod.mk.injEq] at h
      rw [← h.1, ← h.2]
      simp
    | some e =>
      simp only [hs, handleDisconnect, Outcome.bind] at h
      split at h
      · rename_i b3 hr
        simp only [Outcome.ok.injEq, Prod.mk.injEq] at h
        have := (reconnect_frame env fuel _ _ hr).2.2.2.1
        rw [← h.1, ← h.2, this]
        simp
      · cases h
      · cases h

theorem publishWithRetryLoop_spec (env : Env) (fuel : Nat) (msg : NotificationMessage)
    (maxRetries : Nat) (n : Nat) :
    ∀ (b b1 : BrokerSide) (lastErr r : Option String),
      publishWithRetryLoop env fuel msg maxRetries n b lastErr = .ok (b1, r) →
      ∃ k, k ≤ n ∧
        b1.directAttempts = b.directAttempts ++ List.replicate k msg ∧
        b1.sendCalls = b.sendCalls + k ∧
        b1.retryQueue = b.retryQueue ∧
        b1.pub.asyncChannel = b.pub.asyncChannel ∧
        (∀ j, j + 1 < k → env.send (b.sendCalls + j) ≠ none) ∧
        ((r = none ∧ 0 < k ∧ env.send (b.sendCalls + (k - 1)) = none ∧
            b1.brokerAcks = b.brokerAcks ++ [msg]) ∨
         (r ≠ none ∧ k = n ∧ (∀ j, j < k → env.send (b.sendCalls + j) ≠ none) ∧
            b1.brokerAcks = b.brokerAcks)) := by
  induction n with
  | zero =>
    intro b b1 lastErr r h
    simp only [publishWithRetryLoop, Outcome.ok.injEq, Prod.mk.injEq] at h
    refine ⟨0, le_refl _, ?_, ?_, ?_, ?_, ?_, Or.inr ⟨?_, rfl, ?_, ?_⟩⟩
    · rw [← h.1]; simp
    · rw [← h.1]; rfl
    · rw [← h.1]
    · rw [← h.1]
    · intro j hj; omega
    · rw [← h.2]; simp
    · intro j hj; omega
    · rw [← h.1]
  | succ n ih =>
    intro b b1 lastErr r h
    rw [publishWithRetryLoop] at h
    generalize hre :
      (if b.pub.isConnected = false then reconnect env fuel b else Outcome.ok b) = o at h
    cases o with
    | outOfFuel => cases h
    | panicked x => cases h
    | ok ba =>
      have hba : ba.pub.isConnected = true ∧ ba.sendCalls = b.sendCalls ∧
          ba.directAttempts = b.directAttempts ∧ ba.brokerAcks = b.brokerAcks ∧
          ba.retryQueue = b.retryQueue ∧ ba.pub.asyncChannel = b.pub.asyncChannel := by
        by_cases hc : b.pub.isConnected = false
        · rw [if_pos hc] at hre
          have hf := reconnect_frame env fuel b ba hre
          exact ⟨reconnect_connected env fuel b ba hre, hf.2.2.2.1, hf.2.2.2.2.2.1,
            hf.2.2.2.2.2.2, hf.2.2.1, hf.1⟩
        · rw [if_neg hc] at hre
          cases hre
          exact ⟨by simpa using hc, rfl, rfl, rfl, rfl, rfl⟩
      obtain ⟨hcon, hsend, hatt, hack, hrq, hqueue⟩ := hba
      simp only [hcon, Bool.true_eq_false, if_false] at h
      cases hp : publishDirect env fuel ba msg with
      | outOfFuel => rw [hp] at h; cases h
      | panicked x => rw [hp] at h; cases h
      | ok p =>
        obtain ⟨b2, pr⟩ := p
        rw [hp] at h
        obtain ⟨hs2, hres⟩ := publishDirect_connected hcon hp
        have hfr := publishDirect_frame env fuel ba b2 msg pr hp
        cases pr with
        | none =>
          simp only [Outcome.ok.injEq, Prod.mk.injEq] at h
          have hok : env.send b.sendCalls = none := by
            rw [← hsend]; exact hres.mp rfl
          refine ⟨1, by omega, ?_, ?_, ?_, ?_, ?_, Or.inl ⟨h.2.symm, by omega, ?_, ?_⟩⟩
          · rw [← h.1, hfr.2.2.2.2.1, hatt]; rfl
          · rw [← h.1, hs2, hsend]
          · rw [← h.1, hfr.2.2.1, hrq]
          · rw [← h.1, hfr.1, hqueue]
          · intro j hj; omega
          · simpa using hok
          · rw [← h.1, hfr.2.2.2.2.2, hack]; rfl
        | some e =>
          simp only at h
          have hbad : env.send b.sendCalls ≠ none := by
            rw [← hsend]
            intro hn
            have := hres.mpr hn
            cases this
          obtain ⟨k, hk, hda, hsc, hq, hch, hearly, hlast⟩ := ih b2 b1 (some e) r h
          have hs2b : b2.sendCalls = b.sendCalls + 1 := by rw [hs2, hsend]
          have hack2 : b2.brokerAcks = b.brokerAcks := by
            rw [hfr.2.2.2.2.2, hack]; simp
          refine ⟨k + 1, by omega, ?_, ?_, ?_, ?_, ?_, ?_⟩
          · rw [hda, hfr.2.2.2.2.1, hatt, List.replicate_succ]; simp
          · rw [hsc, hs2b]; omega
          · rw [hq, hfr.2.2.1, hrq]
          · rw [hch, hfr.1, hqueue]
          · intro j hj
            cases j with
            | zero => simpa using hbad
            | succ i =>
              have := hearly i (by omega)
              rw [hs2b] at this
              rwa [show b.sendCalls + (i + 1) = b.sendCalls + 1 + i by omega]
          · rcases hlast with ⟨hr, hpos, hsucc, hacks⟩ | ⟨hr, hkn, hall, hacks⟩
            · refine Or.inl ⟨hr, by omega, ?_, by rw [hacks, hack2]⟩
              rw [hs2b] at hsucc
              rwa [show b.sendCalls + (k + 1 - 1) = b.sendCalls + 1 + (k - 1) by omega]
            · refine Or.inr ⟨hr, by omega, ?_, by rw [hacks, hack2]⟩
              intro j hj
              cases j with
              | zero => simpa using hbad
              | succ i =>
                have := hall i (by omega)
                rw [hs2b] at this
                rwa [show b.sendCalls + (i + 1) = b.sendCalls + 1 + i by omega]

theorem mapGet_mapInsert_same (id : String) (msg : NotificationMessage)
    (m : List (String × NotificationMessage)) : mapGet id (mapInsert id msg m) = some msg := by
  induction m with
  | nil => simp [mapInsert, mapGet]
  | cons kv rest ih =>
    obtain ⟨k, v⟩ := kv
    unfold mapInsert
    by_cases hk : k = id
    · simp [hk, mapGet]
    · unfold mapGet at ih ⊢
      simp [hk, ih]

theorem mapGet_mapInsert_other (id other : String) (msg : NotificationMessage)
    (m : List (String × NotificationMessage)) (hne : other ≠ id) :
    mapGet other (mapInsert id msg m) = mapGet other m := by
  have hio : ¬ id = other := fun h => hne h.symm
  induction m with
  | nil => simp [mapInsert, mapGet, hio]
  | cons kv rest ih =>
    obtain ⟨k, v⟩ := kv
    unfold mapGet at ih ⊢
    by_cases hk : k = id
    · have hko : ¬ k = other := fun h => hio (hk.symm.trans h)
      rw [mapInsert, if_pos hk, List.find?_cons, List.find?_cons]
      simp [hko]
    · rw [mapInsert, if_neg hk, List.find?_cons, List.find?_cons]
      by_cases hko : k = other
      · simp [hko]
      · simp [hko, ih]

/-! ## C15 -/

/-- C15 as stated fails. With a reachable broker whose first three sends fail
(`recoveringEnv`), two copies of one message are accepted into the dispatch queue (as
after a create and a reconciliation pass). The worker's step for the first copy makes
three failing attempts and puts the message into the retry queue; its step for the
second copy makes one attempt, which succeeds, and the message is still in the retry
queue under its identifier afterwards. -/
theorem C15_counterexample :
    ∃ b2 b3 b4, publishAll recoveringEnv 1 [fillerMessage, fillerMessage]
        (NewRabbitMQPublisher recoveringEnv) = .ok (b2, [none, none]) ∧
      workerReceive recoveringEnv 1 b2 = .ok b3 ∧
      b3.retryQueue = [(fillerMessage.ID, fillerMessage)] ∧
      b3.directAttempts = [fillerMessage, fillerMessage, fillerMessage] ∧
      b3.brokerAcks = [] ∧
      workerReceive recoveringEnv 1 b3 = .ok b4 ∧
      b4.directAttempts = b3.directAttempts ++ [fillerMessage] ∧
      b4.brokerAcks = [fillerMessage] ∧
      mapGet fillerMessage.ID b4.retryQueue = some fillerMessage :=
  ⟨_, _, _, by rfl, by rfl, by rfl, by rfl, by rfl, by rfl, by rfl, by rfl, by rfl⟩

/-- C15, amended: for a message the worker takes from the dispatch queue, a worker step
that returns has made at most 3 direct publish attempts, all for that message, each
with one send; every attempt before the last one failed. Either the last attempt
succeeded, and then the retry queue is left as it was, or all 3 attempts failed, and
then the message is stored in the retry queue under its identifier (replacing what was
stored under it). Entries under other identifiers are neither added, removed nor
changed. -/
theorem C15_worker_receive (env : Env) (fuel : Nat) (b b1 : BrokerSide)
    (msg : NotificationMessage) (rest : List NotificationMessage)
    (hq : b.pub.asyncChannel = msg :: rest)
    (hstep : workerReceive env fuel b = .ok b1) :
    ∃ k, k ≤ 3 ∧
      b1.directAttempts = b.directAttempts ++ List.replicate k msg ∧
      b1.sendCalls = b.sendCalls + k ∧
      b1.pub.asyncChannel = rest ∧
      (∀ j, j + 1 < k → env.send (b.sendCalls + j) ≠ none) ∧
      ((0 < k ∧ env.send (b.sendCalls + (k - 1)) = none ∧
          b1.brokerAcks = b.brokerAcks ++ [msg] ∧ b1.retryQueue = b.retryQueue) ∨
       (k = 3 ∧ (∀ j, j < 3 → env.send (b.sendCalls + j) ≠ none) ∧
          b1.brokerAcks = b.brokerAcks ∧
          b1.retryQueue = mapInsert msg.ID msg b.retryQueue ∧
          mapGet msg.ID b1.retryQueue = some msg)) ∧
      (∀ id, id ≠ msg.ID → mapGet id b1.retryQueue = mapGet id b.retryQueue) := by
  unfold workerReceive at hstep
  rw [hq] at hstep
  simp only at hstep
  cases hp : publishWithRetry env fuel { b with pub := { b.pub with asyncChannel := rest } } msg 3 with
  | outOfFuel => rw [hp] at hstep; cases hstep
  | panicked x => rw [hp] at hstep; cases hstep
  | ok p =>
    obtain ⟨b2, r⟩ := p
    rw [hp] at hstep
    obtain ⟨k, hk, hda, hsc, hrq, hch, hearly, hlast⟩ :=
      publishWithRetryLoop_spec env fuel msg 3 3 _ b2 none r hp
    simp only at hda hsc hrq hch hearly hlast
    cases r with
    | none =>
      simp only [Outcome.ok.injEq] at hstep
      rw [← hstep]
      rcases hlast with ⟨-, hpos, hsucc, hacks⟩ | ⟨hr, -⟩
      · exact ⟨k, hk, hda, hsc, hch, hearly, Or.inl ⟨hpos, hsucc, hacks, hrq⟩,
          fun id _ => by rw [hrq]⟩
      · exact absurd rfl hr
    | some e =>
      simp only [Outcome.ok.injEq] at hstep
      rw [← hstep]
      rcases hlast with ⟨hr, -⟩ | ⟨-, hk3, hall, hacks⟩
      · cases hr
      · refine ⟨k, hk, hda, hsc, hch, hearly, Or.inr ⟨hk3, ?_, hacks, ?_, ?_⟩, fun id hne => ?_⟩
        · rw [← hk3]; exact hall
        · simp only [hrq]
        · simp only [hrq]
          exact mapGet_mapInsert_same _ _ _
        · simp only [hrq]
          exact mapGet_mapInsert_other _ _ _ _ hne

/-- Witness of C15, amended: the worker's step for the first of two queued copies under
`recoveringEnv`; it returns after three failed attempts. -/
theorem C15_worker_receive_witness :
    ∃ b3 k, workerReceive recoveringEnv 1
        (enqueued (enqueued (NewRabbitMQPublisher recoveringEnv) fillerMessage) fillerMessage) =
        .ok b3 ∧
      k ≤ 3 ∧
      b3.directAttempts = List.replicate k fillerMessage ∧
      b3.pub.asyncChannel = [fillerMessage] := by
  obtain ⟨k, hk, hda, -, hch, -⟩ := C15_worker_receive recoveringEnv 1
    (enqueued (enqueued (NewRabbitMQPublisher recoveringEnv) fillerMessage) fillerMessage)
    { NewRabbitMQPublisher recoveringEnv with
      pub := { connection := some 4, channel := some 4, asyncChannel := [fillerMessage],
               isConnected := true, doneClosed := false }
      retryQueue := [(fillerMessage.ID, fillerMessage)]
      dialCalls := 4, sendCalls := 3
      publishCalls := [fillerMessage, fillerMessage]
      directAttempts := [fillerMessage, fillerMessage, fillerMessage] }
    fillerMessage [fillerMessage] (by rfl) (by rfl)
  exact ⟨_, k, by rfl, hk, hda, hch⟩

/-! ## The retry sweeper -/

theorem mem_keys_mapInsert (id x : String) (msg : NotificationMessage)
    (m : List (String × NotificationMessage)) :
    x ∈ (mapInsert id msg m).map (fun kv => kv.1) ↔ x = id ∨ x ∈ m.map (fun kv => kv.1) := by
  induction m with
  | nil => simp [mapInsert]
  | cons kv rest ih =>
    obtain ⟨k, v⟩ := kv
    unfold mapInsert
    by_cases hk : k = id
    · rw [if_pos hk]
      simp only [List.map_cons, List.mem_cons]
      constructor
      · intro h; exact Or.inr h
      · rintro (h | h)
        · exact Or.inl (h.trans hk.symm)
        · exact h
    · rw [if_neg hk]
      simp only [List.map_cons, List.mem_cons, ih]
      tauto

theorem mapInsert_keys_nodup (id : String) (msg : NotificationMessage)
    (m : List (String × NotificationMessage)) (h : (m.map (fun kv => kv.1)).Nodup) :
    ((mapInsert id msg m).map (fun kv => kv.1)).Nodup := by
  induction m with
  | nil => simp [mapInsert]
  | cons kv rest ih =>
    obtain ⟨k, v⟩ := kv
    rw [List.map_cons, List.nodup_cons] at h
    unfold mapInsert
    by_cases hk : k = id
    · rw [if_pos hk, List.map_cons, List.nodup_cons]
      exact h
    · rw [if_neg hk, List.map_cons, List.nodup_cons]
      refine ⟨fun hmem => ?_, ih h.2⟩
      rcases (mem_keys_mapInsert id k msg rest).mp hmem with h1 | h1
      · exact hk h1
      · exact h.1 h1

theorem workerReceive_keys_nodup (env : Env) (fuel : Nat) (b b1 : BrokerSide)
    (hstep : workerReceive env fuel b = .ok b1)
    (h : (b.retryQueue.map (fun kv => kv.1)).Nodup) :
    (b1.retryQueue.map (fun kv => kv.1)).Nodup := by
  unfold workerReceive at hstep
  cases hq : b.pub.asyncChannel with
  | nil =>
    rw [hq] at hstep
    simp only [Outcome.ok.injEq] at hstep
    rw [← hstep]
    exact h
  | cons msg rest =>
    rw [hq] at hstep
    simp only at hstep
    cases hp : publishWithRetry env fuel
        { b with pub := { b.pub with asyncChannel := rest } } msg 3 with
    | outOfFuel => rw [hp] at hstep; cases hstep
    | panicked x => rw [hp] at hstep; cases hstep
    | ok p =>
      obtain ⟨b2, r⟩ := p
      rw [hp] at hstep
      obtain ⟨k, -, -, -, hrq, -⟩ := publishWithRetryLoop_spec env fuel msg 3 3 _ b2 none r hp
      simp only at hrq
      cases r with
      | none =>
        simp only [Outcome.ok.injEq] at hstep
        rw [← hstep, hrq]
        exact h
      | some e =>
        simp only [Outcome.ok.injEq] at hstep
        rw [← hstep]
        simp only [hrq]
        exact mapInsert_keys_nodup _ _ _ h

theorem sweepRetryQueue_disconnected (env : Env) (fuel : Nat)
    (entries : List (String × NotificationMessage)) (b : BrokerSide)
    (hdown : b.pub.isConnected = false) : sweepRetryQueue env fuel entries b = .ok b := by
  induction entries with
  | nil => rfl
  | cons entry rest ih =>
    obtain ⟨id, msg⟩ := entry
    rw [sweepRetryQueue]
    simp only [hdown, Bool.false_eq_true, if_false]
    exact ih

theorem sweepRetryQueue_spec (env : Env) (fuel : Nat)
    (entries : List (String × NotificationMessage)) :
    ∀ (b b1 : BrokerSide), sweepRetryQueue env fuel entries b = .ok b1 →
      ∃ att succ : List (String × NotificationMessage),
        succ.Sublist att ∧ att.Sublist entries ∧
        b1.directAttempts = b.directAttempts ++ att.map (fun kv => kv.2) ∧
        b1.brokerAcks = b.brokerAcks ++ succ.map (fun kv => kv.2) ∧
        b1.retryQueue =
          b.retryQueue.filter (fun kv => decide (kv.1 ∉ succ.map (fun kv => kv.1))) ∧
        (b.pub.isConnected = false → att = []) := by
  induction entries with
  | nil =>
    intro b b1 h
    simp only [sweepRetryQueue, Outcome.ok.injEq] at h
    exact ⟨[], [], List.Sublist.refl _, List.Sublist.refl _, by rw [← h]; simp,
      by rw [← h]; simp, by rw [← h]; simp, fun _ => rfl⟩
  | cons entry rest ih =>
    intro b b1 h
    obtain ⟨id, msg⟩ := entry
    rw [sweepRetryQueue] at h
    by_cases hc : b.pub.isConnected = true
    · simp only [hc, if_true] at h
      cases hp : publishWithRetry env fuel b msg 1 with
      | outOfFuel => rw [hp] at h; cases h
      | panicked x => rw [hp] at h; cases h
      | ok p =>
        obtain ⟨b2, r⟩ := p
        rw [hp] at h
        obtain ⟨k, hk, hda, -, hrq, -, -, hlast⟩ :=
          publishWithRetryLoop_spec env fuel msg 1 1 b b2 none r hp
        cases r with
        | none =>
          simp only at h
          obtain ⟨att, succ, hsub1, hsub2, hatt, hack, hq, -⟩ := ih _ b1 h
          simp only at hatt hack hq
          rcases hlast with ⟨-, hpos, -, hacks⟩ | ⟨hr, -⟩
          · have hk1 : k = 1 := by omega
            subst hk1
            refine ⟨(id, msg) :: att, (id, msg) :: succ, hsub1.cons₂ _, hsub2.cons₂ _, ?_, ?_, ?_,
              fun hf => ?_⟩
            · rw [hatt, hda]; simp
            · rw [hack, hacks]; simp
            · rw [hq, hrq, mapDelete, List.filter_filter]
              apply List.filter_congr
              intro kv _
              simp only [List.map_cons, List.mem_cons, not_or, ne_eq, Bool.decide_and,
                decide_not]
              rw [Bool.and_comm]
            · rw [hc] at hf; cases hf
          · exact absurd rfl hr
        | some e =>
          simp only at h
          obtain ⟨att, succ, hsub1, hsub2, hatt, hack, hq, -⟩ := ih _ b1 h
          rcases hlast with ⟨hr, -⟩ | ⟨-, hk1, -, hacks⟩
          · cases hr
          · subst hk1
            refine ⟨(id, msg) :: att, succ, hsub1.cons _, hsub2.cons₂ _, ?_, ?_, ?_,
              fun hf => ?_⟩
            · rw [hatt, hda]; simp
            · rw [hack, hacks]
            · rw [hq, hrq]
            · rw [hc] at hf; cases hf
    · have hdown : b.pub.isConnected = false := by simpa using hc
      simp only [hdown, Bool.false_eq_true, if_false] at h
      obtain ⟨att, succ, hsub1, hsub2, hatt, hack, hq, hnone⟩ := ih b b1 h
      exact ⟨att, succ, hsub1, hsub2.cons _, hatt, hack, hq, hnone⟩

theorem filter_keys_eq_filter_entries (q succ : List (String × NotificationMessage))
    (hkeys : (q.map (fun kv => kv.1)).Nodup) (hsub : succ.Sublist q) :
    q.filter (fun kv => decide (kv.1 ∉ succ.map (fun kv => kv.1))) =
      q.filter (fun kv => decide (kv ∉ succ)) := by
  apply List.filter_congr
  intro kv hkv
  have hiff : kv.1 ∈ succ.map (fun kv => kv.1) ↔ kv ∈ succ := by
    constructor
    · intro hm
      obtain ⟨kv2, hm2, hEq⟩ := List.mem_map.mp hm
      have := List.inj_on_of_nodup_map hkeys (hsub.subset hm2) hkv hEq
      rw [← this]
      exact hm2
    · intro hm
      exact List.mem_map_of_mem (fun kv => kv.1) hm
  simp only [hiff]

/-! ## C16 -/

/-- C16: for every content of the retry queue (a map: distinct keys, visited in any
order), a sweeper tick that returns has attempted a sublist of the entries, one direct
publish attempt each; the entries whose attempt succeeded are exactly the ones missing
from the queue afterwards, all others remain in place, and nothing is added. An entry
visited while the flag reads false gets no attempt and stays; with the flag false at the
start of the tick, the tick returns with nothing changed. -/
theorem C16_sweeper_tick (env : Env) (fuel : Nat) (b b1 : BrokerSide)
    (hkeys : (b.retryQueue.map (fun kv => kv.1)).Nodup)
    (htick : workerTick env fuel b = .ok b1) :
    (∃ attempted succeeded : List (String × NotificationMessage),
      succeeded.Sublist attempted ∧ attempted.Sublist b.retryQueue ∧
      b1.directAttempts = b.directAttempts ++ attempted.map (fun kv => kv.2) ∧
      b1.brokerAcks = b.brokerAcks ++ succeeded.map (fun kv => kv.2) ∧
      b1.retryQueue = b.retryQueue.filter (fun kv => decide (kv ∉ succeeded)) ∧
      b1.retryQueue.Sublist b.retryQueue) ∧
    (∀ (entry : String × NotificationMessage) (rest : List (String × NotificationMessage))
        (b2 : BrokerSide), b2.pub.isConnected = false →
      sweepRetryQueue env fuel (entry :: rest) b2 = sweepRetryQueue env fuel rest b2) ∧
    (b.pub.isConnected = false → b1 = b) := by
  have hsweep : sweepRetryQueue env fuel b.retryQueue b = .ok b1 := by
    unfold workerTick at htick
    split_ifs at htick with hlen
    · exact htick
    · have hnil : b.retryQueue = [] := by
        cases hq : b.retryQueue with
        | nil => rfl
        | cons x xs => rw [hq] at hlen; simp at hlen
      rw [hnil]
      exact htick
  refine ⟨?_, fun entry rest b2 hdown => ?_, fun hdown => ?_⟩
  · obtain ⟨att, succ, hsub1, hsub2, hatt, hack, hq, -⟩ :=
      sweepRetryQueue_spec env fuel b.retryQueue b b1 hsweep
    have hq2 := filter_keys_eq_filter_entries b.retryQueue succ hkeys (hsub1.trans hsub2)
    refine ⟨att, succ, hsub1, hsub2, hatt, hack, by rw [hq, hq2], ?_⟩
    rw [hq]
    exact List.filter_sublist _
  · obtain ⟨id, msg⟩ := entry
    rw [sweepRetryQueue]
    simp only [hdown, Bool.false_eq_true, if_false]
  · rw [sweepRetryQueue_disconnected env fuel _ b hdown] at hsweep
    simp only [Outcome.ok.injEq] at hsweep
    exact hsweep.symm

/-- Witness of C16: under `recoveringEnv`, after the worker has moved one message into
the retry queue (three failed sends), a tick publishes it and empties the queue. -/
theorem C16_sweeper_tick_witness :
    ∃ b1, workerTick recoveringEnv 1
        { NewRabbitMQPublisher recoveringEnv with
          retryQueue := [(fillerMessage.ID, fillerMessage)], sendCalls := 3 } = .ok b1 ∧
      b1.retryQueue = [] ∧ b1.brokerAcks = [fillerMessage] ∧
      ∃ attempted succeeded : List (String × NotificationMessage),
        succeeded.Sublist attempted ∧
        attempted.Sublist [(fillerMessage.ID, fillerMessage)] ∧
        b1.directAttempts = attempted.map (fun kv => kv.2) := by
  obtain ⟨att, succ, h1, h2, h3, -⟩ := (C16_sweeper_tick recoveringEnv 1
    { NewRabbitMQPublisher recoveringEnv with
      retryQueue := [(fillerMessage.ID, fillerMessage)], sendCalls := 3 }
    { NewRabbitMQPublisher recoveringEnv with
      retryQueue := [], sendCalls := 4
      directAttempts := [fillerMessage], brokerAcks := [fillerMessage] }
    (by simp) (by rfl)).1
  exact ⟨_, by rfl, by rfl, by rfl, att, succ, h1, h2, h3⟩

/-! ## C17 -/

/-- C17 fails on the code: `NewRabbitMQPublisher` spawns `connectionMonitor` exactly when
its initial connect fails, so a publisher whose initial connect succeeded has no loop
waiting on the liveness signals. For such a publisher a connection-closed or
channel-closed signal changes nothing: the flag still reads true during the outage,
the handles are kept and no reconnect is started. `linkLostEnv` is such a case (first
dial accepted); under `brokerDownEnv` (first dial refused) the monitor is spawned. -/
theorem C17_monitor_only_after_failed_connect (env : Env) (fuel : Nat) :
    ((NewRabbitMQPublisher env).monitorStarted = true ↔
      (NewRabbitMQPublisher env).pub.isConnected = false) ∧
    ((NewRabbitMQPublisher env).pub.isConnected = true →
      livenessSignal env fuel (NewRabbitMQPublisher env) = .ok (NewRabbitMQPublisher env)) ∧
    (NewRabbitMQPublisher linkLostEnv).pub.isConnected = true ∧
    (NewRabbitMQPublisher linkLostEnv).monitorStarted = false ∧
    livenessSignal linkLostEnv fuel (NewRabbitMQPublisher linkLostEnv) =
      .ok (NewRabbitMQPublisher linkLostEnv) ∧
    (NewRabbitMQPublisher brokerDownEnv).monitorStarted = true := by
  have hiff : ∀ env : Env, (NewRabbitMQPublisher env).monitorStarted = true ↔
      (NewRabbitMQPublisher env).pub.isConnected = false := by
    intro env
    unfold NewRabbitMQPublisher connect
    cases hd : env.dial initialPublisher.dialCalls <;> simp [initialPublisher, hd]
  have hsig : ∀ env : Env, (NewRabbitMQPublisher env).pub.isConnected = true →
      livenessSignal env fuel (NewRabbitMQPublisher env) = .ok (NewRabbitMQPublisher env) := by
    intro env hc
    have hm : ¬ (NewRabbitMQPublisher env).monitorStarted = true := by
      intro h
      rw [(hiff env).mp h] at hc
      cases hc
    unfold livenessSignal
    rw [if_neg (fun h => hm h.1)]
  exact ⟨hiff env, hsig env, by rfl, by rfl, hsig linkLostEnv (by rfl), by rfl⟩

/-! ## C18 -/

theorem publishWithRetry_blocks (env : Env) (fuel : Nat) (b : BrokerSide)
    (msg : NotificationMessage) (n : Nat)
    (hfail : ∀ k, b.dialCalls ≤ k → ∀ conn ch, env.dial k ≠ .established conn ch)
    (hdown : b.pub.isConnected = false) :
    publishWithRetry env fuel b msg (n + 1) = .outOfFuel := by
  unfold publishWithRetry
  rw [publishWithRetryLoop]
  simp only [hdown, if_true, reconnect_never env fuel b hfail hdown]

/-- C18 fails on the code: on the publisher built with the broker down (flag false,
every connect attempt refused) `publishWithRetry` with any positive maxRetries does not
return, for every amount of fuel (every number of connect attempts the loop is
allowed): its first iteration calls `reconnect`, which loops until a connect attempt
succeeds, so the one-second wait and the later iterations are never reached. Only
maxRetries 0 returns, with an error and without any attempt. The worker's step for a
queued message does not return either. -/
theorem C18_retry_waits_for_reconnect (fuel : Nat) (n : Nat) :
    (NewRabbitMQPublisher brokerDownEnv).pub.isConnected = false ∧
    publishWithRetry brokerDownEnv fuel (NewRabbitMQPublisher brokerDownEnv) fillerMessage (n + 1) =
      .outOfFuel ∧
    publishWithRetry brokerDownEnv fuel (NewRabbitMQPublisher brokerDownEnv) fillerMessage 0 =
      .ok (NewRabbitMQPublisher brokerDownEnv, some "failed after 0 attempts: <nil>") ∧
    workerReceive brokerDownEnv fuel (enqueued (NewRabbitMQPublisher brokerDownEnv) fillerMessage) =
      .outOfFuel := by
  have hfail : ∀ (b : BrokerSide) k, b.dialCalls ≤ k →
      ∀ conn ch, brokerDownEnv.dial k ≠ .established conn ch := by
    intro b k _ conn ch
    simp [brokerDownEnv]
  refine ⟨by rfl, publishWithRetry_blocks _ _ _ _ _ (hfail _) (by rfl), by rfl, ?_⟩
  have hq : (enqueued (NewRabbitMQPublisher brokerDownEnv) fillerMessage).pub.asyncChannel =
      [fillerMessage] := by rfl
  unfold workerReceive
  rw [hq]
  simp only
  rw [publishWithRetry_blocks brokerDownEnv fuel _ fillerMessage 2 (hfail _) (by rfl)]

/-! ## C19 -/

theorem connect_handles (env : Env) (b : BrokerSide) (h : HandlesPresent b) :
    HandlesPresent (connect env b).1 := by
  unfold connect
  split_ifs with hc
  · exact h
  · cases env.dial b.dialCalls with
    | dialFailed e => exact h
    | channelFailed e => exact h
    | exchangeFailed e => exact h
    | established conn ch =>
      intro _
      exact ⟨by simp, by simp⟩

theorem reconnect_handles (env : Env) (fuel : Nat) (b b1 : BrokerSide)
    (hr : reconnect env fuel b = .ok b1) (h : HandlesPresent b) : HandlesPresent b1 := by
  induction fuel generalizing b with
  | zero =>
    unfold reconnect at hr
    split_ifs at hr
    cases hr
    exact h
  | succ n ih =>
    unfold reconnect at hr
    split_ifs at hr
    · cases hr
      exact h
    · have hc := connect_handles env b h
      cases hcon : connect env b with
      | mk b2 r =>
        rw [hcon] at hr hc
        cases r with
        | some e => exact ih b2 hr hc
        | none =>
          simp only at hr
          cases hr
          exact hc

theorem reconnect_no_panic (env : Env) (fuel : Nat) (b : BrokerSide) (r : String) :
    reconnect env fuel b ≠ .panicked r := by
  induction fuel generalizing b with
  | zero =>
    unfold reconnect
    split_ifs <;> simp
  | succ n ih =>
    unfold reconnect
    split_ifs
    · simp
    · cases hcon : connect env b with
      | mk b2 res =>
        cases res with
        | some e => exact ih b2
        | none => simp

theorem handleDisconnect_handles (env : Env) (fuel : Nat) (b b1 : BrokerSide)
    (hr : handleDisconnect env fuel b = .ok b1) : HandlesPresent b1 := by
  unfold handleDisconnect at hr
  exact reconnect_handles env fuel _ b1 hr (fun hc => by simp at hc)

theorem publishDirect_handles (env : Env) (fuel : Nat) (b b1 : BrokerSide)
    (msg : NotificationMessage) (r : Option String)
    (hp : publishDirect env fuel b msg = .ok (b1, r)) (h : HandlesPresent b) :
    HandlesPresent b1 := by
  unfold publishDirect at hp
  simp only at hp
  split_ifs at hp with hc
  · cases hp
    exact h
  · cases hch : b.pub.channel with
    | none => simp [hch] at hp
    | some ch =>
      simp only [hch] at hp
      cases hs : env.send b.sendCalls with
      | none =>
        simp only [hs] at hp
        cases hp
        exact h
      | some e =>
        simp only [hs, Outcome.bind] at hp
        split at hp
        · rename_i b2 hr
          cases hp
          exact handleDisconnect_handles env fuel _ _ hr
        · cases hp
        · cases hp

theorem publishDirect_no_panic (env : Env) (fuel : Nat) (b : BrokerSide)
    (msg : NotificationMessage) (r : String) (h : HandlesPresent b) :
    publishDirect env fuel b msg ≠ .panicked r := by
  unfold publishDirect
  simp only
  split_ifs with hc
  · simp
  · have hcon : b.pub.isConnected = true := by simpa using hc
    obtain ⟨-, hch⟩ := h hcon
    cases hch2 : b.pub.channel with
    | none => exact absurd hch2 hch
    | some ch =>
      simp only
      cases hs : env.send b.sendCalls with
      | none => simp
      | some e =>
        simp only [handleDisconnect, Outcome.bind]
        split
        · simp
        · simp
        · rename_i x hx
          exact absurd hx (reconnect_no_panic env fuel _ x)

theorem Close_handles (closeErr : Option String) (b b1 : BrokerSide) (r : Option String)
    (hc : Close closeErr b = .ok (b1, r)) (h : HandlesPresent b) : HandlesPresent b1 := by
  unfold Close at hc
  split_ifs at hc
  simp only at hc
  split at hc <;>
    (simp only [Outcome.ok.injEq, Prod.mk.injEq] at hc
     rw [← hc.1]
     exact h)

theorem pubStep_handles (env : Env) (fuel : Nat) (b b1 : BrokerSide) (op : PubOp)
    (hs : pubStep env fuel b op = .ok b1) (h : HandlesPresent b) : HandlesPresent b1 := by
  cases op with
  | connect =>
    simp only [pubStep, Outcome.ok.injEq] at hs
    rw [← hs]
    exact connect_handles env b h
  | handleDisconnect => exact handleDisconnect_handles env fuel b b1 hs
  | publishDirect msg =>
    simp only [pubStep, Outcome.bind] at hs
    split at hs
    · rename_i p hp
      cases hs
      exact publishDirect_handles env fuel b p.1 msg p.2 hp h
    · cases hs
    · cases hs
  | close closeErr =>
    simp only [pubStep, Outcome.bind] at hs
    split at hs
    · rename_i p hp
      cases hs
      exact Close_handles closeErr b p.1 p.2 hp h
    · cases hs
    · cases hs

theorem pubRun_handles (env : Env) (fuel : Nat) (ops : List PubOp) (b b1 : BrokerSide)
    (hr : pubRun env fuel ops b = .ok b1) (h : HandlesPresent b) : HandlesPresent b1 := by
  induction ops generalizing b with
  | nil =>
    simp only [pubRun, Outcome.ok.injEq] at hr
    rw [← hr]
    exact h
  | cons op rest ih =>
    simp only [pubRun, Outcome.bind] at hr
    split at hr
    · rename_i b2 hs
      exact ih b2 hr (pubStep_handles env fuel b b2 op hs h)
    · cases hr
    · cases hr

/-- C19: in every publisher state reached from the constructor's initial state by
`connect`, `handleDisconnect`, `publishDirect` and `Close` steps applied one after
the other, the flag `isConnected` being set implies that the connection handle and the
channel handle are both non-nil. Hence `publishDirect` never dereferences a nil
channel there (it never panics), `connect` on a connected publisher returns nil and
changes nothing, and a `connect` that fails found the flag false and leaves it false
with both handles as they were. -/
theorem C19_connected_implies_handles (env : Env) (fuel : Nat) (ops : List PubOp)
    (b : BrokerSide) (hrun : pubRun env fuel ops initialPublisher = .ok b) :
    HandlesPresent b ∧
    (∀ msg r, publishDirect env fuel b msg ≠ .panicked r) ∧
    (b.pub.isConnected = true → connect env b = (b, none)) ∧
    (∀ b1 e, connect env b = (b1, some e) →
      b.pub.isConnected = false ∧ b1.pub.isConnected = false ∧
      b1.pub.connection = b.pub.connection ∧ b1.pub.channel = b.pub.channel) := by
  have hp : HandlesPresent b :=
    pubRun_handles env fuel ops initialPublisher b hrun (fun hc => by cases hc)
  refine ⟨hp, fun msg r => publishDirect_no_panic env fuel b msg r hp, fun hc => ?_,
    fun b1 e hcon => ?_⟩
  · unfold connect
    rw [if_pos hc]
  · unfold connect at hcon
    split_ifs at hcon with hc
    · simp at hcon
    · have hdown : b.pub.isConnected = false := by simpa using hc
      cases hd : env.dial b.dialCalls <;> rw [hd] at hcon <;>
        simp only [Prod.mk.injEq, Option.some.injEq] at hcon
      · rw [← hcon.1]; exact ⟨hdown, hdown, rfl, rfl⟩
      · rw [← hcon.1]; exact ⟨hdown, hdown, rfl, rfl⟩
      · rw [← hcon.1]; exact ⟨hdown, hdown, rfl, rfl⟩
      · exact absurd hcon.2 (by simp)

/-- Witness of C19: under `recoveringEnv`, a connect, a direct publish whose send fails
(so that `handleDisconnect` reconnects) and a `Close`. -/
theorem C19_connected_implies_handles_witness :
    ∃ b, pubRun recoveringEnv 1
        [PubOp.connect, PubOp.publishDirect fillerMessage, PubOp.close none]
        initialPublisher = .ok b ∧
      b.pub.isConnected = true ∧ b.pub.connection = some 2 ∧ b.pub.channel = some 2 ∧
      HandlesPresent b :=
  ⟨_, by rfl, by rfl, by rfl, by rfl,
    (C19_connected_implies_handles recoveringEnv 1
      [PubOp.connect, PubOp.publishDirect fillerMessage, PubOp.close none]
      { initialPublisher with
        pub := { connection := some 2, channel := some 2, asyncChannel := [],
                 isConnected := true, doneClosed := true }
        dialCalls := 2, sendCalls := 1, directAttempts := [fillerMessage] }
      (by rfl)).1⟩

end NotificationApi
